import Mathlib

/-!
Grant lifecycle of granted-approvals: a shallow embedding.

The development embeds, function by function, the Go sources

* `accesshandler/pkg/runtime/lambda/revoke_grant.go`
  (`BuildExecutionARN`, `Runtime.RevokeGrant`),
* `accesshandler/pkg/providers/aws/ecs-shell-sso/access.go`
  (`permissionSetNameFromGrantID`, `getUser`, `GetPermissionSetARN`,
  `createPermissionSetAndAssignment`, `Grant`, `Revoke`, `IsActive`,
  `getTaskARNFromTaskDefinition`, `EcsExecEnabled`, `Instructions`),
* `accesshandler/pkg/providers/aws/eks-roles-sso/options.go` (`Options`),
* `accesshandler/pkg/providers/testvault/access.go` (`EscapeEmailForURL`),
* `pkg/identity/identitysync/azure.go` (`safeMapGet`, `idpUserFromAzureUser`),

and states the properties of the specification over these definitions.  The
request handlers of `pkg/api`, of which only the tests are at hand, are
modelled from the specification.

Conventions of the embedding.

* A Go `string` is a finite sequence of bytes: `GoString = List UInt8`.
  `len(s)` is `List.length` and `s[:n]` is `List.take n`.
* A Go function that can hit a runtime panic (index out of range, nil
  dereference) returns `Option` / `Result.panic` there.
* Calls to remote services go through explicit response tables or an
  explicit backend state, and every call is recorded in a trace.
-/

/-! ## Definitions -/

/-- A Go string: a finite sequence of bytes. -/
abbrev GoString := List UInt8

/-- The bytes (UTF-8) of a string literal of the Go source. -/
def goStr (s : String) : GoString := s.toList.flatMap String.utf8EncodeChar

/-- The byte `':'`, the separator used by `BuildExecutionARN`. -/
def colon : UInt8 := 58

namespace Strings

/-- Go `strings.Split(s, sep)` for a one-byte separator: the pieces of `s`
between consecutive occurrences of `sep`; `n` occurrences give `n + 1`
pieces, and the empty string gives one empty piece. -/
def Split : GoString → UInt8 → List GoString
  | [], _ => [[]]
  | c :: cs, sep =>
    if c = sep then [] :: Split cs sep
    else
      match Split cs sep with
      | [] => [[c]]
      | piece :: rest => (c :: piece) :: rest

/-- Go `strings.Join(elems, sep)` for a one-byte separator. -/
def Join : List GoString → UInt8 → GoString
  | [], _ => []
  | [a], _ => a
  | a :: b :: rest, sep => a ++ sep :: Join (b :: rest) sep

end Strings

namespace EcsShellSso

/-- Go `permissionSetNameFromGrantID` (ecs-shell-sso/access.go:384-390):
the grant ID, cut to its first 32 bytes when it is longer than 32. -/
def permissionSetNameFromGrantID (grantID : GoString) : GoString :=
  let permissionSetName := grantID
  if permissionSetName.length > 32 then permissionSetName.take 32
  else permissionSetName

end EcsShellSso

namespace Lambda

/-- Go `BuildExecutionARN` (lambda/revoke_grant.go:89-99).  `none` is the
runtime panic of `splitARN[5] = "execution"` when the state machine ARN has
fewer than six colon-separated segments. -/
def BuildExecutionARN (stateMachineARN grantID : GoString) : Option GoString :=
  let splitARN := Strings.Split stateMachineARN colon
  if 5 < splitARN.length then
    let splitARN := splitARN.set 5 (goStr "execution")
    let splitARN := splitARN ++ [grantID]
    some (Strings.Join splitARN colon)
  else
    none

end Lambda

/-- A Go `error` value.  `message` is an error known only by its text
(`errors.New`, `fmt.Errorf`, an error of a remote service); the other
constructors are the typed errors the sources create or test for:
`errTaskNotFound` is the package variable of that name of ecs-shell-sso, and
`NumError` is the `*strconv.NumError` returned by `strconv.Atoi`. -/
inductive GoError where
  | message (text : GoString)
  | ProviderNotFoundError (Provider : GoString)
  | UserNotFoundError (Email : GoString)
  | ConflictException (Message : GoString)
  | errTaskNotFound
  | NumError (Func Num Err : GoString)
deriving DecidableEq, Repr

/-- How a Go call ends: a value, a returned `error`, or a runtime panic.
`exhausted` is not an end: the step bound the embedding gives to an unbounded
loop ran out while the loop was still running. -/
inductive Result (α : Type) where
  | ok (value : α)
  | error (err : GoError)
  | panic
  | exhausted
deriving DecidableEq, Repr

namespace Types

/-- Modelled from the spec: the `GrantStatus` enumeration of
`accesshandler/pkg/types`, which is not among the sources (spec §3:
Status ∈ {PENDING, ACTIVE, EXPIRED, REVOKED, ERROR}). -/
inductive GrantStatus where
  | PENDING
  | ACTIVE
  | EXPIRED
  | REVOKED
  | ERROR
deriving DecidableEq, Repr

/-- Modelled from the spec: the `Grant` record of `accesshandler/pkg/types`,
which is not among the sources (spec §3: ID, Provider, Subject, With, Status,
window Start/End).  `With` is the argument bag, a list of key/value pairs;
`Start` and `End` are instants. -/
structure Grant where
  ID : GoString
  Provider : GoString
  Subject : GoString
  With : List (GoString × GoString)
  Status : GrantStatus
  Start : Int
  End : Int
deriving DecidableEq, Repr

end Types

namespace Lambda

/-- The `StateEnteredEventDetails` of a Step Functions history event; `Name`
is a `*string`. -/
structure StateEnteredEventDetails where
  Name : Option GoString
deriving DecidableEq, Repr

/-- A Step Functions history event, with the two fields `RevokeGrant` reads:
`EventType` is the Go field `Type`, and `StateEnteredEventDetails` is a
pointer. -/
structure HistoryEvent where
  EventType : GoString
  StateEnteredEventDetails : Option StateEnteredEventDetails
deriving DecidableEq, Repr

/-- An entry of `config.Providers`: the provider behind the `Provider`
field, with the one method `RevokeGrant` calls,
`Revoke(ctx, subject, args, grantID)`; `none` is a nil error. -/
structure RegisteredProvider where
  Revoke : GoString → GoString → GoString → Option GoError

/-- The collaborators of `RevokeGrant`, as response tables: what each call
answers for each argument.  `RevokeGrant` makes every call at most once, so a
table describes any behaviour of the outside world during one run. -/
structure Env where
  /-- Answer of `aws_config.LoadDefaultConfig`; `none` is success. -/
  LoadDefaultConfig : Option GoError
  /-- Answer of `sfnClient.DescribeExecution` for an execution ARN: an error,
  or the `Input` field (a `*string`) of the output. -/
  DescribeExecution : GoString → Except GoError (Option GoString)
  /-- Decoding `json.Unmarshal(input, &grantInput)` followed by
  `grantInput.Grant`. -/
  UnmarshalWorkflowInput : GoString → Except GoError Types.Grant
  /-- The map `config.Providers`. -/
  Providers : GoString → Option RegisteredProvider
  /-- Encoding `json.Marshal(grant.With)`. -/
  MarshalWith : List (GoString × GoString) → Except GoError GoString
  /-- Answer of `sfnClient.GetExecutionHistory`: an error or `Events`. -/
  GetExecutionHistory : GoString → Except GoError (List HistoryEvent)
  /-- Answer of `sfnClient.StopExecution`; `none` is success. -/
  StopExecution : GoString → Option GoError

/-- The receiver of `RevokeGrant`. -/
structure Runtime where
  GranterStateMachineARN : GoString

/-- The calls `RevokeGrant` makes to its collaborators, with their arguments. -/
inductive Call where
  | DescribeExecution (ExecutionArn : GoString)
  | GetExecutionHistory (ExecutionArn : GoString)
  | ProviderRevoke (provider subject args grantID : GoString)
  | StopExecution (ExecutionArn : GoString)
deriving DecidableEq, Repr

/-- The call is a `Provider.Revoke`. -/
def Call.isProviderRevoke : Call → Bool
  | .ProviderRevoke _ _ _ _ => true
  | _ => false

/-- The call is a `StopExecution`. -/
def Call.isStopExecution : Call → Bool
  | .StopExecution _ => true
  | _ => false

/-- The call changes something outside: `Provider.Revoke` and
`StopExecution` do, the two read calls do not. -/
def Call.isMutating : Call → Bool
  | .ProviderRevoke _ _ _ _ => true
  | .StopExecution _ => true
  | _ => false

/-- The condition of revoke_grant.go:66,
`lastState.Type == "WaitStateEntered" &&
 *lastState.StateEnteredEventDetails.Name == "Wait for Window End"`.
`&&` evaluates its right side only when the left side holds; `none` is the
nil dereference of absent details or of an absent name. -/
def activeCondition (lastState : HistoryEvent) : Option Bool :=
  if lastState.EventType = goStr "WaitStateEntered" then
    match lastState.StateEnteredEventDetails with
    | none => none
    | some details =>
      match details.Name with
      | none => none
      | some name => some (decide (name = goStr "Wait for Window End"))
  else
    some false

/-- Lines 73-82 of revoke_grant.go: stop the execution; on success set the
status of the grant to REVOKED and return it. -/
def stopAndMark (env : Env) (exeARN : GoString) (grant : Types.Grant) (trace : List Call) :
    Result Types.Grant × List Call :=
  let trace := trace ++ [Call.StopExecution exeARN]
  match env.StopExecution exeARN with
  | some err => (.error err, trace)
  | none => (.ok { grant with Status := Types.GrantStatus.REVOKED }, trace)

/-- Go `(*Runtime).RevokeGrant` (revoke_grant.go:19-83): the result together
with the calls made, in order.  `Result.panic` is a Go runtime panic: the
index 5 of a short ARN, the dereference of a nil `Input`, the last element of
an empty history, absent state-entered details. -/
def RevokeGrant (r : Runtime) (env : Env) (grantID _revoker : GoString) :
    Result Types.Grant × List Call :=
  match env.LoadDefaultConfig with
  | some err => (.error err, [])
  | none =>
  match BuildExecutionARN r.GranterStateMachineARN grantID with
  | none => (.panic, [])
  | some exeARN =>
  let t1 := [Call.DescribeExecution exeARN]
  match env.DescribeExecution exeARN with
  | .error err => (.error err, t1)
  | .ok none => (.panic, t1)
  | .ok (some input) =>
  match env.UnmarshalWorkflowInput input with
  | .error err => (.error err, t1)
  | .ok grant =>
  match env.Providers grant.Provider with
  | none => (.error (GoError.ProviderNotFoundError grant.Provider), t1)
  | some prov =>
  match env.MarshalWith grant.With with
  | .error err => (.error err, t1)
  | .ok args =>
  let t2 := t1 ++ [Call.GetExecutionHistory exeARN]
  match env.GetExecutionHistory exeARN with
  | .error err => (.error err, t2)
  | .ok events =>
  match events.getLast? with
  | none => (.panic, t2)
  | some lastState =>
  match activeCondition lastState with
  | none => (.panic, t2)
  | some true =>
    let t3 := t2 ++ [Call.ProviderRevoke grant.Provider grant.Subject args grant.ID]
    match prov.Revoke grant.Subject args grant.ID with
    | some err => (.error err, t3)
    | none => stopAndMark env exeARN grant t3
  | some false => stopAndMark env exeARN grant t2

/-- The history shows that the wait state "Wait for Window End" has been
entered: some event is a `WaitStateEntered` event carrying that name. -/
def enteredWaitForWindowEnd (e : HistoryEvent) : Bool :=
  decide (e.EventType = goStr "WaitStateEntered")
    && decide (e.StateEnteredEventDetails.bind (fun d => d.Name)
                = some (goStr "Wait for Window End"))

/-- A state machine ARN of the shape given in the comment of
`BuildExecutionARN`. -/
def sampleStateMachineARN : GoString :=
  goStr "arn:aws:states:us-east-1:123456789012:stateMachine:Granter"

/-- The execution ARN derived from `sampleStateMachineARN` for grant `gra_1`. -/
def sampleExecutionARN : GoString :=
  goStr "arn:aws:states:us-east-1:123456789012:execution:Granter:gra_1"

/-- A grant as it is stored in the input of an execution. -/
def sampleGrant : Types.Grant :=
  { ID := goStr "gra_1", Provider := goStr "ecs", Subject := goStr "a@b.com",
    With := [(goStr "taskDefinitionFamily", goStr "svc")],
    Status := Types.GrantStatus.ACTIVE, Start := 0, End := 3600 }

/-- A history event of the given type for the state of the given name. -/
def stateEvent (type name : String) : HistoryEvent :=
  { EventType := goStr type, StateEnteredEventDetails := some { Name := some (goStr name) } }

/-- A history event without state-entered details. -/
def plainEvent (type : String) : HistoryEvent :=
  { EventType := goStr type, StateEnteredEventDetails := none }

/-- A world in which the execution of `sampleGrant` exists with the given
history, the provider `ecs` is registered and answers `Revoke` with `revoke`,
and `StopExecution` answers `stop`. -/
def sampleEnv (events : List HistoryEvent) (revoke stop : Option GoError) : Env :=
  { LoadDefaultConfig := none
    DescribeExecution := fun _ => .ok (some (goStr "input"))
    UnmarshalWorkflowInput := fun _ => .ok sampleGrant
    Providers := fun name =>
      if name = goStr "ecs" then some { Revoke := fun _ _ _ => revoke } else none
    MarshalWith := fun _ => .ok (goStr "args")
    GetExecutionHistory := fun _ => .ok events
    StopExecution := fun _ => stop }

/-- The history of an execution that waits for the end of the window. -/
def waitingHistory : List HistoryEvent :=
  [plainEvent "ExecutionStarted", stateEvent "TaskStateEntered" "Activate Access",
   plainEvent "TaskStateExited", stateEvent "WaitStateEntered" "Wait for Window End"]

/-- The history of an execution whose window has ended: the wait state was
entered and left, and the execution has moved on. -/
def expiredHistory : List HistoryEvent :=
  waitingHistory ++ [plainEvent "WaitStateExited", stateEvent "TaskStateEntered" "Expire Access"]

/-- The history of an execution that was stopped before the window opened. -/
def abortedHistory : List HistoryEvent :=
  [plainEvent "ExecutionStarted", stateEvent "WaitStateEntered" "Wait for Window Start",
   plainEvent "ExecutionAborted"]

end Lambda

namespace EcsShellSso

/-- Go `Args` of ecs-shell-sso (access.go:23-25). -/
structure Args where
  TaskDefinitionFamily : GoString
deriving DecidableEq, Repr

/-- A non-nil Go `*string`: the address of the string and the string stored
there.  It is used for the two pointer fields the provider compares with
`==` (`User.UserId`, `AccountAssignment.PrincipalId`); a `*string` that is
only tested against nil or read is an `Option GoString`. -/
structure StringPtr where
  addr : Nat
  val : GoString
deriving DecidableEq, Repr

/-- Go `==` on two values of type `*string`: both nil, or the same address.
The strings pointed to are not read. -/
def ptrEq : Option StringPtr → Option StringPtr → Bool
  | none, none => true
  | some a, some b => decide (a.addr = b.addr)
  | _, _ => false

/-- Go `aws.ToString`: the string pointed to, or the empty string for nil. -/
def awsToString : Option GoString → GoString
  | none => []
  | some s => s

/-- The fields of `identitystore/types.User` the provider reads. -/
structure User where
  UserId : Option StringPtr
  UserName : Option GoString
deriving DecidableEq, Repr

/-- The fields of `ssoadmin/types.PermissionSet` the provider reads. -/
structure PermissionSet where
  Name : Option GoString
  PermissionSetArn : Option GoString
deriving DecidableEq, Repr

/-- The record `ssoadmin/types.AccountAssignmentOperationStatus`, carried by
the outputs of the create, delete and describe-status calls.  The outputs
hold it behind a pointer, which the provider dereferences unchecked; the
embedding takes a successful response to carry it. -/
structure AccountAssignmentOperationStatus where
  RequestId : Option GoString
  Status : GoString
  FailureReason : Option GoString
deriving DecidableEq, Repr

/-- The fields of `ssoadmin/types.AccountAssignment` that `IsActive` reads;
`PrincipalType` is a string type. -/
structure AccountAssignment where
  PrincipalType : GoString
  PrincipalId : Option StringPtr
deriving DecidableEq, Repr

/-- The constant `types.PrincipalTypeUser`. -/
def PrincipalTypeUser : GoString := goStr "USER"

/-- The output of `ListPermissionSets`. -/
structure ListPermissionSetsOutput where
  PermissionSets : List GoString
  NextToken : Option GoString
deriving DecidableEq, Repr

/-- The output of `ListAccountAssignments`. -/
structure ListAccountAssignmentsOutput where
  AccountAssignments : List AccountAssignment
  NextToken : Option GoString
deriving DecidableEq, Repr

/-- The remote calls of the provider, with the arguments they are made with. -/
inductive Call where
  | ensureAccountExists (accountID : GoString)
  | ListUsers (IdentityStoreId UserName : GoString)
  | ListPermissionSets (InstanceArn : GoString) (NextToken : Option GoString)
  | DescribePermissionSet (InstanceArn PermissionSetArn : GoString)
  | CreatePermissionSet (InstanceArn Name : GoString)
  | PutInlinePolicyToPermissionSet (InstanceArn : GoString) (PermissionSetArn : Option GoString)
      (InlinePolicy : GoString)
  | CreateAccountAssignment (InstanceArn : GoString) (PermissionSetArn : Option GoString)
      (PrincipalId : Option GoString) (TargetId : GoString)
  | DescribeAccountAssignmentCreationStatus (InstanceArn : GoString)
      (RequestId : Option GoString)
  | DeleteAccountAssignment (InstanceArn : GoString) (PermissionSetArn : Option GoString)
      (PrincipalId : Option GoString) (TargetId : GoString)
  | DescribeAccountAssignmentDeletionStatus (InstanceArn : GoString)
      (RequestId : Option GoString)
  | DeletePermissionSet (InstanceArn : GoString) (PermissionSetArn : Option GoString)
  | ListAccountAssignments (AccountId InstanceArn : GoString)
      (PermissionSetArn NextToken : Option GoString)
  | ListTasks (Cluster Family : GoString) (NextToken : Option GoString)
  | DescribeTasks (Cluster : GoString) (Tasks : List GoString)
deriving DecidableEq, Repr

/-- The AWS SSO admin client `p.ssoClient`, over a world of type `σ`: every
operation maps its request and the world to a response and the next world. -/
structure SSOAdminClient (σ : Type) where
  ListPermissionSets : GoString → Option GoString → σ
    → Except GoError ListPermissionSetsOutput × σ
  DescribePermissionSet : GoString → GoString → σ → Except GoError PermissionSet × σ
  CreatePermissionSet : GoString → GoString → σ → Except GoError PermissionSet × σ
  PutInlinePolicyToPermissionSet : GoString → Option GoString → GoString → σ
    → Option GoError × σ
  CreateAccountAssignment : GoString → Option GoString → Option GoString → GoString → σ
    → Except GoError AccountAssignmentOperationStatus × σ
  DescribeAccountAssignmentCreationStatus : GoString → Option GoString → σ
    → Except GoError AccountAssignmentOperationStatus × σ
  DeleteAccountAssignment : GoString → Option GoString → Option GoString → GoString → σ
    → Except GoError AccountAssignmentOperationStatus × σ
  DescribeAccountAssignmentDeletionStatus : GoString → Option GoString → σ
    → Except GoError AccountAssignmentOperationStatus × σ
  DeletePermissionSet : GoString → Option GoString → σ → Option GoError × σ
  ListAccountAssignments : GoString → GoString → Option GoString → Option GoString → σ
    → Except GoError ListAccountAssignmentsOutput × σ

/-- The identity store client `p.idStoreClient`: `ListUsers` with the one
filter `UserName = value`. -/
structure IdentityStoreClient (σ : Type) where
  ListUsers : GoString → GoString → σ → Except GoError (List User) × σ

/-- The fields of `ecs/types.Task` the provider reads; the three strings are
pointers, dereferenced unchecked by the provider. -/
structure Task where
  LastStatus : Option GoString
  TaskDefinitionArn : Option GoString
  TaskArn : Option GoString
  EnableExecuteCommand : Bool
deriving DecidableEq, Repr

/-- The output of `ListTasks`. -/
structure ListTasksOutput where
  TaskArns : List GoString
  NextToken : Option GoString
deriving DecidableEq, Repr

/-- The ECS client `p.ecsClient`: `ListTasks` (cluster, family, next token)
and `DescribeTasks` (cluster, task ARNs or IDs), the latter answering with
the `Tasks` of its output. -/
structure ECSClient (σ : Type) where
  ListTasks : GoString → GoString → Option GoString → σ → Except GoError ListTasksOutput × σ
  DescribeTasks : GoString → List GoString → σ → Except GoError (List Task) × σ

/-- Go `Provider` of ecs-shell-sso, with the fields access.go reads.
`ensureAccountExists` is a method declared in another file of the package,
which is not among the sources: it is taken as an operation on the world.
`unmarshalArgs` stands for `json.Unmarshal(args, &a)` and `policyDocument`
for the rendering of the inline policy (cluster name, task family). -/
structure Provider (σ : Type) where
  awsAccountID : GoString
  instanceARN : GoString
  identityStoreID : GoString
  ecsClusterARN : GoString
  ecsRegion : GoString
  ssoClient : SSOAdminClient σ
  idStoreClient : IdentityStoreClient σ
  ecsClient : ECSClient σ
  ensureAccountExists : GoString → σ → Option GoError × σ
  unmarshalArgs : GoString → Except GoError Args
  policyDocument : GoString → GoString → GoString

/-- A Go computation over a world `σ`: from the world and the calls made so
far to a result, the world and the calls made. -/
def Prog (σ : Type) (α : Type) : Type := σ × List Call → Result α × (σ × List Call)

instance (σ : Type) : Monad (Prog σ) where
  pure a := fun w => (Result.ok a, w)
  bind m f := fun w =>
    match m w with
    | (Result.ok a, w1) => f a w1
    | (Result.error err, w1) => (Result.error err, w1)
    | (Result.panic, w1) => (Result.panic, w1)
    | (Result.exhausted, w1) => (Result.exhausted, w1)

/-- Return the error `err` from the enclosing Go function. -/
def Prog.fail {σ α : Type} (err : GoError) : Prog σ α := fun w => (Result.error err, w)

/-- A runtime panic. -/
def Prog.panic {σ α : Type} : Prog σ α := fun w => (Result.panic, w)

/-- The step bound of an unbounded loop ran out. -/
def Prog.exhausted {σ α : Type} : Prog σ α := fun w => (Result.exhausted, w)

/-- Make the remote call `c`, answered by `op`, and record it. -/
def invoke {σ α : Type} (c : Call) (op : σ → α × σ) : Prog σ α :=
  fun w => (Result.ok (op w.1).1, ((op w.1).2, w.2 ++ [c]))

/-- What the function given to `retry.Do` returns: nil, an error wrapped by
`retry.RetryableError`, or any other error.  `done` carries the value the
closure stored in the variable it captured. -/
inductive RetryOutcome (α : Type) where
  | done (value : α)
  | retryable (err : GoError)
  | fatal (err : GoError)

/-- Go `retry.Do(ctx, b, f)` of `sethvargo/go-retry` for a context that is
not cancelled: call `f`; nil ends with success, an error that is not
retryable is returned, a retryable error is retried while the backoff grants
another delay and is returned unwrapped once it stops.  The backoffs of the
provider are bounded by wall-clock time (`WithMaxDuration`); `retries` is the
number of delays the backoff grants in a run. -/
def retryDo {σ α : Type} : Nat → Prog σ (RetryOutcome α) → Prog σ (Except GoError α)
  | 0, f => do
    match ← f with
    | .done v => pure (.ok v)
    | .retryable err => pure (.error err)
    | .fatal err => pure (.error err)
  | retries + 1, f => do
    match ← f with
    | .done v => pure (.ok v)
    | .retryable _ => retryDo retries f
    | .fatal err => pure (.error err)

/-- The number of delays granted by the backoffs bounded to one and to two
minutes, and the step bound of the pagination loops. -/
structure Bounds where
  oneMinute : Nat
  twoMinutes : Nat
  pages : Nat

/-- Go `(*Provider).getUser` (access.go:517-537). -/
def getUser {σ : Type} (p : Provider σ) (email : GoString) : Prog σ User := do
  let res ← invoke (Call.ListUsers p.identityStoreID email)
    (p.idStoreClient.ListUsers p.identityStoreID email)
  match res with
  | .error err => Prog.fail err
  | .ok users =>
    if users.length = 0 then
      Prog.fail (GoError.UserNotFoundError email)
    else if users.length > 1 then
      Prog.fail (GoError.message
        (goStr "expected 1 user but found " ++ goStr (toString users.length)))
    else
      match users with
      | u :: _ => pure u
      | [] => Prog.panic

/-- The inner loop of `GetPermissionSetARN` (access.go:257-268): describe
the listed permission sets in order until one has the wanted name; the
result is `arnMatch`. -/
def scanPermissionSets {σ : Type} (p : Provider σ) (permissionSetName : GoString) :
    List GoString → Prog σ (Option GoString)
  | [] => pure none
  | arn :: rest => do
    let po ← invoke (Call.DescribePermissionSet p.instanceARN arn)
      (p.ssoClient.DescribePermissionSet p.instanceARN arn)
    match po with
    | .error err => Prog.fail err
    | .ok permissionSet =>
      if awsToString permissionSet.Name = permissionSetName then
        pure permissionSet.PermissionSetArn
      else
        scanPermissionSets p permissionSetName rest

/-- The outer loop of `GetPermissionSetARN` (access.go:246-272), bounded by
a number of pages; the result is `arnMatch` when the loop is left. -/
def listPermissionSetsLoop {σ : Type} (p : Provider σ) (permissionSetName : GoString) :
    Nat → Option GoString → Prog σ (Option GoString)
  | 0, _ => Prog.exhausted
  | pages + 1, nextToken => do
    let o ← invoke (Call.ListPermissionSets p.instanceARN nextToken)
      (p.ssoClient.ListPermissionSets p.instanceARN nextToken)
    match o with
    | .error err => Prog.fail err
    | .ok out =>
      let arnMatch ← scanPermissionSets p permissionSetName out.PermissionSets
      if arnMatch.isSome then
        pure arnMatch
      else if out.NextToken.isSome then
        listPermissionSetsLoop p permissionSetName pages out.NextToken
      else
        pure none

/-- Go `(*Provider).GetPermissionSetARN` (access.go:242-278); the result is
the non-nil `*string` returned with a nil error. -/
def GetPermissionSetARN {σ : Type} (p : Provider σ) (b : Bounds)
    (permissionSetName : GoString) : Prog σ GoString := do
  let arnMatch ← listPermissionSetsLoop p permissionSetName b.pages none
  match arnMatch with
  | none => Prog.fail (GoError.message (goStr "permissionset not found"))
  | some arn => pure arn

/-- The loop of `IsActive` (access.go:303-327), bounded by a number of
pages.  The test of line 314 compares the pointers `aa.PrincipalId` and
`user.UserId` with `==`. -/
def listAccountAssignmentsLoop {σ : Type} (p : Provider σ) (user : User)
    (permissionSetARN : GoString) : Nat → Option GoString → Prog σ Bool
  | 0, _ => Prog.exhausted
  | pages + 1, nextToken => do
    let res ← invoke
      (Call.ListAccountAssignments p.awsAccountID p.instanceARN (some permissionSetARN) nextToken)
      (p.ssoClient.ListAccountAssignments p.awsAccountID p.instanceARN (some permissionSetARN)
        nextToken)
    match res with
    | .error err => Prog.fail err
    | .ok out =>
      if out.AccountAssignments.any
          (fun aa => decide (aa.PrincipalType = PrincipalTypeUser)
            && ptrEq aa.PrincipalId user.UserId) then
        pure true
      else
        match out.NextToken with
        | none => pure false
        | some token => listAccountAssignmentsLoop p user permissionSetARN pages (some token)

/-- Go `(*Provider).IsActive` (access.go:281-331).  A returned error is
`Result.error` (the Go function returns `false` alongside it). -/
def IsActive {σ : Type} (p : Provider σ) (b : Bounds) (subject args grantID : GoString) :
    Prog σ Bool := do
  match p.unmarshalArgs args with
  | .error err => Prog.fail err
  | .ok _ =>
    let user ← getUser p subject
    let permissionSetName := permissionSetNameFromGrantID grantID
    let permissionSetARN ← GetPermissionSetARN p b permissionSetName
    listAccountAssignmentsLoop p user permissionSetARN b.pages none

end EcsShellSso

namespace EcsShellSso

/-- The byte `'/'`, the separator of the cluster ARN. -/
def slash : UInt8 := 47

/-- Go `(*Provider).createPermissionSetAndAssignment` (access.go:441-514).
`strings.Split(p.ecsClusterARN.Get(), "/")[1]` panics when the cluster ARN
has no `/`. -/
def createPermissionSetAndAssignment {σ : Type} (p : Provider σ)
    (subject permissionSetName taskdefFamily : GoString) :
    Prog σ AccountAssignmentOperationStatus := do
  match (Strings.Split p.ecsClusterARN slash)[1]? with
  | none => Prog.panic
  | some clusterName =>
    let ecsPolicyDocument := p.policyDocument clusterName taskdefFamily
    let user ← getUser p subject
    let permSet ← invoke (Call.CreatePermissionSet p.instanceARN permissionSetName)
      (p.ssoClient.CreatePermissionSet p.instanceARN permissionSetName)
    match permSet with
    | .error err => Prog.fail err
    | .ok permSet =>
      let put ← invoke
        (Call.PutInlinePolicyToPermissionSet p.instanceARN permSet.PermissionSetArn
          ecsPolicyDocument)
        (p.ssoClient.PutInlinePolicyToPermissionSet p.instanceARN permSet.PermissionSetArn
          ecsPolicyDocument)
      match put with
      | some err => Prog.fail err
      | none =>
        let res ← invoke
          (Call.CreateAccountAssignment p.instanceARN permSet.PermissionSetArn
            (user.UserId.map (fun ptr => ptr.val)) p.awsAccountID)
          (p.ssoClient.CreateAccountAssignment p.instanceARN permSet.PermissionSetArn
            (user.UserId.map (fun ptr => ptr.val)) p.awsAccountID)
        match res with
        | .error err => Prog.fail err
        | .ok res =>
          match res.FailureReason with
          | some reason =>
            Prog.fail (GoError.message
              (goStr "failed creating account assignment: " ++ reason))
          | none => pure res

/-- Go `(*Provider).Grant` (access.go:28-75).  Line 71 formats
`*res.AccountAssignmentCreationStatus.FailureReason`, the failure reason of
the response of `CreateAccountAssignment`, not the one of the polled status:
a nil pointer there is a runtime panic. -/
def Grant {σ : Type} (p : Provider σ) (b : Bounds) (subject args grantID : GoString) :
    Prog σ Unit := do
  match p.unmarshalArgs args with
  | .error err => Prog.fail err
  | .ok a =>
    let permissionSetName := permissionSetNameFromGrantID grantID
    let exists_ ← invoke (Call.ensureAccountExists p.awsAccountID)
      (p.ensureAccountExists p.awsAccountID)
    match exists_ with
    | some err => Prog.fail err
    | none =>
      let res ← createPermissionSetAndAssignment p subject permissionSetName
        a.TaskDefinitionFamily
      let polled ← retryDo b.twoMinutes (do
        let statusRes ← invoke
          (Call.DescribeAccountAssignmentCreationStatus p.instanceARN res.RequestId)
          (p.ssoClient.DescribeAccountAssignmentCreationStatus p.instanceARN res.RequestId)
        match statusRes with
        | .error err => pure (RetryOutcome.retryable err)
        | .ok status =>
          if status.Status = goStr "IN_PROGRESS" then
            pure (RetryOutcome.retryable (GoError.message (goStr "still in progress")))
          else
            pure (RetryOutcome.done status))
      match polled with
      | .error err => Prog.fail err
      | .ok statusRes =>
        if statusRes.FailureReason.isSome then
          match res.FailureReason with
          | none => Prog.panic
          | some reason =>
            Prog.fail (GoError.message
              (goStr "failed creating account assignment: " ++ reason))
        else
          pure ()

/-- The instance ARN written out in the source at access.go:146. -/
def deletionStatusInstanceArn : GoString :=
  goStr "arn:aws:sso:::instance/ssoins-825968feece9a0b6"

/-- Go `(*Provider).Revoke` (access.go:78-190). -/
def Revoke {σ : Type} (p : Provider σ) (b : Bounds) (subject args grantID : GoString) :
    Prog σ Unit := do
  match p.unmarshalArgs args with
  | .error err => Prog.fail err
  | .ok _ =>
    let exists_ ← invoke (Call.ensureAccountExists p.awsAccountID)
      (p.ensureAccountExists p.awsAccountID)
    match exists_ with
    | some err => Prog.fail err
    | none =>
      let user ← getUser p subject
      let permissionSetName := permissionSetNameFromGrantID grantID
      let permissionSetARN ← GetPermissionSetARN p b permissionSetName
      let deleted ← retryDo b.oneMinute (do
        let deleteRes ← invoke
          (Call.DeleteAccountAssignment p.instanceARN (some permissionSetARN)
            (user.UserId.map (fun ptr => ptr.val)) p.awsAccountID)
          (p.ssoClient.DeleteAccountAssignment p.instanceARN (some permissionSetARN)
            (user.UserId.map (fun ptr => ptr.val)) p.awsAccountID)
        match deleteRes with
        | .error (GoError.ConflictException msg) =>
          pure (RetryOutcome.retryable (GoError.ConflictException msg))
        | .error err => pure (RetryOutcome.fatal err)
        | .ok out => pure (RetryOutcome.done out))
      match deleted with
      | .error err => Prog.fail err
      | .ok deleteRes =>
        let polled ← retryDo b.twoMinutes (do
          let status ← invoke
            (Call.DescribeAccountAssignmentDeletionStatus deletionStatusInstanceArn
              deleteRes.RequestId)
            (p.ssoClient.DescribeAccountAssignmentDeletionStatus deletionStatusInstanceArn
              deleteRes.RequestId)
          match status with
          | .error err => pure (RetryOutcome.retryable err)
          | .ok status =>
            if status.Status = goStr "IN_PROGRESS" then
              pure (RetryOutcome.retryable (GoError.message (goStr "still in progress")))
            else
              pure (RetryOutcome.done status))
        match polled with
        | .error err => Prog.fail err
        | .ok status =>
          match status.FailureReason with
          | some reason =>
            Prog.fail (GoError.message
              (goStr "failed deleting account assignment: " ++ reason))
          | none =>
            let removed ← retryDo b.twoMinutes (do
              let err ← invoke (Call.DeletePermissionSet p.instanceARN (some permissionSetARN))
                (p.ssoClient.DeletePermissionSet p.instanceARN (some permissionSetARN))
              match err with
              | some err => pure (RetryOutcome.retryable err)
              | none => pure (RetryOutcome.done ()))
            match removed with
            | .error err => Prog.fail err
            | .ok _ => pure ()

end EcsShellSso

namespace EcsShellSso

/-- A reference backend for the provider: an in-memory AWS SSO instance with
its identity store, in which every created or deleted permission set and
assignment is reflected at once by the listing calls.  Every string of a
response is a fresh allocation, as in the deserializers of the AWS SDK:
`nextAddr` is the next free address. -/
structure Backend where
  /-- The ARN of the SSO instance. -/
  instanceArn : GoString
  /-- The accounts of the organization. -/
  accounts : List GoString
  /-- The users of the identity store: user name and user ID. -/
  users : List (GoString × GoString)
  /-- The permission sets: ARN and name. -/
  permissionSets : List (GoString × GoString)
  /-- The account assignments: account, permission set ARN, principal ID. -/
  assignments : List (GoString × GoString × GoString)
  nextAddr : Nat
deriving DecidableEq, Repr

/-- The backend refuses a request addressed to another instance. -/
def Backend.checkInstance (s : Backend) (InstanceArn : GoString) : Option GoError :=
  if InstanceArn = s.instanceArn then none
  else some (GoError.message (goStr "ResourceNotFoundException: unknown instance"))

/-- The status record of an accepted asynchronous operation. -/
def operationStatus (status : String) : AccountAssignmentOperationStatus :=
  { RequestId := some (goStr "request-1"), Status := goStr status, FailureReason := none }

/-- The identity store of the backend. -/
def Backend.idStoreClient : IdentityStoreClient Backend where
  ListUsers := fun _ userName s =>
    let found := s.users.filter (fun u => decide (u.1 = userName))
    (.ok ((List.enumFrom s.nextAddr found).map
        (fun au => { UserId := some { addr := au.1, val := au.2.2 }, UserName := some au.2.1 })),
     { s with nextAddr := s.nextAddr + found.length })

/-- The SSO admin service of the backend. -/
def Backend.ssoClient : SSOAdminClient Backend where
  ListPermissionSets := fun inst _ s =>
    match s.checkInstance inst with
    | some err => (.error err, s)
    | none => (.ok { PermissionSets := s.permissionSets.map Prod.fst, NextToken := none }, s)
  DescribePermissionSet := fun inst arn s =>
    match s.checkInstance inst with
    | some err => (.error err, s)
    | none =>
      match s.permissionSets.find? (fun ps => decide (ps.1 = arn)) with
      | none => (.error (GoError.message (goStr "ResourceNotFoundException")), s)
      | some ps => (.ok { Name := some ps.2, PermissionSetArn := some ps.1 }, s)
  CreatePermissionSet := fun inst name s =>
    match s.checkInstance inst with
    | some err => (.error err, s)
    | none =>
      if s.permissionSets.any (fun ps => decide (ps.2 = name)) then
        (.error (GoError.ConflictException (goStr "permission set exists")), s)
      else
        let arn := goStr "arn:aws:sso:::permissionSet/" ++ name
        (.ok { Name := some name, PermissionSetArn := some arn },
         { s with permissionSets := s.permissionSets ++ [(arn, name)] })
  PutInlinePolicyToPermissionSet := fun inst arn _ s =>
    match s.checkInstance inst with
    | some err => (some err, s)
    | none =>
      if s.permissionSets.any (fun ps => decide (some ps.1 = arn)) then (none, s)
      else (some (GoError.message (goStr "ResourceNotFoundException")), s)
  CreateAccountAssignment := fun inst arn principal target s =>
    match s.checkInstance inst with
    | some err => (.error err, s)
    | none =>
      match arn, principal with
      | some arn, some principal =>
        if s.permissionSets.any (fun ps => decide (ps.1 = arn)) then
          if target ∈ s.accounts ∧ (target, arn, principal) ∉ s.assignments then
            (.ok (operationStatus "IN_PROGRESS"),
             { s with assignments := s.assignments ++ [(target, arn, principal)] })
          else
            (.ok (operationStatus "IN_PROGRESS"), s)
        else
          (.error (GoError.message (goStr "ResourceNotFoundException")), s)
      | _, _ => (.error (GoError.message (goStr "ValidationException")), s)
  DescribeAccountAssignmentCreationStatus := fun inst _ s =>
    match s.checkInstance inst with
    | some err => (.error err, s)
    | none => (.ok (operationStatus "SUCCEEDED"), s)
  DeleteAccountAssignment := fun inst arn principal target s =>
    match s.checkInstance inst with
    | some err => (.error err, s)
    | none =>
      match arn, principal with
      | some arn, some principal =>
        if (target, arn, principal) ∈ s.assignments then
          (.ok (operationStatus "IN_PROGRESS"),
           { s with
             assignments :=
               s.assignments.filter (fun a => !decide (a = (target, arn, principal))) })
        else
          (.error (GoError.message (goStr "ResourceNotFoundException")), s)
      | _, _ => (.error (GoError.message (goStr "ValidationException")), s)
  DescribeAccountAssignmentDeletionStatus := fun inst _ s =>
    match s.checkInstance inst with
    | some err => (.error err, s)
    | none => (.ok (operationStatus "SUCCEEDED"), s)
  DeletePermissionSet := fun inst arn s =>
    match s.checkInstance inst with
    | some err => (some err, s)
    | none =>
      if s.permissionSets.any (fun ps => decide (some ps.1 = arn)) then
        if s.assignments.any (fun a => decide (some a.2.1 = arn)) then
          (some (GoError.ConflictException (goStr "permission set is assigned")), s)
        else
          (none,
           { s with
             permissionSets := s.permissionSets.filter (fun ps => !decide (some ps.1 = arn)) })
      else
        (some (GoError.message (goStr "ResourceNotFoundException")), s)
  ListAccountAssignments := fun account inst arn _ s =>
    match s.checkInstance inst with
    | some err => (.error err, s)
    | none =>
      let found := s.assignments.filter
        (fun a => decide (a.1 = account) && decide (some a.2.1 = arn))
      (.ok { AccountAssignments := (List.enumFrom s.nextAddr found).map
               (fun aa => { PrincipalType := PrincipalTypeUser,
                            PrincipalId := some { addr := aa.1, val := aa.2.2.2 } }),
             NextToken := none },
       { s with nextAddr := s.nextAddr + found.length })

/-- The ECS side of the reference backend: a cluster without tasks. -/
def Backend.ecsClient : ECSClient Backend where
  ListTasks := fun _ _ _ s => (.ok { TaskArns := [], NextToken := none }, s)
  DescribeTasks := fun _ _ s => (.ok [], s)

/-- A provider configured for the reference backend: its instance ARN is the
one the backend serves. -/
def sampleProvider : Provider Backend where
  awsAccountID := goStr "123456789012"
  instanceARN := deletionStatusInstanceArn
  identityStoreID := goStr "d-1234567890"
  ecsClusterARN := goStr "arn:aws:ecs:us-east-1:123456789012:cluster/main"
  ecsRegion := goStr "us-east-1"
  ssoClient := Backend.ssoClient
  idStoreClient := Backend.idStoreClient
  ecsClient := Backend.ecsClient
  ensureAccountExists := fun account s =>
    if account ∈ s.accounts then (none, s)
    else (some (GoError.message (goStr "account does not exist")), s)
  unmarshalArgs := fun _ => .ok { TaskDefinitionFamily := goStr "svc" }
  policyDocument := fun clusterName family => clusterName ++ goStr " " ++ family

/-- The backend before any grant: one account, the user `a@b.com`, no
permission set and no assignment. -/
def initialBackend : Backend where
  instanceArn := deletionStatusInstanceArn
  accounts := [goStr "123456789012"]
  users := [(goStr "a@b.com", goStr "user-1")]
  permissionSets := []
  assignments := []
  nextAddr := 0

/-- Bounds that leave room for every loop of the scenarios. -/
def sampleBounds : Bounds := { oneMinute := 8, twoMinutes := 9, pages := 4 }

/-- The subject, arguments and grant ID of the scenario of the spec. -/
def scenarioSubject : GoString := goStr "a@b.com"

/-- The arguments of the scenario. -/
def scenarioArgs : GoString := goStr "\x7b\"taskDefinitionFamily\":\"svc\"\x7d"

/-- The grant ID of the scenario, 39 bytes long. -/
def scenarioGrantID : GoString := goStr "grant_123456789012345678901234567890XYZ"

/-- The world after `Grant` of the scenario on the initial backend. -/
def afterGrant : Backend :=
  (Grant sampleProvider sampleBounds scenarioSubject scenarioArgs scenarioGrantID
    (initialBackend, [])).2.1

/-- The world after a first `Revoke` following the `Grant` of the scenario. -/
def afterRevoke : Backend :=
  (Revoke sampleProvider sampleBounds scenarioSubject scenarioArgs scenarioGrantID
    (afterGrant, [])).2.1

end EcsShellSso

namespace Strconv

/-- The value of a string of decimal digits; `none` when a byte is not a
digit. -/
def digitsValue (s : GoString) : Option Nat :=
  s.foldl
    (fun acc ch =>
      match acc with
      | none => none
      | some n => if 48 ≤ ch.toNat ∧ ch.toNat ≤ 57 then some (n * 10 + (ch.toNat - 48)) else none)
    (some 0)

/-- Go `strconv.Atoi` on a 64-bit platform: an optional sign followed by at
least one decimal digit and nothing else, with a value that fits `int`;
otherwise a `*NumError` with `ErrSyntax` or `ErrRange`. -/
def Atoi (s : GoString) : Except GoError Int :=
  let body := match s with
    | 43 :: rest => rest
    | 45 :: rest => rest
    | _ => s
  let negative := decide (s.head? = some 45)
  if body = [] then
    .error (GoError.NumError (goStr "Atoi") s (goStr "invalid syntax"))
  else
    match digitsValue body with
    | none => .error (GoError.NumError (goStr "Atoi") s (goStr "invalid syntax"))
    | some n =>
      if negative then
        if n ≤ 2 ^ 63 then .ok (-(n : Int))
        else .error (GoError.NumError (goStr "Atoi") s (goStr "value out of range"))
      else
        if n < 2 ^ 63 then .ok (n : Int)
        else .error (GoError.NumError (goStr "Atoi") s (goStr "value out of range"))

end Strconv

namespace EcsShellSso

/-- Run a Go call and hand its returned error to the caller as a value, as
in `x, err := f()` followed by tests on `err`. -/
def Prog.attempt {σ α : Type} (m : Prog σ α) : Prog σ (Except GoError α) := fun w =>
  match m w with
  | (Result.ok a, w1) => (Result.ok (.ok a), w1)
  | (Result.error err, w1) => (Result.ok (.error err), w1)
  | (Result.panic, w1) => (Result.panic, w1)
  | (Result.exhausted, w1) => (Result.exhausted, w1)

/-- A computation without remote calls. -/
def Prog.lift {σ α : Type} (r : Result α) : Prog σ α := fun w => (r, w)

/-- The inner loop of `getTaskARNFromTaskDefinition` (access.go:414-427)
over the described tasks of one page, from the values of `latestRevision` and
`taskARN` before the page to their values after it. -/
def selectLatest : List Task → Int × GoString → Result (Int × GoString)
  | [], acc => .ok acc
  | t :: rest, (latestRevision, taskARN) =>
    match t.LastStatus with
    | none => .panic
    | some lastStatus =>
      if lastStatus ≠ goStr "RUNNING" then
        selectLatest rest (latestRevision, taskARN)
      else
        match t.TaskDefinitionArn with
        | none => .panic
        | some taskDefinitionArn =>
          match (Strings.Split taskDefinitionArn colon)[6]? with
          | none => .panic
          | some field =>
            match Strconv.Atoi field with
            | .error err => .error err
            | .ok tempVersion =>
              if tempVersion > latestRevision then
                match t.TaskArn with
                | none => .panic
                | some arn => selectLatest rest (tempVersion, arn)
              else
                selectLatest rest (latestRevision, taskARN)

/-- The loop of `getTaskARNFromTaskDefinition` (access.go:404-430), bounded
by a number of pages. -/
def listTasksLoop {σ : Type} (p : Provider σ) (TaskDefinitionFamily : GoString) :
    Nat → Option GoString → Int × GoString → Prog σ (Int × GoString)
  | 0, _, _ => Prog.exhausted
  | pages + 1, nextToken, acc => do
    let runningTasks ← invoke (Call.ListTasks p.ecsClusterARN TaskDefinitionFamily nextToken)
      (p.ecsClient.ListTasks p.ecsClusterARN TaskDefinitionFamily nextToken)
    match runningTasks with
    | .error err => Prog.fail err
    | .ok runningTasks =>
      let describedTasks ← invoke (Call.DescribeTasks p.ecsClusterARN runningTasks.TaskArns)
        (p.ecsClient.DescribeTasks p.ecsClusterARN runningTasks.TaskArns)
      match describedTasks with
      | .error err => Prog.fail err
      | .ok tasks =>
        let acc ← Prog.lift (selectLatest tasks acc)
        if runningTasks.NextToken.isSome then
          listTasksLoop p TaskDefinitionFamily pages runningTasks.NextToken acc
        else
          pure acc

/-- Go `(*Provider).getTaskARNFromTaskDefinition` (access.go:393-438). -/
def getTaskARNFromTaskDefinition {σ : Type} (p : Provider σ) (b : Bounds)
    (TaskDefinitionFamily : GoString) : Prog σ GoString := do
  let found ← listTasksLoop p TaskDefinitionFamily b.pages none (0, [])
  if found.2 = [] then Prog.fail GoError.errTaskNotFound
  else pure found.2

/-- Go `(*Provider).EcsExecEnabled` (access.go:540-553). -/
def EcsExecEnabled {σ : Type} (p : Provider σ) (taskId : GoString) : Prog σ Bool := do
  let tasks ← invoke (Call.DescribeTasks p.ecsClusterARN [taskId])
    (p.ecsClient.DescribeTasks p.ecsClusterARN [taskId])
  match tasks with
  | .error err => Prog.fail err
  | .ok tasks =>
    match tasks with
    | [] => Prog.fail (GoError.message (goStr "no task found"))
    | task :: _ => pure task.EnableExecuteCommand

/-- The text returned at access.go:345-349 for a family without running
task. -/
def noRunningTaskText (family : GoString) : GoString :=
  goStr "We couldn\x27t find a running task for the task family " ++ family
    ++ goStr ".\n\nStart a new task in your ECS cluster then refresh this page to get access.\n"

/-- The text returned at access.go:365-368 for a task without execute
command. -/
def execDisabledText (id : GoString) : GoString :=
  goStr "The specified task: " ++ id
    ++ goStr (" does not have execute command enabled so Granted was unable to generate "
        ++ "access instructions.\nEnable ECS Execute and then retry request the role.\n")

/-- The line of access.go:376; its last argument is printed after
`--role-name`. -/
def assumeLine (url region account roleName : GoString) : GoString :=
  goStr "assume \x2d\x2dsso \x2d\x2dsso\x2dstart\x2durl " ++ url
    ++ goStr " \x2d\x2dsso\x2dregion " ++ region
    ++ goStr " \x2d\x2daccount\x2did " ++ account
    ++ goStr " \x2d\x2drole\x2dname " ++ roleName ++ goStr "\n"

/-- The instructions built at access.go:371-379. -/
def accessText (url region account cluster id grantId : GoString) : GoString :=
  goStr "# Browser\n"
    ++ goStr "You can access this role at your [AWS SSO URL](" ++ url ++ goStr ")\n\n"
    ++ goStr "# CLI\n"
    ++ goStr ("Ensure that you\x27ve [installed](https://docs.commonfate.io/granted/"
        ++ "getting\x2dstarted#installing\x2dthe\x2dcli) the Granted CLI, then run:\n\n")
    ++ goStr "\x60\x60\x60\n"
    ++ assumeLine url region account grantId
    ++ goStr "aws ecs execute\x2dcommand \x2d\x2dcluster " ++ cluster
    ++ goStr " \x2d\x2dtask " ++ id
    ++ goStr " \x2d\x2dcontainer DefaultContainer"
    ++ goStr " \x2d\x2dinteractive \x2d\x2dcommand \x27flask shell\x27\n"
    ++ goStr "\x60\x60\x60\n"

/-- Go `(*Provider).Instructions` (access.go:333-380). -/
def Instructions {σ : Type} (p : Provider σ) (b : Bounds)
    (_subject args grantId : GoString) : Prog σ GoString := do
  let url := goStr "https://" ++ p.identityStoreID ++ goStr ".awsapps.com/start"
  match p.unmarshalArgs args with
  | .error err => Prog.fail err
  | .ok a =>
    let found ← Prog.attempt (getTaskARNFromTaskDefinition p b a.TaskDefinitionFamily)
    match found with
    | .error GoError.errTaskNotFound => pure (noRunningTaskText a.TaskDefinitionFamily)
    | .error err => Prog.fail err
    | .ok taskARN =>
      match (Strings.Split taskARN slash).getLast? with
      | none => Prog.panic
      | some id =>
        let ecsExecEnabled ← EcsExecEnabled p id
        if !ecsExecEnabled then
          pure (execDisabledText id)
        else
          pure (accessText url p.ecsRegion p.awsAccountID p.ecsClusterARN id grantId)

end EcsShellSso

namespace EcsShellSso

/-- The function given to `retry.Do` at access.go:53-65, for the response
`res` of `CreateAccountAssignment`. -/
def creationStatusAttempt {σ : Type} (p : Provider σ) (res : AccountAssignmentOperationStatus) :
    Prog σ (RetryOutcome AccountAssignmentOperationStatus) := do
  let statusRes ← invoke
    (Call.DescribeAccountAssignmentCreationStatus p.instanceARN res.RequestId)
    (p.ssoClient.DescribeAccountAssignmentCreationStatus p.instanceARN res.RequestId)
  match statusRes with
  | .error err => pure (RetryOutcome.retryable err)
  | .ok status =>
    if status.Status = goStr "IN_PROGRESS" then
      pure (RetryOutcome.retryable (GoError.message (goStr "still in progress")))
    else
      pure (RetryOutcome.done status)

/-- The function given to `retry.Do` at access.go:110-133. -/
def deleteAssignmentAttempt {σ : Type} (p : Provider σ) (user : User)
    (permissionSetARN : GoString) : Prog σ (RetryOutcome AccountAssignmentOperationStatus) := do
  let deleteRes ← invoke
    (Call.DeleteAccountAssignment p.instanceARN (some permissionSetARN)
      (user.UserId.map (fun ptr => ptr.val)) p.awsAccountID)
    (p.ssoClient.DeleteAccountAssignment p.instanceARN (some permissionSetARN)
      (user.UserId.map (fun ptr => ptr.val)) p.awsAccountID)
  match deleteRes with
  | .error (GoError.ConflictException msg) =>
    pure (RetryOutcome.retryable (GoError.ConflictException msg))
  | .error err => pure (RetryOutcome.fatal err)
  | .ok out => pure (RetryOutcome.done out)

/-- The function given to `retry.Do` at access.go:143-155. -/
def deletionStatusAttempt {σ : Type} (p : Provider σ)
    (deleteRes : AccountAssignmentOperationStatus) :
    Prog σ (RetryOutcome AccountAssignmentOperationStatus) := do
  let status ← invoke
    (Call.DescribeAccountAssignmentDeletionStatus deletionStatusInstanceArn deleteRes.RequestId)
    (p.ssoClient.DescribeAccountAssignmentDeletionStatus deletionStatusInstanceArn
      deleteRes.RequestId)
  match status with
  | .error err => pure (RetryOutcome.retryable err)
  | .ok status =>
    if status.Status = goStr "IN_PROGRESS" then
      pure (RetryOutcome.retryable (GoError.message (goStr "still in progress")))
    else
      pure (RetryOutcome.done status)

/-- The function given to `retry.Do` at access.go:170-179. -/
def deletePermissionSetAttempt {σ : Type} (p : Provider σ) (permissionSetARN : GoString) :
    Prog σ (RetryOutcome Unit) := do
  let err ← invoke (Call.DeletePermissionSet p.instanceARN (some permissionSetARN))
    (p.ssoClient.DeletePermissionSet p.instanceARN (some permissionSetARN))
  match err with
  | some err => pure (RetryOutcome.retryable err)
  | none => pure (RetryOutcome.done ())

/-- Lines 138-189 of `Revoke`: poll the deletion status, then delete the
permission set. -/
def revokeFromDeletion {σ : Type} (p : Provider σ) (b : Bounds) (permissionSetARN : GoString)
    (deleteRes : AccountAssignmentOperationStatus) : Prog σ Unit := do
  let polled ← retryDo b.twoMinutes (deletionStatusAttempt p deleteRes)
  match polled with
  | .error err => Prog.fail err
  | .ok status =>
    match status.FailureReason with
    | some reason =>
      Prog.fail (GoError.message (goStr "failed deleting account assignment: " ++ reason))
    | none =>
      let removed ← retryDo b.twoMinutes (deletePermissionSetAttempt p permissionSetARN)
      match removed with
      | .error err => Prog.fail err
      | .ok _ => pure ()

/-- Lines 104-189 of `Revoke`: delete the assignment, then continue with
`revokeFromDeletion`. -/
def revokeFromLookup {σ : Type} (p : Provider σ) (b : Bounds) (user : User)
    (permissionSetARN : GoString) : Prog σ Unit := do
  let deleted ← retryDo b.oneMinute (deleteAssignmentAttempt p user permissionSetARN)
  match deleted with
  | .error err => Prog.fail err
  | .ok deleteRes => revokeFromDeletion p b permissionSetARN deleteRes

/-- Lines 49-74 of `Grant`: poll the creation status and read the outcome. -/
def grantFromAssignment {σ : Type} (p : Provider σ) (b : Bounds)
    (res : AccountAssignmentOperationStatus) : Prog σ Unit := do
  let polled ← retryDo b.twoMinutes (creationStatusAttempt p res)
  match polled with
  | .error err => Prog.fail err
  | .ok statusRes =>
    if statusRes.FailureReason.isSome then
      match res.FailureReason with
      | none => Prog.panic
      | some reason =>
        Prog.fail (GoError.message (goStr "failed creating account assignment: " ++ reason))
    else
      pure ()

/-- The calls made by `m` are appended to the trace and all satisfy `P`. -/
def Prog.Adds {σ α : Type} (P : Call → Prop) (m : Prog σ α) : Prop :=
  ∀ w, ∃ t, (m w).2.2 = w.2 ++ t ∧ ∀ c ∈ t, P c

/-- The call is a `DeletePermissionSet`. -/
def Call.isDeletePermissionSet : Call → Bool
  | .DeletePermissionSet _ _ => true
  | _ => false

/-- The call is a `DescribeAccountAssignmentDeletionStatus`. -/
def Call.isDeletionStatus : Call → Bool
  | .DescribeAccountAssignmentDeletionStatus _ _ => true
  | _ => false

/-- The call creates something: `CreatePermissionSet`,
`PutInlinePolicyToPermissionSet` or `CreateAccountAssignment`. -/
def Call.isCreating : Call → Bool
  | .CreatePermissionSet _ _ => true
  | .PutInlinePolicyToPermissionSet _ _ _ => true
  | .CreateAccountAssignment _ _ _ _ => true
  | _ => false

end EcsShellSso

namespace EcsShellSso

/-- The reference provider, except that the creation status of an account
assignment is reported as FAILED with a failure reason. -/
def failedCreationProvider : Provider Backend :=
  { sampleProvider with
    ssoClient :=
      { Backend.ssoClient with
        DescribeAccountAssignmentCreationStatus := fun _ _ s =>
          (.ok { RequestId := some (goStr "request-1"), Status := goStr "FAILED",
                 FailureReason := some (goStr "account is suspended") }, s) } }

/-- The reference provider, except that `DeleteAccountAssignment` is refused
with an error that is not a `ConflictException`. -/
def deniedDeletionProvider : Provider Backend :=
  { sampleProvider with
    ssoClient :=
      { Backend.ssoClient with
        DeleteAccountAssignment := fun _ _ _ _ s =>
          (.error (GoError.message (goStr "AccessDeniedException")), s) } }

/-- The reference provider, except that the deletion status of an account
assignment is reported as FAILED with a failure reason. -/
def failedDeletionProvider : Provider Backend :=
  { sampleProvider with
    ssoClient :=
      { Backend.ssoClient with
        DescribeAccountAssignmentDeletionStatus := fun _ _ s =>
          (.ok { RequestId := some (goStr "request-1"), Status := goStr "FAILED",
                 FailureReason := some (goStr "internal failure") }, s) } }

/-- The test the spec asks of `IsActive` on one page of assignments: some
assignment of a user carries, as a string, the ID of `user`. -/
def assignedByValue (user : User) (out : ListAccountAssignmentsOutput) : Bool :=
  out.AccountAssignments.any
    (fun aa => decide (aa.PrincipalType = PrincipalTypeUser)
      && decide (aa.PrincipalId.map (fun ptr => ptr.val) = user.UserId.map (fun ptr => ptr.val))
      && aa.PrincipalId.isSome)

end EcsShellSso

namespace EcsShellSso

/-- The user resolved from the subject of the scenario after its `Grant`. -/
def scenarioUser : User :=
  { UserId := some { addr := afterGrant.nextAddr, val := goStr "user-1" },
    UserName := some (goStr "a@b.com") }

/-- The ARN the reference backend gave to the permission set of the
scenario. -/
def scenarioPermissionSetARN : GoString :=
  goStr "arn:aws:sso:::permissionSet/" ++ permissionSetNameFromGrantID scenarioGrantID

/-- The world of a `Revoke` of provider `p`, started after the `Grant` of the
scenario, once the user has been looked up. -/
def afterUserLookup (p : Provider Backend) : Backend × List Call :=
  (getUser p scenarioSubject (afterGrant, [Call.ensureAccountExists p.awsAccountID])).2

/-- The world of that `Revoke` once the permission set has been looked up. -/
def afterLookup (p : Provider Backend) : Backend × List Call :=
  (GetPermissionSetARN p sampleBounds (permissionSetNameFromGrantID scenarioGrantID)
    (afterUserLookup p)).2

/-- The world of that `Revoke` once the `DeleteAccountAssignment` loop has
ended. -/
def afterDeletion (p : Provider Backend) : Backend × List Call :=
  (retryDo sampleBounds.oneMinute
    (deleteAssignmentAttempt p scenarioUser scenarioPermissionSetARN) (afterLookup p)).2

/-- The world of that `Revoke` once the deletion status poll has ended. -/
def afterDeletionPoll (p : Provider Backend) : Backend × List Call :=
  (retryDo sampleBounds.twoMinutes
    (deletionStatusAttempt p (operationStatus "IN_PROGRESS")) (afterDeletion p)).2

/-- The ARN of the one task of the sample cluster. -/
def sampleTaskARN : GoString := goStr "arn:aws:ecs:us-east-1:123456789012:task/main/0123abcd"

/-- A running task of revision 3 of the family `svc`, with execute command
as given. -/
def sampleTask (enableExecuteCommand : Bool) : Task :=
  { LastStatus := some (goStr "RUNNING"),
    TaskDefinitionArn :=
      some (goStr "arn:aws:ecs:us-east-1:123456789012:task\x2ddefinition/svc:3"),
    TaskArn := some sampleTaskARN,
    EnableExecuteCommand := enableExecuteCommand }

/-- The reference provider with an ECS cluster that lists the one task
`sampleTaskARN` and describes tasks as `described` says. -/
def taskProvider (described : List GoString → List Task) : Provider Backend :=
  { sampleProvider with
    ecsClient :=
      { ListTasks := fun _ _ _ s => (.ok { TaskArns := [sampleTaskARN], NextToken := none }, s)
        DescribeTasks := fun _ tasks s => (.ok (described tasks), s) } }

/-- A cluster in which the task is described when asked for by its ARN and
is gone when asked for by its ID. -/
def vanishingTask (tasks : List GoString) : List Task :=
  if tasks = [sampleTaskARN] then [sampleTask true] else []

end EcsShellSso

namespace EksRolesSso

/-- The field of a Kubernetes `rbac/v1.Role` that `Options` reads. -/
structure Role where
  Name : GoString
deriving DecidableEq, Repr

/-- A Kubernetes `rbac/v1.RoleList`: the items of one page and the
`Continue` token of its list metadata (empty on the last page). -/
structure RoleList where
  Items : List Role
  Continue : GoString
deriving DecidableEq, Repr

/-- Go `types.Option` of the access handler: a label and a value. -/
structure ArgOption where
  Label : GoString
  Value : GoString
deriving DecidableEq, Repr

/-- Go `types.ArgOptionsResponse`. -/
structure ArgOptionsResponse where
  Options : List ArgOption
deriving DecidableEq, Repr

/-- Go `Provider` of eks-roles-sso, with what options.go reads: the
namespace and the call `p.kubeClient.RbacV1().Roles(namespace).List` with a
`Continue` token, over a world `σ`. -/
structure Provider (σ : Type) where
  namespace_ : GoString
  ListRoles : GoString → GoString → σ → Except GoError RoleList × σ

/-- The loop of `Options` (options.go:17-32), bounded by a number of pages:
from `nextToken`, the options gathered so far, the world and the `Continue`
tokens sent so far. -/
def optionsLoop {σ : Type} (p : Provider σ) :
    Nat → GoString → List ArgOption → σ → List GoString
      → Result ArgOptionsResponse × σ × List GoString
  | 0, _, _, s, sent => (Result.exhausted, s, sent)
  | pages + 1, nextToken, opts, s, sent =>
    match p.ListRoles p.namespace_ nextToken s with
    | (.error err, s1) => (Result.error err, s1, sent ++ [nextToken])
    | (.ok roles, s1) =>
      let opts := opts ++ roles.Items.map (fun r => { Label := r.Name, Value := r.Name })
      if roles.Continue = [] then
        (Result.ok { Options := opts }, s1, sent ++ [nextToken])
      else
        optionsLoop p pages roles.Continue opts s1 (sent ++ [nextToken])

/-- Go `(*Provider).Options` (options.go:11-36): the result, the world and
the `Continue` tokens of the requests made, in order. -/
def Options {σ : Type} (p : Provider σ) (pages : Nat) (_arg : GoString) (s : σ) :
    Result ArgOptionsResponse × σ × List GoString :=
  optionsLoop p pages [] [] s []

/-- The role listing of `p`, read from world `s` with token `token`, is the
finite sequence `pages` and then ends: with the first page whose `Continue`
is empty (`none`), or with the error `err` of the request after the last of
`pages` (`some err`). -/
inductive Listing {σ : Type} (p : Provider σ) :
    σ → GoString → List RoleList → Option GoError → σ → Prop where
  | last (s s1 : σ) (token : GoString) (page : RoleList)
      (h : p.ListRoles p.namespace_ token s = (.ok page, s1)) (hc : page.Continue = []) :
      Listing p s token [page] none s1
  | failed (s s1 : σ) (token : GoString) (err : GoError)
      (h : p.ListRoles p.namespace_ token s = (.error err, s1)) :
      Listing p s token [] (some err) s1
  | more (s s1 s2 : σ) (token : GoString) (page : RoleList) (rest : List RoleList)
      (outcome : Option GoError)
      (h : p.ListRoles p.namespace_ token s = (.ok page, s1)) (hc : page.Continue ≠ [])
      (hrest : Listing p s1 page.Continue rest outcome s2) :
      Listing p s token (page :: rest) outcome s2

/-- The options of a sequence of pages: one per role, in page order then
item order, with label and value the name of the role. -/
def optionsOf (pages : List RoleList) : List ArgOption :=
  (pages.flatMap (fun page => page.Items)).map (fun r => { Label := r.Name, Value := r.Name })

/-- The `Continue` tokens of the requests for a sequence of pages, the first
request carrying `first`: then the token of every page but the last when the
listing ends with a last page, and of every page when it ends with an
error. -/
def tokensOf (first : GoString) (pages : List RoleList) (outcome : Option GoError) :
    List GoString :=
  first :: ((match outcome with
    | none => pages.dropLast
    | some _ => pages).map (fun (page : RoleList) => page.Continue))

/-- A cluster whose roles come in two pages: `admin`, `dev` with token `t1`,
then `viewer`. -/
def twoPages : Provider Unit where
  namespace_ := goStr "default"
  ListRoles := fun _ token s =>
    if token = [] then
      (.ok { Items := [{ Name := goStr "admin" }, { Name := goStr "dev" }],
             Continue := goStr "t1" }, s)
    else if token = goStr "t1" then
      (.ok { Items := [{ Name := goStr "viewer" }], Continue := [] }, s)
    else
      (.error (GoError.message (goStr "410 Gone")), s)

end EksRolesSso

namespace Api

/-- Modelled from the spec: the statuses of a Request (spec §3), whose type
`access.Request` is not among the sources. -/
inductive RequestStatus where
  | PENDING
  | APPROVED
  | DECLINED
  | CANCELLED
  | REVOKED
deriving DecidableEq, Repr

/-- Modelled from the spec: the fields of a Request that cancelling and
viewing read (spec §3), whose type `access.Request` is not among the
sources. -/
structure Request where
  ID : GoString
  RequestedBy : GoString
  Status : RequestStatus
deriving DecidableEq, Repr

/-- The errors the request handlers tell apart, as the tests name them:
`accesssvc.ErrUserNotAuthorized`, `accesssvc.ErrRequestCannotBeCancelled`,
`ddb.ErrNoItems`, and any other error, known by its text. -/
inductive ServiceError where
  | ErrUserNotAuthorized
  | ErrRequestCannotBeCancelled
  | ErrNoItems
  | other (text : GoString)
deriving DecidableEq, Repr

/-- Modelled from the spec: `CancelRequest` of the access service, whose
body is not among the sources (spec §4.4: only the original requester may
cancel, and only while Status = PENDING; otherwise Authorization, "cannot be
cancelled").  `lookup` is the answer of the database for the request ID;
`none` is success. -/
def CancelRequest (lookup : Except ServiceError Request) (user : GoString) :
    Option ServiceError :=
  match lookup with
  | .error err => some err
  | .ok request =>
    if request.RequestedBy ≠ user then some ServiceError.ErrUserNotAuthorized
    else if request.Status ≠ RequestStatus.PENDING then
      some ServiceError.ErrRequestCannotBeCancelled
    else none

/-- The JSON body `\x7b"error":text\x7d` of an error response. -/
def errorBody (text : String) : GoString :=
  goStr "\x7b\"error\":\"" ++ goStr text ++ goStr "\"\x7d"

/-- Modelled from the spec: the handler of `POST /api/v1/requests/(id)/cancel`,
whose body is not among the sources; its answers are those
`TestUserCancelRequest` (request_test.go:115-190) expects for each error of
`CancelRequest`: status code and body. -/
def UserCancelRequest (err : Option ServiceError) : Nat × GoString :=
  match err with
  | none => (200, goStr "\x7b\x7d")
  | some ServiceError.ErrUserNotAuthorized =>
    (401, errorBody "user is not authorized to perform this action")
  | some ServiceError.ErrNoItems => (404, errorBody "item query returned no items")
  | some ServiceError.ErrRequestCannotBeCancelled =>
    (400, errorBody "only pending requests can be cancelled")
  | some (ServiceError.other _) => (500, errorBody "Internal Server Error")

/-- Modelled from the spec: the view authorization of a Request, whose
handler is not among the sources (spec §4.4: a user may view a Request iff
requester == self, or a Reviewer record exists for self, or the user is an
administrator; `canReview` is surfaced only for the reviewer/administrator
branch).  `none` is "not found"; `some canReview` is the request shown with
that flag.  The requester branch is taken first, as in the first case of
`TestUserGetRequest`, which answers without a reviewer lookup. -/
def viewRequest (user : GoString) (isAdmin : Bool) (request : Request)
    (reviewerExists : Bool) : Option Bool :=
  if request.RequestedBy = user then some false
  else if reviewerExists || isAdmin then some true
  else none

/-- Modelled from the spec: the status code of `GET /api/v1/requests/(id)`
(request_test.go:192-312): 200 when the request may be viewed, 404 with
"item query returned no items" otherwise. -/
def UserGetRequest (user : GoString) (isAdmin : Bool) (request : Request)
    (reviewerExists : Bool) : Nat × Option Bool :=
  match viewRequest user isAdmin request reviewerExists with
  | some canReview => (200, some canReview)
  | none => (404, none)

end Api

namespace Strings

/-- Go `strings.Replace(s, old, new, -1)` for a one-byte `old`: every
occurrence of `old` in `s` is replaced by `new`, the other bytes are kept. -/
def Replace (s : GoString) (old : UInt8) (new : GoString) : GoString :=
  s.flatMap (fun c => if c = old then new else [c])

end Strings

namespace Testvault

/-- Go `EscapeEmailForURL` (testvault/access.go:37-44): five replacements,
one after the other. -/
def EscapeEmailForURL (email : GoString) : GoString :=
  let email := Strings.Replace email 43 (goStr "%2B")
  let email := Strings.Replace email 64 (goStr "%40")
  let email := Strings.Replace email 46 (goStr "%2E")
  let email := Strings.Replace email 45 (goStr "%2D")
  let email := Strings.Replace email 95 (goStr "%5F")
  email

/-- The escape of one byte, as the claim words it: `+`, `@`, `.`, `-` and
`_` become `%2B`, `%40`, `%2E`, `%2D` and `%5F`, any other byte is kept. -/
def escapeByte (c : UInt8) : GoString :=
  if c = 43 then goStr "%2B"
  else if c = 64 then goStr "%40"
  else if c = 46 then goStr "%2E"
  else if c = 45 then goStr "%2D"
  else if c = 95 then goStr "%5F"
  else [c]

end Testvault

namespace Identitysync

/-- A value of a decoded JSON object (an empty-interface value after
`json.Unmarshal`): JSON null (a nil interface), a string, or a value of
another kind (number, boolean, array, object), which carries the text that
`fmt.Sprintf("%s", val)` prints for it. -/
inductive JsonValue where
  | null
  | str (s : GoString)
  | other (printed : GoString)
deriving DecidableEq, Repr

/-- Go `fmt.Sprintf("%s", val)` for a value of a decoded JSON object: a
string is printed as it is, a nil interface as `%!s(<nil>)`. -/
def sprintfS : JsonValue → GoString
  | .null => goStr "%!s(<nil>)"
  | .str s => s
  | .other printed => printed

/-- Go `safeMapGet` (azure.go:108-113), on a `map[string]interface` given as
its lookup function. -/
def safeMapGet (dict : GoString → Option JsonValue) (key : GoString) : GoString :=
  match dict key with
  | some val => sprintfS val
  | none => []

/-- The fields of `identity.IDPUser` that `idpUserFromAzureUser` sets. -/
structure IDPUser where
  ID : GoString
  FirstName : GoString
  LastName : GoString
  Email : GoString
  Groups : List GoString
deriving DecidableEq, Repr

/-- Go `AzureSync`, with the field `idpUserFromAzureUser` reads:
`emailIdentifier.Get()`, empty when the option is not set. -/
structure AzureSync where
  emailIdentifier : GoString

/-- Go `(*AzureSync).idpUserFromAzureUser` (azure.go:137-161). -/
def idpUserFromAzureUser (a : AzureSync) (azureUser : GoString → Option JsonValue)
    (userGroups : List GoString) : Except GoError IDPUser :=
  let emailAttribute := if a.emailIdentifier = [] then goStr "userPrincipalName"
    else a.emailIdentifier
  let u : IDPUser :=
    { ID := safeMapGet azureUser (goStr "id")
      FirstName := safeMapGet azureUser (goStr "givenName")
      LastName := safeMapGet azureUser (goStr "surname")
      Email := safeMapGet azureUser emailAttribute
      Groups := userGroups }
  if u.Email = [] then
    .error (GoError.message
      (goStr "could not find email for user " ++ u.ID ++ goStr " (using attribute "
        ++ emailAttribute ++ goStr ")"))
  else
    .ok u

/-- The user record documented above `idpUserFromAzureUser`
(azure.go:119-133), with the fields the function can read as strings or
null; the other fields are present with a value of another kind or a string. -/
def documentedUser (key : GoString) : Option JsonValue :=
  if key = goStr "businessPhones" then some (JsonValue.other (goStr "[425\x2d555\x2d0100]"))
  else if key = goStr "displayName" then some (JsonValue.str (goStr "MOD Administrator"))
  else if key = goStr "givenName" then some (JsonValue.str (goStr "MOD"))
  else if key = goStr "jobTitle" then some JsonValue.null
  else if key = goStr "mail" then some JsonValue.null
  else if key = goStr "mobilePhone" then some (JsonValue.str (goStr "425\x2d555\x2d0101"))
  else if key = goStr "officeLocation" then some JsonValue.null
  else if key = goStr "preferredLanguage" then some (JsonValue.str (goStr "en\x2dUS"))
  else if key = goStr "surname" then some (JsonValue.str (goStr "Administrator"))
  else if key = goStr "userPrincipalName" then
    some (JsonValue.str (goStr "admin@contoso.com"))
  else if key = goStr "id" then
    some (JsonValue.str (goStr "4562bcc8\x2dc436\x2d4f95\x2db7c0\x2d4f8ce89dca5e"))
  else none

end Identitysync

namespace EcsShellSso

/-- The task is listed as running: its `LastStatus` is "RUNNING". -/
def Task.isRunning (t : Task) : Bool :=
  decide (t.LastStatus = some (goStr "RUNNING"))

/-- The task definition revision of a task: the decimal number in the 7th
colon-separated field of its task definition ARN, when there is one. -/
def Task.revision (t : Task) : Option Int :=
  match t.TaskDefinitionArn with
  | none => none
  | some arn =>
    match (Strings.Split arn colon)[6]? with
    | none => none
    | some field =>
      match Strconv.Atoi field with
      | .ok r => some r
      | .error _ => none

/-- A task as ECS describes it: it has a status, and when it is running it
has a task definition ARN with a revision of at least 1 (ECS numbers
revisions from 1) and a task ARN that is not empty. -/
def Task.WellFormed (t : Task) : Prop :=
  t.LastStatus.isSome = true
    ∧ (t.isRunning = true
        → ∃ r arn, t.revision = some r ∧ 1 ≤ r ∧ t.TaskArn = some arn ∧ arn ≠ [])

/-- The tasks of the family are listed by `p`, from world `s` with token
`token`, as the finite sequence of described pages `pages`: each `ListTasks`
and each `DescribeTasks` succeeds, and the last page has no next token. -/
inductive TaskPages {σ : Type} (p : Provider σ) (family : GoString) :
    σ → Option GoString → List (List Task) → σ → Prop where
  | last (s s1 s2 : σ) (token : Option GoString) (out : ListTasksOutput) (tasks : List Task)
      (hl : p.ecsClient.ListTasks p.ecsClusterARN family token s = (.ok out, s1))
      (hd : p.ecsClient.DescribeTasks p.ecsClusterARN out.TaskArns s1 = (.ok tasks, s2))
      (hn : out.NextToken = none) :
      TaskPages p family s token [tasks] s2
  | more (s s1 s2 s3 : σ) (token : Option GoString) (out : ListTasksOutput)
      (tasks : List Task) (next : GoString) (rest : List (List Task))
      (hl : p.ecsClient.ListTasks p.ecsClusterARN family token s = (.ok out, s1))
      (hd : p.ecsClient.DescribeTasks p.ecsClusterARN out.TaskArns s1 = (.ok tasks, s2))
      (hn : out.NextToken = some next)
      (hrest : TaskPages p family s2 (some next) rest s3) :
      TaskPages p family s token (tasks :: rest) s3

/-- A running task whose task definition has revision 0. -/
def revisionZeroTask : Task :=
  { LastStatus := some (goStr "RUNNING"),
    TaskDefinitionArn :=
      some (goStr "arn:aws:ecs:us-east-1:123456789012:task\x2ddefinition/svc:0"),
    TaskArn := some sampleTaskARN,
    EnableExecuteCommand := true }

/-- An SSO instance other than the one written out at access.go:146. -/
def otherInstanceArn : GoString := goStr "arn:aws:sso:::instance/ssoins-1111111111111111"

/-- The reference provider configured for the instance `otherInstanceArn`. -/
def otherInstanceProvider : Provider Backend :=
  { sampleProvider with instanceARN := otherInstanceArn }

/-- The reference backend serving the instance `otherInstanceArn`. -/
def otherInstanceBackend : Backend :=
  { initialBackend with instanceArn := otherInstanceArn }

/-- The world after `Grant` of the scenario on `otherInstanceBackend`. -/
def otherInstanceAfterGrant : Backend :=
  (Grant otherInstanceProvider sampleBounds scenarioSubject scenarioArgs scenarioGrantID
    (otherInstanceBackend, [])).2.1

/-- The SSO admin call is addressed to the instance `arn`; a call to
another service is not concerned. -/
def Call.addressedTo (arn : GoString) : Call → Bool
  | .ListPermissionSets inst _ => decide (inst = arn)
  | .DescribePermissionSet inst _ => decide (inst = arn)
  | .CreatePermissionSet inst _ => decide (inst = arn)
  | .PutInlinePolicyToPermissionSet inst _ _ => decide (inst = arn)
  | .CreateAccountAssignment inst _ _ _ => decide (inst = arn)
  | .DescribeAccountAssignmentCreationStatus inst _ => decide (inst = arn)
  | .DeleteAccountAssignment inst _ _ _ => decide (inst = arn)
  | .DescribeAccountAssignmentDeletionStatus inst _ => decide (inst = arn)
  | .DeletePermissionSet inst _ => decide (inst = arn)
  | .ListAccountAssignments _ inst _ _ => decide (inst = arn)
  | .ensureAccountExists _ => true
  | .ListUsers _ _ => true
  | .ListTasks _ _ _ => true
  | .DescribeTasks _ _ => true

end EcsShellSso

/-! ## Theorems -/

section StringLemmas

theorem Strings.Split_ne_nil (s : GoString) (sep : UInt8) : Strings.Split s sep ≠ [] := by
  induction s with
  | nil => simp [Strings.Split]
  | cons c cs ih =>
    unfold Strings.Split
    split
    · simp
    · split <;> simp

theorem Strings.Split_cons_ne (c : UInt8) (cs : GoString) (sep : UInt8) (h : c ≠ sep) :
    Strings.Split (c :: cs) sep
      = (c :: (Strings.Split cs sep).headD []) :: (Strings.Split cs sep).tail := by
  have hne := Strings.Split_ne_nil cs sep
  rw [Strings.Split, if_neg h]
  cases hs : Strings.Split cs sep with
  | nil => exact absurd hs hne
  | cons p r => simp

theorem Strings.Split_of_not_mem (s : GoString) (sep : UInt8) (h : sep ∉ s) :
    Strings.Split s sep = [s] := by
  induction s with
  | nil => simp [Strings.Split]
  | cons c cs ih =>
    have hc : c ≠ sep := fun e => h (by simp [e])
    have hcs : sep ∉ cs := fun e => h (by simp [e])
    rw [Strings.Split_cons_ne c cs sep hc, ih hcs]
    simp

theorem Strings.Split_append_sep (a b : GoString) (sep : UInt8) :
    Strings.Split (a ++ sep :: b) sep = Strings.Split a sep ++ Strings.Split b sep := by
  induction a with
  | nil => simp [Strings.Split]
  | cons c cs ih =>
    by_cases hc : c = sep
    · subst hc
      simp [Strings.Split, ih]
    · have hne := Strings.Split_ne_nil cs c
      rw [List.cons_append, Strings.Split_cons_ne c _ sep hc, Strings.Split_cons_ne c cs sep hc, ih]
      have hne2 := Strings.Split_ne_nil cs sep
      cases hs : Strings.Split cs sep with
      | nil => exact absurd hs hne2
      | cons p r => simp

theorem Strings.not_mem_of_mem_Split (s : GoString) (sep : UInt8) :
    ∀ piece ∈ Strings.Split s sep, sep ∉ piece := by
  induction s with
  | nil => simp [Strings.Split]
  | cons c cs ih =>
    by_cases hc : c = sep
    · subst hc
      intro piece hp
      simp only [Strings.Split, if_true, List.mem_cons] at hp
      rcases hp with rfl | hp
      · simp
      · exact ih piece hp
    · have hne2 := Strings.Split_ne_nil cs sep
      rw [Strings.Split_cons_ne c cs sep hc]
      cases hs : Strings.Split cs sep with
      | nil => exact absurd hs hne2
      | cons p r =>
        rw [hs] at ih
        intro piece hp
        simp only [List.headD_cons, List.tail_cons, List.mem_cons] at hp
        rcases hp with rfl | hp
        · have := ih p (by simp)
          simp only [List.mem_cons, not_or]
          exact ⟨fun e => hc e.symm, this⟩
        · exact ih piece (by simp [hp])

theorem Strings.Join_append_singleton (l : List GoString) (g : GoString) (sep : UInt8)
    (h : l ≠ []) : Strings.Join (l ++ [g]) sep = Strings.Join l sep ++ sep :: g := by
  induction l with
  | nil => exact absurd rfl h
  | cons a rest ih =>
    cases rest with
    | nil => simp [Strings.Join]
    | cons b rest2 =>
      have := ih (by simp)
      simp only [List.cons_append] at this ⊢
      simp [Strings.Join, this]

theorem Strings.Split_Join (l : List GoString) (sep : UInt8) (h : l ≠ [])
    (hfree : ∀ piece ∈ l, sep ∉ piece) : Strings.Split (Strings.Join l sep) sep = l := by
  induction l with
  | nil => exact absurd rfl h
  | cons a rest ih =>
    cases rest with
    | nil =>
      simp only [Strings.Join]
      exact Strings.Split_of_not_mem a sep (hfree a (by simp))
    | cons b rest2 =>
      have ih2 := ih (by simp) (fun p hp => hfree p (by simp [hp]))
      simp only [Strings.Join] at ih2 ⊢
      rw [Strings.Split_append_sep, ih2, Strings.Split_of_not_mem a sep (hfree a (by simp))]
      simp

end StringLemmas

/-! ### Permission set names and execution identifiers -/

/-- C1: for every grant ID, `permissionSetNameFromGrantID` returns the ID
itself when its length is at most 32 and its first 32 bytes otherwise; the
result has length at most 32 and is an initial segment of the ID. -/
theorem EcsShellSso.permissionSetNameFromGrantID_spec (id : GoString) :
    EcsShellSso.permissionSetNameFromGrantID id = (if id.length ≤ 32 then id else id.take 32)
      ∧ (EcsShellSso.permissionSetNameFromGrantID id).length ≤ 32
      ∧ EcsShellSso.permissionSetNameFromGrantID id <+: id := by
  unfold EcsShellSso.permissionSetNameFromGrantID
  by_cases h : id.length ≤ 32
  · have h2 : ¬ id.length > 32 := by omega
    simp only [if_neg h2, if_pos h]
    exact ⟨trivial, h, List.prefix_refl id⟩
  · have h2 : id.length > 32 := by omega
    simp only [if_pos h2, if_neg h]
    refine ⟨trivial, ?_, List.take_prefix 32 id⟩
    rw [List.length_take]
    omega

theorem Lambda.BuildExecutionARN_eq (arn g : GoString)
    (h : 6 ≤ (Strings.Split arn colon).length) :
    Lambda.BuildExecutionARN arn g
      = some (Strings.Join ((Strings.Split arn colon).set 5 (goStr "execution")) colon
          ++ colon :: g) := by
  have h5 : 5 < (Strings.Split arn colon).length := by omega
  have hne : (Strings.Split arn colon).set 5 (goStr "execution") ≠ [] := by
    intro e
    have := congrArg List.length e
    rw [List.length_set, List.length_nil] at this
    omega
  simp only [Lambda.BuildExecutionARN, h5, if_true]
  rw [Strings.Join_append_singleton _ _ _ hne]

theorem Lambda.colon_not_mem_execution : colon ∉ goStr "execution" := by decide

theorem Lambda.Split_BuildExecutionARN (arn g r : GoString)
    (h : 6 ≤ (Strings.Split arn colon).length) (hr : Lambda.BuildExecutionARN arn g = some r) :
    Strings.Split r colon
      = (Strings.Split arn colon).set 5 (goStr "execution") ++ Strings.Split g colon := by
  rw [Lambda.BuildExecutionARN_eq arn g h] at hr
  cases hr
  have hne : (Strings.Split arn colon).set 5 (goStr "execution") ≠ [] := by
    intro e
    have := congrArg List.length e
    rw [List.length_set, List.length_nil] at this
    omega
  rw [Strings.Split_append_sep, Strings.Split_Join _ _ hne]
  intro piece hp
  rcases List.mem_or_eq_of_mem_set hp with hp | rfl
  · exact Strings.not_mem_of_mem_Split arn colon piece hp
  · exact Lambda.colon_not_mem_execution

/-- C2 (as stated, refuted): the claim quantifies over every state machine
ARN and every grant ID.  With the five-segment ARN `a:b:c:d:e` the function
does not return at all (index 5 is out of range), and with a well-formed ARN
and the grant ID `a:b` the last segment of the result is `b`, not `a:b`. -/
theorem Lambda.BuildExecutionARN_segments_counterexample :
    Lambda.BuildExecutionARN (goStr "a:b:c:d:e") (goStr "g") = none
      ∧ ¬ (∃ r, Lambda.BuildExecutionARN
              (goStr "arn:aws:states:us-east-1:123456789012:stateMachine:Name") (goStr "a:b")
              = some r
            ∧ (Strings.Split r colon)[5]? = some (goStr "execution")
            ∧ (Strings.Split r colon).getLast? = some (goStr "a:b")) := by
  refine ⟨by decide, ?_⟩
  rintro ⟨r, hr, -, hlast⟩
  have hev : Lambda.BuildExecutionARN
      (goStr "arn:aws:states:us-east-1:123456789012:stateMachine:Name") (goStr "a:b")
      = some (goStr "arn:aws:states:us-east-1:123456789012:execution:Name:a:b") := by decide
  rw [hev] at hr
  cases hr
  revert hlast
  decide

/-- C2 (amended): for every state machine ARN with at least six
colon-separated segments and every grant ID, `BuildExecutionARN` returns a
string whose segment at position 5 is `execution`; its segments are those of
the ARN (segment 5 replaced) followed by the segments of the grant ID, so its
final segment is the grant ID verbatim whenever the grant ID has no colon. -/
theorem Lambda.BuildExecutionARN_segments (arn g : GoString)
    (h : 6 ≤ (Strings.Split arn colon).length) :
    ∃ r, Lambda.BuildExecutionARN arn g = some r
      ∧ (Strings.Split r colon)[5]? = some (goStr "execution")
      ∧ Strings.Split r colon
          = (Strings.Split arn colon).set 5 (goStr "execution") ++ Strings.Split g colon
      ∧ (colon ∉ g → (Strings.Split r colon).getLast? = some g) := by
  refine ⟨_, Lambda.BuildExecutionARN_eq arn g h, ?_⟩
  have hs := Lambda.Split_BuildExecutionARN arn g _ h (Lambda.BuildExecutionARN_eq arn g h)
  have h5 : 5 < ((Strings.Split arn colon).set 5 (goStr "execution")).length := by
    simp only [List.length_set]
    omega
  refine ⟨?_, hs, ?_⟩
  · rw [hs, List.getElem?_append_left h5, List.getElem?_set_self (by omega)]
  · intro hg
    rw [hs, Strings.Split_of_not_mem g colon hg]
    simp

/-- Witness for C2 (amended): the ARN of the source comment and a KSUID-like
grant ID. -/
theorem Lambda.BuildExecutionARN_segments_witness :
    6 ≤ (Strings.Split (goStr "arn:aws:states:us-east-1:123456789012:stateMachine:Name")
          colon).length
      ∧ ∃ r, Lambda.BuildExecutionARN
            (goStr "arn:aws:states:us-east-1:123456789012:stateMachine:Name") (goStr "gra_1")
            = some r
          ∧ (Strings.Split r colon)[5]? = some (goStr "execution")
          ∧ Strings.Split r colon
              = (Strings.Split (goStr "arn:aws:states:us-east-1:123456789012:stateMachine:Name")
                  colon).set 5 (goStr "execution") ++ Strings.Split (goStr "gra_1") colon
          ∧ (colon ∉ goStr "gra_1" → (Strings.Split r colon).getLast? = some (goStr "gra_1")) :=
  ⟨by decide,
   Lambda.BuildExecutionARN_segments
     (goStr "arn:aws:states:us-east-1:123456789012:stateMachine:Name") (goStr "gra_1")
     (by decide)⟩

/-- C3: for a fixed state machine ARN with at least six colon-separated
segments, `BuildExecutionARN` returns an identifier for every grant ID and is
injective in the grant ID: equal identifiers come from equal grant IDs. -/
theorem Lambda.BuildExecutionARN_injective (arn g1 g2 : GoString)
    (h : 6 ≤ (Strings.Split arn colon).length)
    (heq : Lambda.BuildExecutionARN arn g1 = Lambda.BuildExecutionARN arn g2) :
    (Lambda.BuildExecutionARN arn g1).isSome ∧ g1 = g2 := by
  rw [Lambda.BuildExecutionARN_eq arn g1 h, Lambda.BuildExecutionARN_eq arn g2 h] at heq
  refine ⟨by simp [Lambda.BuildExecutionARN_eq arn g1 h], ?_⟩
  have := List.append_cancel_left (Option.some.inj heq)
  exact List.cons_injective this

/-- Witness for C3. -/
theorem Lambda.BuildExecutionARN_injective_witness :
    (Lambda.BuildExecutionARN
        (goStr "arn:aws:states:us-east-1:123456789012:stateMachine:Name") (goStr "gra_1")).isSome
      ∧ goStr "gra_1" = goStr "gra_1" :=
  Lambda.BuildExecutionARN_injective
    (goStr "arn:aws:states:us-east-1:123456789012:stateMachine:Name")
    (goStr "gra_1") (goStr "gra_1") (by decide) rfl

/-! ### `RevokeGrant` -/

section RevokeGrantLemmas

open Lambda

theorem Lambda.stopAndMark_eq (env : Env) (exeARN : GoString) (grant : Types.Grant)
    (trace : List Call) :
    stopAndMark env exeARN grant trace
      = ((match env.StopExecution exeARN with
          | some err => Result.error err
          | none => Result.ok { grant with Status := Types.GrantStatus.REVOKED }),
         trace ++ [Call.StopExecution exeARN]) := by
  unfold stopAndMark
  cases env.StopExecution exeARN <;> rfl

/-- What `RevokeGrant` does once the execution is described, its input is
decoded, the provider is found and the history is fetched and read. -/
theorem Lambda.RevokeGrant_reached (r : Runtime) (env : Env)
    (grantID revoker exeARN input args : GoString) (grant : Types.Grant)
    (prov : RegisteredProvider) (events : List HistoryEvent) (lastState : HistoryEvent)
    (active : Bool)
    (hcfg : env.LoadDefaultConfig = none)
    (harn : BuildExecutionARN r.GranterStateMachineARN grantID = some exeARN)
    (hdesc : env.DescribeExecution exeARN = .ok (some input))
    (hdec : env.UnmarshalWorkflowInput input = .ok grant)
    (hprov : env.Providers grant.Provider = some prov)
    (hargs : env.MarshalWith grant.With = .ok args)
    (hhist : env.GetExecutionHistory exeARN = .ok events)
    (hlast : events.getLast? = some lastState)
    (hact : activeCondition lastState = some active) :
    RevokeGrant r env grantID revoker
      = if active then
          (match prov.Revoke grant.Subject args grant.ID with
           | some err =>
             (Result.error err,
              [Call.DescribeExecution exeARN, Call.GetExecutionHistory exeARN,
               Call.ProviderRevoke grant.Provider grant.Subject args grant.ID])
           | none =>
             stopAndMark env exeARN grant
               [Call.DescribeExecution exeARN, Call.GetExecutionHistory exeARN,
                Call.ProviderRevoke grant.Provider grant.Subject args grant.ID])
        else
          stopAndMark env exeARN grant
            [Call.DescribeExecution exeARN, Call.GetExecutionHistory exeARN] := by
  simp only [RevokeGrant, hcfg, harn, hdesc, hdec, hprov, hargs, hhist, hlast, hact]
  cases active
  · simp
  · simp only [if_true, List.singleton_append, List.cons_append, List.nil_append]

/-- Every run of `RevokeGrant` either ends early, with no grant and without a
mutating call, or reaches the reading of the last history event. -/
theorem Lambda.RevokeGrant_cases (r : Runtime) (env : Env) (grantID revoker : GoString) :
    ((∀ g, (RevokeGrant r env grantID revoker).1 ≠ Result.ok g)
        ∧ ∀ c ∈ (RevokeGrant r env grantID revoker).2, c.isMutating = false)
      ∨ ∃ exeARN input args grant prov events lastState active,
          env.LoadDefaultConfig = none
          ∧ BuildExecutionARN r.GranterStateMachineARN grantID = some exeARN
          ∧ env.DescribeExecution exeARN = .ok (some input)
          ∧ env.UnmarshalWorkflowInput input = .ok grant
          ∧ env.Providers grant.Provider = some prov
          ∧ env.MarshalWith grant.With = .ok args
          ∧ env.GetExecutionHistory exeARN = .ok events
          ∧ events.getLast? = some lastState
          ∧ activeCondition lastState = some active := by
  cases hcfg : env.LoadDefaultConfig with
  | some err => left; simp [RevokeGrant, hcfg]
  | none =>
  cases harn : BuildExecutionARN r.GranterStateMachineARN grantID with
  | none => left; simp [RevokeGrant, hcfg, harn]
  | some exeARN =>
  cases hdesc : env.DescribeExecution exeARN with
  | error err => left; simp [RevokeGrant, hcfg, harn, hdesc, Call.isMutating]
  | ok inputPtr =>
  cases inputPtr with
  | none => left; simp [RevokeGrant, hcfg, harn, hdesc, Call.isMutating]
  | some input =>
  cases hdec : env.UnmarshalWorkflowInput input with
  | error err => left; simp [RevokeGrant, hcfg, harn, hdesc, hdec, Call.isMutating]
  | ok grant =>
  cases hprov : env.Providers grant.Provider with
  | none => left; simp [RevokeGrant, hcfg, harn, hdesc, hdec, hprov, Call.isMutating]
  | some prov =>
  cases hargs : env.MarshalWith grant.With with
  | error err => left; simp [RevokeGrant, hcfg, harn, hdesc, hdec, hprov, hargs, Call.isMutating]
  | ok args =>
  cases hhist : env.GetExecutionHistory exeARN with
  | error err =>
    left; simp [RevokeGrant, hcfg, harn, hdesc, hdec, hprov, hargs, hhist, Call.isMutating]
  | ok events =>
  cases hlast : events.getLast? with
  | none =>
    left; simp [RevokeGrant, hcfg, harn, hdesc, hdec, hprov, hargs, hhist, hlast, Call.isMutating]
  | some lastState =>
  cases hact : activeCondition lastState with
  | none =>
    left
    simp [RevokeGrant, hcfg, harn, hdesc, hdec, hprov, hargs, hhist, hlast, hact,
      Call.isMutating]
  | some active =>
    right
    exact ⟨exeARN, input, args, grant, prov, events, lastState, active,
      rfl, rfl, hdesc, hdec, hprov, hargs, hhist, hlast, hact⟩

/-- When the dereferences of line 66 are safe, the condition of line 66 is
the test that the event is a `WaitStateEntered` of "Wait for Window End". -/
theorem Lambda.activeCondition_eq (e : HistoryEvent)
    (hsafe : e.EventType = goStr "WaitStateEntered"
      → (e.StateEnteredEventDetails.bind (fun d => d.Name)).isSome = true) :
    activeCondition e = some (enteredWaitForWindowEnd e) := by
  unfold activeCondition enteredWaitForWindowEnd
  by_cases ht : e.EventType = goStr "WaitStateEntered"
  · have hs := hsafe ht
    simp only [ht, if_true, decide_True, Bool.true_and]
    cases hd : e.StateEnteredEventDetails with
    | none => simp [hd] at hs
    | some d =>
      cases hn : d.Name with
      | none => simp [hd, hn] at hs
      | some n => simp [hn]
  · simp [ht]

theorem Lambda.sampleEnv_Providers_ecs (events : List HistoryEvent)
    (revoke stop : Option GoError) :
    (sampleEnv events revoke stop).Providers (goStr "ecs")
      = some { Revoke := fun _ _ _ => revoke } := by
  simp [sampleEnv]

end RevokeGrantLemmas

section RevokeGrantClaims

open Lambda

/-- C4 (as stated, refuted): the claim ties the call of `Provider.Revoke` to
the history showing that "Wait for Window End" has been entered.  On the
history of an execution whose window has ended, the wait state was entered
(and left), yet `RevokeGrant` succeeds without calling `Provider.Revoke`:
only the last event is read. -/
theorem Lambda.RevokeGrant_entered_counterexample :
    (∃ e ∈ expiredHistory, enteredWaitForWindowEnd e = true)
      ∧ RevokeGrant ⟨sampleStateMachineARN⟩ (sampleEnv expiredHistory none none)
          (goStr "gra_1") (goStr "admin")
        = (Result.ok { sampleGrant with Status := Types.GrantStatus.REVOKED },
           [Call.DescribeExecution sampleExecutionARN,
            Call.GetExecutionHistory sampleExecutionARN,
            Call.StopExecution sampleExecutionARN])
      ∧ ¬ ((∃ c ∈ (RevokeGrant ⟨sampleStateMachineARN⟩ (sampleEnv expiredHistory none none)
                    (goStr "gra_1") (goStr "admin")).2, c.isProviderRevoke = true)
            ↔ ∃ e ∈ expiredHistory, enteredWaitForWindowEnd e = true) := by
  decide

/-- C4 (amended): for every execution whose input and history are fetched,
whose provider is registered and whose last history event can be read,
`Provider.Revoke` is called if and only if the last event of the history is
the `WaitStateEntered` event of "Wait for Window End"; the call, if made, is
made with the grant's Subject, the encoded With arguments and the grant's ID;
when the last event is not that one, the only mutating call is
`StopExecution`. -/
theorem Lambda.RevokeGrant_revoke_iff_last_event (r : Runtime) (env : Env)
    (grantID revoker exeARN input args : GoString) (grant : Types.Grant)
    (prov : RegisteredProvider) (events : List HistoryEvent) (lastState : HistoryEvent)
    (hcfg : env.LoadDefaultConfig = none)
    (harn : BuildExecutionARN r.GranterStateMachineARN grantID = some exeARN)
    (hdesc : env.DescribeExecution exeARN = .ok (some input))
    (hdec : env.UnmarshalWorkflowInput input = .ok grant)
    (hprov : env.Providers grant.Provider = some prov)
    (hargs : env.MarshalWith grant.With = .ok args)
    (hhist : env.GetExecutionHistory exeARN = .ok events)
    (hlast : events.getLast? = some lastState)
    (hsafe : lastState.EventType = goStr "WaitStateEntered"
      → (lastState.StateEnteredEventDetails.bind (fun d => d.Name)).isSome = true) :
    (Call.ProviderRevoke grant.Provider grant.Subject args grant.ID
          ∈ (RevokeGrant r env grantID revoker).2
        ↔ enteredWaitForWindowEnd lastState = true)
      ∧ (∀ c ∈ (RevokeGrant r env grantID revoker).2, c.isProviderRevoke = true
          → c = Call.ProviderRevoke grant.Provider grant.Subject args grant.ID)
      ∧ (enteredWaitForWindowEnd lastState = false
          → (RevokeGrant r env grantID revoker).2.filter Call.isMutating
              = [Call.StopExecution exeARN]) := by
  have hact := Lambda.activeCondition_eq lastState hsafe
  rw [Lambda.RevokeGrant_reached r env grantID revoker exeARN input args grant prov events
    lastState _ hcfg harn hdesc hdec hprov hargs hhist hlast hact]
  cases hb : enteredWaitForWindowEnd lastState
  · simp [Lambda.stopAndMark_eq, Call.isProviderRevoke, Call.isMutating]
  · cases hrev : prov.Revoke grant.Subject args grant.ID
    · simp [Lambda.stopAndMark_eq, Call.isProviderRevoke]
    · simp [Call.isProviderRevoke]

/-- Witness for C4 (amended): an execution waiting for the end of the
window. -/
theorem Lambda.RevokeGrant_revoke_iff_last_event_witness :
    (Call.ProviderRevoke sampleGrant.Provider sampleGrant.Subject (goStr "args") sampleGrant.ID
          ∈ (RevokeGrant ⟨sampleStateMachineARN⟩ (sampleEnv waitingHistory none none)
              (goStr "gra_1") (goStr "admin")).2
        ↔ enteredWaitForWindowEnd (stateEvent "WaitStateEntered" "Wait for Window End") = true)
      ∧ (∀ c ∈ (RevokeGrant ⟨sampleStateMachineARN⟩ (sampleEnv waitingHistory none none)
              (goStr "gra_1") (goStr "admin")).2, c.isProviderRevoke = true
          → c = Call.ProviderRevoke sampleGrant.Provider sampleGrant.Subject (goStr "args")
                  sampleGrant.ID)
      ∧ (enteredWaitForWindowEnd (stateEvent "WaitStateEntered" "Wait for Window End") = false
          → (RevokeGrant ⟨sampleStateMachineARN⟩ (sampleEnv waitingHistory none none)
              (goStr "gra_1") (goStr "admin")).2.filter Call.isMutating
              = [Call.StopExecution sampleExecutionARN]) :=
  Lambda.RevokeGrant_revoke_iff_last_event ⟨sampleStateMachineARN⟩
    (sampleEnv waitingHistory none none) (goStr "gra_1") (goStr "admin") sampleExecutionARN
    (goStr "input") (goStr "args") sampleGrant ⟨fun _ _ _ => none⟩ waitingHistory
    (stateEvent "WaitStateEntered" "Wait for Window End")
    rfl (by decide) rfl rfl (Lambda.sampleEnv_Providers_ecs _ _ _) rfl rfl (by decide) (by decide)

/-- C5: if `Provider.Revoke` is called and returns an error, `RevokeGrant`
returns that error and no grant, and `StopExecution` is not called. -/
theorem Lambda.RevokeGrant_provider_error (r : Runtime) (env : Env)
    (grantID revoker p s a i : GoString) (prov : RegisteredProvider) (e : GoError)
    (hcall : Call.ProviderRevoke p s a i ∈ (RevokeGrant r env grantID revoker).2)
    (hprov : env.Providers p = some prov) (hrev : prov.Revoke s a i = some e) :
    (RevokeGrant r env grantID revoker).1 = Result.error e
      ∧ ∀ arn, Call.StopExecution arn ∉ (RevokeGrant r env grantID revoker).2 := by
  rcases Lambda.RevokeGrant_cases r env grantID revoker with ⟨-, hmut⟩ | hreach
  · have := hmut _ hcall
    simp [Call.isMutating] at this
  · obtain ⟨exeARN, input, args, grant, prov2, events, lastState, active,
      hcfg, harn, hdesc, hdec, hprov2, hargs, hhist, hlast, hact⟩ := hreach
    rw [Lambda.RevokeGrant_reached r env grantID revoker exeARN input args grant prov2 events
      lastState active hcfg harn hdesc hdec hprov2 hargs hhist hlast hact] at hcall ⊢
    cases active
    · simp [Lambda.stopAndMark_eq] at hcall
    · cases hrev2 : prov2.Revoke grant.Subject args grant.ID with
      | none =>
        simp only [if_true, hrev2, Lambda.stopAndMark_eq, List.mem_append, List.mem_cons,
          List.mem_singleton, List.not_mem_nil, or_false, false_or, Call.ProviderRevoke.injEq]
          at hcall
        simp only [reduceCtorEq, false_or, or_false] at hcall
        obtain ⟨rfl, rfl, rfl, rfl⟩ := hcall
        rw [hprov2] at hprov
        cases hprov
        rw [hrev2] at hrev
        cases hrev
      | some err =>
        simp only [if_true, hrev2, List.mem_cons, List.mem_singleton, List.not_mem_nil,
          Call.ProviderRevoke.injEq, reduceCtorEq, false_or, or_false] at hcall
        obtain ⟨rfl, rfl, rfl, rfl⟩ := hcall
        rw [hprov2] at hprov
        cases hprov
        rw [hrev2] at hrev
        cases hrev
        simp [hrev2]

/-- Witness for C5: the provider answers `Revoke` with an error while the
execution waits for the end of the window. -/
theorem Lambda.RevokeGrant_provider_error_witness :
    (RevokeGrant ⟨sampleStateMachineARN⟩
        (sampleEnv waitingHistory (some (GoError.message (goStr "access denied"))) none)
        (goStr "gra_1") (goStr "admin")).1
        = Result.error (GoError.message (goStr "access denied"))
      ∧ ∀ arn, Call.StopExecution arn
          ∉ (RevokeGrant ⟨sampleStateMachineARN⟩
              (sampleEnv waitingHistory (some (GoError.message (goStr "access denied"))) none)
              (goStr "gra_1") (goStr "admin")).2 :=
  Lambda.RevokeGrant_provider_error ⟨sampleStateMachineARN⟩
    (sampleEnv waitingHistory (some (GoError.message (goStr "access denied"))) none)
    (goStr "gra_1") (goStr "admin") (goStr "ecs") (goStr "a@b.com") (goStr "args")
    (goStr "gra_1") ⟨fun _ _ _ => some (GoError.message (goStr "access denied"))⟩
    (GoError.message (goStr "access denied")) (by decide) (Lambda.sampleEnv_Providers_ecs _ _ _) rfl

/-- C6: if `StopExecution` is called and fails, whether `Provider.Revoke`
succeeded before it or was skipped, `RevokeGrant` returns the stop error and
no grant. -/
theorem Lambda.RevokeGrant_stop_error (r : Runtime) (env : Env)
    (grantID revoker arn : GoString) (e : GoError)
    (hcall : Call.StopExecution arn ∈ (RevokeGrant r env grantID revoker).2)
    (hstop : env.StopExecution arn = some e) :
    (RevokeGrant r env grantID revoker).1 = Result.error e := by
  rcases Lambda.RevokeGrant_cases r env grantID revoker with ⟨-, hmut⟩ | hreach
  · have := hmut _ hcall
    simp [Call.isMutating] at this
  · obtain ⟨exeARN, input, args, grant, prov2, events, lastState, active,
      hcfg, harn, hdesc, hdec, hprov2, hargs, hhist, hlast, hact⟩ := hreach
    rw [Lambda.RevokeGrant_reached r env grantID revoker exeARN input args grant prov2 events
      lastState active hcfg harn hdesc hdec hprov2 hargs hhist hlast hact] at hcall ⊢
    cases active
    · simp only [Bool.false_eq_true, if_false, Lambda.stopAndMark_eq, List.mem_append,
        List.mem_cons, List.mem_singleton, List.not_mem_nil, reduceCtorEq, false_or, or_false,
        Call.StopExecution.injEq] at hcall
      subst hcall
      simp [Lambda.stopAndMark_eq, hstop]
    · cases hrev2 : prov2.Revoke grant.Subject args grant.ID with
      | none =>
        simp only [if_true, hrev2, Lambda.stopAndMark_eq, List.mem_append, List.mem_cons,
          List.mem_singleton, List.not_mem_nil, reduceCtorEq, false_or, or_false,
          Call.StopExecution.injEq] at hcall
        subst hcall
        simp [Lambda.stopAndMark_eq, hstop]
      | some err =>
        simp [hrev2] at hcall

/-- Witness for C6: `Provider.Revoke` succeeds and `StopExecution` fails. -/
theorem Lambda.RevokeGrant_stop_error_witness :
    (RevokeGrant ⟨sampleStateMachineARN⟩
        (sampleEnv waitingHistory none (some (GoError.message (goStr "throttled"))))
        (goStr "gra_1") (goStr "admin")).1
      = Result.error (GoError.message (goStr "throttled")) :=
  Lambda.RevokeGrant_stop_error ⟨sampleStateMachineARN⟩
    (sampleEnv waitingHistory none (some (GoError.message (goStr "throttled"))))
    (goStr "gra_1") (goStr "admin") sampleExecutionARN (GoError.message (goStr "throttled"))
    (by decide) rfl

/-- C7: whenever `RevokeGrant` returns a grant, that grant has Status
REVOKED and its ID, Provider, Subject, With, Start and End are those of the
grant decoded from the input of the execution, and `StopExecution` was issued
exactly once, on `BuildExecutionARN(GranterStateMachineARN, grantID)`. -/
theorem Lambda.RevokeGrant_ok (r : Runtime) (env : Env) (grantID revoker : GoString)
    (g : Types.Grant) (h : (RevokeGrant r env grantID revoker).1 = Result.ok g) :
    ∃ exeARN input grant,
      BuildExecutionARN r.GranterStateMachineARN grantID = some exeARN
      ∧ env.DescribeExecution exeARN = .ok (some input)
      ∧ env.UnmarshalWorkflowInput input = .ok grant
      ∧ g.Status = Types.GrantStatus.REVOKED
      ∧ g.ID = grant.ID ∧ g.Provider = grant.Provider ∧ g.Subject = grant.Subject
      ∧ g.With = grant.With ∧ g.Start = grant.Start ∧ g.End = grant.End
      ∧ (RevokeGrant r env grantID revoker).2.filter Call.isStopExecution
          = [Call.StopExecution exeARN] := by
  rcases Lambda.RevokeGrant_cases r env grantID revoker with ⟨hno, -⟩ | hreach
  · exact absurd h (hno g)
  · obtain ⟨exeARN, input, args, grant, prov2, events, lastState, active,
      hcfg, harn, hdesc, hdec, hprov2, hargs, hhist, hlast, hact⟩ := hreach
    refine ⟨exeARN, input, grant, harn, hdesc, hdec, ?_⟩
    rw [Lambda.RevokeGrant_reached r env grantID revoker exeARN input args grant prov2 events
      lastState active hcfg harn hdesc hdec hprov2 hargs hhist hlast hact] at h ⊢
    cases active
    · cases hs : env.StopExecution exeARN with
      | some err => simp [Lambda.stopAndMark_eq, hs] at h
      | none =>
        simp only [Bool.false_eq_true, if_false, Lambda.stopAndMark_eq, hs,
          Result.ok.injEq] at h
        subst h
        simp [Lambda.stopAndMark_eq, Call.isStopExecution]
    · cases hrev2 : prov2.Revoke grant.Subject args grant.ID with
      | some err => simp [hrev2] at h
      | none =>
        cases hs : env.StopExecution exeARN with
        | some err => simp [hrev2, Lambda.stopAndMark_eq, hs] at h
        | none =>
          simp only [if_true, hrev2, Lambda.stopAndMark_eq, hs, Result.ok.injEq] at h
          subst h
          simp [Lambda.stopAndMark_eq, Call.isStopExecution]

/-- Witness for C7: a successful revocation of an active grant. -/
theorem Lambda.RevokeGrant_ok_witness :
    ∃ exeARN input grant,
      BuildExecutionARN sampleStateMachineARN (goStr "gra_1") = some exeARN
      ∧ (sampleEnv waitingHistory none none).DescribeExecution exeARN = .ok (some input)
      ∧ (sampleEnv waitingHistory none none).UnmarshalWorkflowInput input = .ok grant
      ∧ ({ sampleGrant with Status := Types.GrantStatus.REVOKED } : Types.Grant).Status
          = Types.GrantStatus.REVOKED
      ∧ ({ sampleGrant with Status := Types.GrantStatus.REVOKED } : Types.Grant).ID = grant.ID
      ∧ ({ sampleGrant with Status := Types.GrantStatus.REVOKED } : Types.Grant).Provider
          = grant.Provider
      ∧ ({ sampleGrant with Status := Types.GrantStatus.REVOKED } : Types.Grant).Subject
          = grant.Subject
      ∧ ({ sampleGrant with Status := Types.GrantStatus.REVOKED } : Types.Grant).With
          = grant.With
      ∧ ({ sampleGrant with Status := Types.GrantStatus.REVOKED } : Types.Grant).Start
          = grant.Start
      ∧ ({ sampleGrant with Status := Types.GrantStatus.REVOKED } : Types.Grant).End
          = grant.End
      ∧ (RevokeGrant ⟨sampleStateMachineARN⟩ (sampleEnv waitingHistory none none)
            (goStr "gra_1") (goStr "admin")).2.filter Call.isStopExecution
          = [Call.StopExecution exeARN] :=
  Lambda.RevokeGrant_ok ⟨sampleStateMachineARN⟩ (sampleEnv waitingHistory none none)
    (goStr "gra_1") (goStr "admin") { sampleGrant with Status := Types.GrantStatus.REVOKED }
    (by decide)

/-- C8 (as stated, refuted): the execution was already stopped (its history
ends with `ExecutionAborted`) and `StopExecution` answers with an error that
only reports that the execution is not running; `RevokeGrant` returns that
error to its caller and no grant. -/
theorem Lambda.RevokeGrant_already_stopped_counterexample :
    RevokeGrant ⟨sampleStateMachineARN⟩
        (sampleEnv abortedHistory none
          (some (GoError.message (goStr "ExecutionNotRunning: execution is not running"))))
        (goStr "gra_1") (goStr "admin")
      = (Result.error (GoError.message (goStr "ExecutionNotRunning: execution is not running")),
         [Call.DescribeExecution sampleExecutionARN,
          Call.GetExecutionHistory sampleExecutionARN,
          Call.StopExecution sampleExecutionARN]) := by
  decide

/-- C8 (amended): when the execution addressed by the grant ID is no longer
waiting for the end of the window (its last event is not a
`WaitStateEntered` event, as for a stopped execution), `RevokeGrant` calls
`StopExecution` without calling the provider and returns whatever error
`StopExecution` returns, unchanged; it returns the REVOKED grant exactly when
`StopExecution` returns no error. -/
theorem Lambda.RevokeGrant_stopped_execution (r : Runtime) (env : Env)
    (grantID revoker exeARN input args : GoString) (grant : Types.Grant)
    (prov : RegisteredProvider) (events : List HistoryEvent) (lastState : HistoryEvent)
    (hcfg : env.LoadDefaultConfig = none)
    (harn : BuildExecutionARN r.GranterStateMachineARN grantID = some exeARN)
    (hdesc : env.DescribeExecution exeARN = .ok (some input))
    (hdec : env.UnmarshalWorkflowInput input = .ok grant)
    (hprov : env.Providers grant.Provider = some prov)
    (hargs : env.MarshalWith grant.With = .ok args)
    (hhist : env.GetExecutionHistory exeARN = .ok events)
    (hlast : events.getLast? = some lastState)
    (hstopped : lastState.EventType ≠ goStr "WaitStateEntered") :
    RevokeGrant r env grantID revoker
        = ((match env.StopExecution exeARN with
            | some err => Result.error err
            | none => Result.ok { grant with Status := Types.GrantStatus.REVOKED }),
           [Call.DescribeExecution exeARN, Call.GetExecutionHistory exeARN,
            Call.StopExecution exeARN])
      ∧ ((∃ g, (RevokeGrant r env grantID revoker).1 = Result.ok g)
          ↔ env.StopExecution exeARN = none) := by
  have hact : activeCondition lastState = some false := by
    simp [activeCondition, hstopped]
  rw [Lambda.RevokeGrant_reached r env grantID revoker exeARN input args grant prov events
    lastState false hcfg harn hdesc hdec hprov hargs hhist hlast hact]
  cases hs : env.StopExecution exeARN <;> simp [Lambda.stopAndMark_eq, hs]

/-- Witness for C8 (amended): the already stopped execution of the
counterexample. -/
theorem Lambda.RevokeGrant_stopped_execution_witness :
    RevokeGrant ⟨sampleStateMachineARN⟩
        (sampleEnv abortedHistory none (some (GoError.message (goStr "not running"))))
        (goStr "gra_1") (goStr "admin")
        = ((match (sampleEnv abortedHistory none
                    (some (GoError.message (goStr "not running")))).StopExecution
                  sampleExecutionARN with
            | some err => Result.error err
            | none => Result.ok { sampleGrant with Status := Types.GrantStatus.REVOKED }),
           [Call.DescribeExecution sampleExecutionARN,
            Call.GetExecutionHistory sampleExecutionARN,
            Call.StopExecution sampleExecutionARN])
      ∧ ((∃ g, (RevokeGrant ⟨sampleStateMachineARN⟩
                  (sampleEnv abortedHistory none (some (GoError.message (goStr "not running"))))
                  (goStr "gra_1") (goStr "admin")).1 = Result.ok g)
          ↔ (sampleEnv abortedHistory none
              (some (GoError.message (goStr "not running")))).StopExecution sampleExecutionARN
              = none) :=
  Lambda.RevokeGrant_stopped_execution ⟨sampleStateMachineARN⟩
    (sampleEnv abortedHistory none (some (GoError.message (goStr "not running"))))
    (goStr "gra_1") (goStr "admin") sampleExecutionARN (goStr "input") (goStr "args")
    sampleGrant ⟨fun _ _ _ => none⟩ abortedHistory (plainEvent "ExecutionAborted")
    rfl (by decide) rfl rfl (Lambda.sampleEnv_Providers_ecs _ _ _) rfl rfl (by decide) (by decide)

end RevokeGrantClaims

/-! ### The ecs-shell-sso provider on the reference backend -/

section EcsScenario

open EcsShellSso

/-- C9 (evaluation at the failing input): on the reference backend, `Revoke`
for a grant that was never granted returns the error "permissionset not
found"; after a successful `Grant` a first `Revoke` succeeds and removes the
permission set and the assignment, and a second `Revoke` with the same
subject, arguments and grant ID returns "permissionset not found" instead of
nil. -/
theorem EcsShellSso.Revoke_twice_evaluation :
    (Revoke sampleProvider sampleBounds scenarioSubject scenarioArgs scenarioGrantID
        (initialBackend, [])).1
      = Result.error (GoError.message (goStr "permissionset not found"))
    ∧ (Grant sampleProvider sampleBounds scenarioSubject scenarioArgs scenarioGrantID
        (initialBackend, [])).1 = Result.ok ()
    ∧ (Revoke sampleProvider sampleBounds scenarioSubject scenarioArgs scenarioGrantID
        (afterGrant, [])).1 = Result.ok ()
    ∧ afterRevoke.permissionSets = [] ∧ afterRevoke.assignments = []
    ∧ (Revoke sampleProvider sampleBounds scenarioSubject scenarioArgs scenarioGrantID
        (afterRevoke, [])).1
      = Result.error (GoError.message (goStr "permissionset not found")) := by
  decide

/-- C10 (evaluation at the failing input): the scenario of the spec on the
reference backend.  `Grant` succeeds and stores a permission set named by the
first 32 bytes of the grant ID, assigned to the user; the following
`IsActive` returns false (line 314 compares the addresses of two strings, not
the strings); after a successful `Revoke`, `IsActive` returns the error
"permissionset not found" rather than false without error. -/
theorem EcsShellSso.scenario_evaluation :
    (Grant sampleProvider sampleBounds scenarioSubject scenarioArgs scenarioGrantID
        (initialBackend, [])).1 = Result.ok ()
    ∧ afterGrant.permissionSets.map Prod.snd = [scenarioGrantID.take 32]
    ∧ afterGrant.assignments.map (fun a => a.2.2) = [goStr "user-1"]
    ∧ (IsActive sampleProvider sampleBounds scenarioSubject scenarioArgs scenarioGrantID
        (afterGrant, [])).1 = Result.ok false
    ∧ (Revoke sampleProvider sampleBounds scenarioSubject scenarioArgs scenarioGrantID
        (afterGrant, [])).1 = Result.ok ()
    ∧ (IsActive sampleProvider sampleBounds scenarioSubject scenarioArgs scenarioGrantID
        (afterRevoke, [])).1
      = Result.error (GoError.message (goStr "permissionset not found")) := by
  decide

end EcsScenario

/-! ### Computations of the ecs-shell-sso provider -/

section ProgLemmas

open EcsShellSso

theorem EcsShellSso.Prog.bind_apply {σ α β : Type} (m : Prog σ α) (f : α → Prog σ β)
    (w : σ × List Call) :
    (m >>= f) w
      = match m w with
        | (Result.ok a, w1) => f a w1
        | (Result.error err, w1) => (Result.error err, w1)
        | (Result.panic, w1) => (Result.panic, w1)
        | (Result.exhausted, w1) => (Result.exhausted, w1) := rfl

theorem EcsShellSso.Prog.bind_ok {σ α β : Type} (m : Prog σ α) (f : α → Prog σ β)
    (w w1 : σ × List Call) (a : α) (h : m w = (Result.ok a, w1)) :
    (m >>= f) w = f a w1 := by
  rw [Prog.bind_apply, h]

theorem EcsShellSso.Prog.bind_error {σ α β : Type} (m : Prog σ α) (f : α → Prog σ β)
    (w w1 : σ × List Call) (err : GoError) (h : m w = (Result.error err, w1)) :
    (m >>= f) w = (Result.error err, w1) := by
  rw [Prog.bind_apply, h]

theorem EcsShellSso.Prog.bind_panic {σ α β : Type} (m : Prog σ α) (f : α → Prog σ β)
    (w w1 : σ × List Call) (h : m w = (Result.panic, w1)) :
    (m >>= f) w = (Result.panic, w1) := by
  rw [Prog.bind_apply, h]

theorem EcsShellSso.Prog.bind_exhausted {σ α β : Type} (m : Prog σ α) (f : α → Prog σ β)
    (w w1 : σ × List Call) (h : m w = (Result.exhausted, w1)) :
    (m >>= f) w = (Result.exhausted, w1) := by
  rw [Prog.bind_apply, h]

theorem EcsShellSso.Prog.bind_ok_inv {σ α β : Type} (m : Prog σ α) (f : α → Prog σ β)
    (w w2 : σ × List Call) (b : β) (h : (m >>= f) w = (Result.ok b, w2)) :
    ∃ a w1, m w = (Result.ok a, w1) ∧ f a w1 = (Result.ok b, w2) := by
  rw [Prog.bind_apply] at h
  rcases hmw : m w with ⟨r, w1⟩
  rw [hmw] at h
  cases r with
  | ok a => exact ⟨a, w1, rfl, h⟩
  | error err => simp at h
  | panic => simp at h
  | exhausted => simp at h

theorem EcsShellSso.Prog.pure_apply {σ α : Type} (a : α) (w : σ × List Call) :
    (pure a : Prog σ α) w = (Result.ok a, w) := rfl

theorem EcsShellSso.Prog.fail_apply {σ α : Type} (err : GoError) (w : σ × List Call) :
    (Prog.fail err : Prog σ α) w = (Result.error err, w) := rfl

theorem EcsShellSso.Prog.panic_apply {σ α : Type} (w : σ × List Call) :
    (Prog.panic : Prog σ α) w = (Result.panic, w) := rfl

theorem EcsShellSso.Prog.exhausted_apply {σ α : Type} (w : σ × List Call) :
    (Prog.exhausted : Prog σ α) w = (Result.exhausted, w) := rfl

theorem EcsShellSso.Prog.lift_apply {σ α : Type} (r : Result α) (w : σ × List Call) :
    (Prog.lift r : Prog σ α) w = (r, w) := rfl

theorem EcsShellSso.invoke_apply {σ α : Type} (c : Call) (op : σ → α × σ)
    (w : σ × List Call) :
    invoke c op w = (Result.ok (op w.1).1, ((op w.1).2, w.2 ++ [c])) := rfl

theorem EcsShellSso.Prog.Adds.pure {σ α : Type} (P : Call → Prop) (a : α) :
    Prog.Adds P (Pure.pure a : Prog σ α) :=
  fun w => ⟨[], by simp [Prog.pure_apply], by simp⟩

theorem EcsShellSso.Prog.Adds.fail {σ α : Type} (P : Call → Prop) (err : GoError) :
    Prog.Adds P (Prog.fail err : Prog σ α) :=
  fun w => ⟨[], by simp [Prog.fail_apply], by simp⟩

theorem EcsShellSso.Prog.Adds.panic {σ α : Type} (P : Call → Prop) :
    Prog.Adds P (Prog.panic : Prog σ α) :=
  fun w => ⟨[], by simp [Prog.panic_apply], by simp⟩

theorem EcsShellSso.Prog.Adds.exhausted {σ α : Type} (P : Call → Prop) :
    Prog.Adds P (Prog.exhausted : Prog σ α) :=
  fun w => ⟨[], by simp [Prog.exhausted_apply], by simp⟩

theorem EcsShellSso.Prog.Adds.lift {σ α : Type} (P : Call → Prop) (r : Result α) :
    Prog.Adds P (Prog.lift r : Prog σ α) :=
  fun w => ⟨[], by simp [Prog.lift_apply], by simp⟩

theorem EcsShellSso.Prog.Adds.invoke {σ α : Type} (P : Call → Prop) (c : Call)
    (op : σ → α × σ) (h : P c) : Prog.Adds P (EcsShellSso.invoke c op) :=
  fun w => ⟨[c], by simp [invoke_apply], by simpa using h⟩

theorem EcsShellSso.Prog.Adds.bind {σ α β : Type} (P : Call → Prop) (m : Prog σ α)
    (f : α → Prog σ β) (hm : Prog.Adds P m) (hf : ∀ a, Prog.Adds P (f a)) :
    Prog.Adds P (m >>= f) := by
  intro w
  obtain ⟨t, ht, hP⟩ := hm w
  rw [Prog.bind_apply]
  rcases hmw : m w with ⟨r, w1⟩
  rw [hmw] at ht
  cases r with
  | ok a =>
    obtain ⟨t2, ht2, hP2⟩ := hf a w1
    refine ⟨t ++ t2, ?_, ?_⟩
    · simp only [ht2]
      rw [show w1.2 = w.2 ++ t from ht, List.append_assoc]
    · intro c hc
      rcases List.mem_append.mp hc with h | h
      · exact hP c h
      · exact hP2 c h
  | error err => exact ⟨t, ht, hP⟩
  | panic => exact ⟨t, ht, hP⟩
  | exhausted => exact ⟨t, ht, hP⟩

theorem EcsShellSso.Prog.Adds.attempt {σ α : Type} (P : Call → Prop) (m : Prog σ α)
    (hm : Prog.Adds P m) : Prog.Adds P (Prog.attempt m) := by
  intro w
  obtain ⟨t, ht, hP⟩ := hm w
  refine ⟨t, ?_, hP⟩
  unfold Prog.attempt
  rcases hmw : m w with ⟨r, w1⟩
  rw [hmw] at ht
  cases r <;> exact ht

theorem EcsShellSso.Prog.Adds.retryDo {σ α : Type} (P : Call → Prop)
    (f : Prog σ (RetryOutcome α)) (hf : Prog.Adds P f) (retries : Nat) :
    Prog.Adds P (EcsShellSso.retryDo retries f) := by
  induction retries with
  | zero =>
    unfold EcsShellSso.retryDo
    refine Prog.Adds.bind P f _ hf ?_
    intro a
    cases a <;> exact Prog.Adds.pure P _
  | succ n ih =>
    unfold EcsShellSso.retryDo
    refine Prog.Adds.bind P f _ hf ?_
    intro a
    cases a
    · exact Prog.Adds.pure P _
    · exact ih
    · exact Prog.Adds.pure P _

theorem EcsShellSso.Prog.Adds.mono {σ α : Type} (P Q : Call → Prop) (m : Prog σ α)
    (hPQ : ∀ c, P c → Q c) (hm : Prog.Adds P m) : Prog.Adds Q m :=
  fun w => let ⟨t, ht, hP⟩ := hm w; ⟨t, ht, fun c hc => hPQ c (hP c hc)⟩

end ProgLemmas

section ProviderLemmas

open EcsShellSso

/-- What `getUser` returns, for each answer of `ListUsers`. -/
theorem EcsShellSso.getUser_apply {σ : Type} (p : Provider σ) (email : GoString)
    (w : σ × List Call) :
    getUser p email w
      = ((match (p.idStoreClient.ListUsers p.identityStoreID email w.1).1 with
          | .error err => Result.error err
          | .ok [] => Result.error (GoError.UserNotFoundError email)
          | .ok [u] => Result.ok u
          | .ok users => Result.error (GoError.message
              (goStr "expected 1 user but found " ++ goStr (toString users.length)))),
         ((p.idStoreClient.ListUsers p.identityStoreID email w.1).2,
          w.2 ++ [Call.ListUsers p.identityStoreID email])) := by
  unfold getUser
  simp only [Prog.bind_apply, invoke_apply]
  cases h : (p.idStoreClient.ListUsers p.identityStoreID email w.1).1 with
  | error err => simp [Prog.fail]
  | ok users =>
    match users with
    | [] => simp [Prog.fail]
    | [u] => simp [Prog.pure_apply]
    | u :: v :: rest => simp [Prog.fail]

theorem EcsShellSso.getUser_adds {σ : Type} (P : Call → Prop) (p : Provider σ)
    (email : GoString) (h : P (Call.ListUsers p.identityStoreID email)) :
    Prog.Adds P (getUser p email) := by
  intro w
  refine ⟨[Call.ListUsers p.identityStoreID email], ?_, by simpa using h⟩
  rw [getUser_apply]

theorem EcsShellSso.scanPermissionSets_adds {σ : Type} (P : Call → Prop) (p : Provider σ)
    (name : GoString) (h : ∀ arn, P (Call.DescribePermissionSet p.instanceARN arn))
    (arns : List GoString) : Prog.Adds P (scanPermissionSets p name arns) := by
  induction arns with
  | nil => exact Prog.Adds.pure P _
  | cons arn rest ih =>
    unfold scanPermissionSets
    refine Prog.Adds.bind P _ _ (Prog.Adds.invoke P _ _ (h arn)) ?_
    intro po
    cases po with
    | error err => exact Prog.Adds.fail P _
    | ok ps =>
      dsimp only
      split
      · exact Prog.Adds.pure P _
      · exact ih

theorem EcsShellSso.listPermissionSetsLoop_adds {σ : Type} (P : Call → Prop)
    (p : Provider σ) (name : GoString)
    (hl : ∀ token, P (Call.ListPermissionSets p.instanceARN token))
    (hd : ∀ arn, P (Call.DescribePermissionSet p.instanceARN arn))
    (pages : Nat) (token : Option GoString) :
    Prog.Adds P (listPermissionSetsLoop p name pages token) := by
  induction pages generalizing token with
  | zero => exact Prog.Adds.exhausted P
  | succ n ih =>
    unfold listPermissionSetsLoop
    refine Prog.Adds.bind P _ _ (Prog.Adds.invoke P _ _ (hl token)) ?_
    intro o
    cases o with
    | error err => exact Prog.Adds.fail P _
    | ok out =>
      dsimp only
      refine Prog.Adds.bind P _ _ (scanPermissionSets_adds P p name hd _) ?_
      intro arnMatch
      split
      · exact Prog.Adds.pure P _
      · split
        · exact ih _
        · exact Prog.Adds.pure P _

theorem EcsShellSso.GetPermissionSetARN_adds {σ : Type} (P : Call → Prop)
    (p : Provider σ) (b : Bounds) (name : GoString)
    (hl : ∀ token, P (Call.ListPermissionSets p.instanceARN token))
    (hd : ∀ arn, P (Call.DescribePermissionSet p.instanceARN arn)) :
    Prog.Adds P (GetPermissionSetARN p b name) := by
  unfold GetPermissionSetARN
  refine Prog.Adds.bind P _ _ (listPermissionSetsLoop_adds P p name hl hd _ _) ?_
  intro arnMatch
  cases arnMatch with
  | none => exact Prog.Adds.fail P _
  | some arn => exact Prog.Adds.pure P _

/-- A response returned by `createPermissionSetAndAssignment` carries no
failure reason: line 510 returns an error otherwise. -/
theorem EcsShellSso.createPermissionSetAndAssignment_ok {σ : Type} (p : Provider σ)
    (subject name family : GoString) (w w1 : σ × List Call)
    (res : AccountAssignmentOperationStatus)
    (h : createPermissionSetAndAssignment p subject name family w = (Result.ok res, w1)) :
    res.FailureReason = none := by
  unfold createPermissionSetAndAssignment at h
  cases hsplit : (Strings.Split p.ecsClusterARN slash)[1]? with
  | none =>
    rw [hsplit] at h
    simp [Prog.panic_apply] at h
  | some clusterName =>
    rw [hsplit] at h
    obtain ⟨user, wa, -, h⟩ := Prog.bind_ok_inv _ _ _ _ _ h
    obtain ⟨permSet, wb, -, h⟩ := Prog.bind_ok_inv _ _ _ _ _ h
    cases permSet with
    | error err => simp [Prog.fail_apply] at h
    | ok permSet =>
      obtain ⟨put, wc, -, h⟩ := Prog.bind_ok_inv _ _ _ _ _ h
      cases put with
      | some err => simp [Prog.fail_apply] at h
      | none =>
        obtain ⟨created, wd, -, h⟩ := Prog.bind_ok_inv _ _ _ _ _ h
        cases created with
        | error err => simp [Prog.fail_apply] at h
        | ok created =>
          cases hreason : created.FailureReason with
          | some reason => simp [hreason, Prog.fail_apply] at h
          | none =>
            simp only [hreason, Prog.pure_apply, Prod.mk.injEq, Result.ok.injEq] at h
            rw [← h.1]
            exact hreason

theorem EcsShellSso.createPermissionSetAndAssignment_adds {σ : Type} (P : Call → Prop)
    (p : Provider σ) (subject name family : GoString)
    (hu : P (Call.ListUsers p.identityStoreID subject))
    (hc : P (Call.CreatePermissionSet p.instanceARN name))
    (hp : ∀ arn doc, P (Call.PutInlinePolicyToPermissionSet p.instanceARN arn doc))
    (ha : ∀ arn id, P (Call.CreateAccountAssignment p.instanceARN arn id p.awsAccountID)) :
    Prog.Adds P (createPermissionSetAndAssignment p subject name family) := by
  unfold createPermissionSetAndAssignment
  split
  · exact Prog.Adds.panic P
  · refine Prog.Adds.bind P _ _ (getUser_adds P p subject hu) ?_
    intro user
    refine Prog.Adds.bind P _ _ (Prog.Adds.invoke P _ _ hc) ?_
    intro permSet
    cases permSet with
    | error err => exact Prog.Adds.fail P _
    | ok permSet =>
      dsimp only
      refine Prog.Adds.bind P _ _ (Prog.Adds.invoke P _ _ (hp _ _)) ?_
      intro put
      cases put with
      | some err => exact Prog.Adds.fail P _
      | none =>
        dsimp only
        refine Prog.Adds.bind P _ _ (Prog.Adds.invoke P _ _ (ha _ _)) ?_
        intro res
        cases res with
        | error err => exact Prog.Adds.fail P _
        | ok res =>
          dsimp only
          split
          · exact Prog.Adds.fail P _
          · exact Prog.Adds.pure P _

end ProviderLemmas

section ProviderEquations

open EcsShellSso

/-- `Revoke` is its lookup part followed by `revokeFromLookup`. -/
theorem EcsShellSso.Revoke_eq {σ : Type} (p : Provider σ) (b : Bounds)
    (subject args grantID : GoString) :
    Revoke p b subject args grantID
      = (match p.unmarshalArgs args with
         | .error err => Prog.fail err
         | .ok _ => do
           let exists_ ← invoke (Call.ensureAccountExists p.awsAccountID)
             (p.ensureAccountExists p.awsAccountID)
           match exists_ with
           | some err => Prog.fail err
           | none =>
             let user ← getUser p subject
             let permissionSetARN ←
               GetPermissionSetARN p b (permissionSetNameFromGrantID grantID)
             revokeFromLookup p b user permissionSetARN) := rfl

/-- `Grant` is its creating part followed by `grantFromAssignment`. -/
theorem EcsShellSso.Grant_eq {σ : Type} (p : Provider σ) (b : Bounds)
    (subject args grantID : GoString) :
    Grant p b subject args grantID
      = (match p.unmarshalArgs args with
         | .error err => Prog.fail err
         | .ok a => do
           let exists_ ← invoke (Call.ensureAccountExists p.awsAccountID)
             (p.ensureAccountExists p.awsAccountID)
           match exists_ with
           | some err => Prog.fail err
           | none =>
             let res ← createPermissionSetAndAssignment p subject
               (permissionSetNameFromGrantID grantID) a.TaskDefinitionFamily
             grantFromAssignment p b res) := rfl

end ProviderEquations

section RetryLemmas

open EcsShellSso

theorem EcsShellSso.retryDo_done {σ α : Type} (f : Prog σ (RetryOutcome α)) (retries : Nat)
    (w w1 : σ × List Call) (v : α) (h : f w = (Result.ok (RetryOutcome.done v), w1)) :
    retryDo retries f w = (Result.ok (.ok v), w1) := by
  cases retries <;> simp [retryDo, Prog.bind_apply, h, Prog.pure_apply]

theorem EcsShellSso.retryDo_fatal {σ α : Type} (f : Prog σ (RetryOutcome α)) (retries : Nat)
    (w w1 : σ × List Call) (err : GoError)
    (h : f w = (Result.ok (RetryOutcome.fatal err), w1)) :
    retryDo retries f w = (Result.ok (.error err), w1) := by
  cases retries <;> simp [retryDo, Prog.bind_apply, h, Prog.pure_apply]

theorem EcsShellSso.retryDo_retryable_zero {σ α : Type} (f : Prog σ (RetryOutcome α))
    (w w1 : σ × List Call) (err : GoError)
    (h : f w = (Result.ok (RetryOutcome.retryable err), w1)) :
    retryDo 0 f w = (Result.ok (.error err), w1) := by
  simp [retryDo, Prog.bind_apply, h, Prog.pure_apply]

theorem EcsShellSso.retryDo_retryable_succ {σ α : Type} (f : Prog σ (RetryOutcome α))
    (retries : Nat) (w w1 : σ × List Call) (err : GoError)
    (h : f w = (Result.ok (RetryOutcome.retryable err), w1)) :
    retryDo (retries + 1) f w = retryDo retries f w1 := by
  simp [retryDo, Prog.bind_apply, h]

/-- What one attempt of the `DeleteAccountAssignment` loop returns. -/
theorem EcsShellSso.deleteAssignmentAttempt_apply {σ : Type} (p : Provider σ) (user : User)
    (arn : GoString) (w : σ × List Call) :
    deleteAssignmentAttempt p user arn w
      = (Result.ok
          (match (p.ssoClient.DeleteAccountAssignment p.instanceARN (some arn)
                    (user.UserId.map (fun ptr => ptr.val)) p.awsAccountID w.1).1 with
           | .ok out => RetryOutcome.done out
           | .error (GoError.ConflictException msg) =>
             RetryOutcome.retryable (GoError.ConflictException msg)
           | .error err => RetryOutcome.fatal err),
         ((p.ssoClient.DeleteAccountAssignment p.instanceARN (some arn)
              (user.UserId.map (fun ptr => ptr.val)) p.awsAccountID w.1).2,
          w.2 ++ [Call.DeleteAccountAssignment p.instanceARN (some arn)
              (user.UserId.map (fun ptr => ptr.val)) p.awsAccountID])) := by
  unfold deleteAssignmentAttempt
  simp only [Prog.bind_apply, invoke_apply]
  cases h : (p.ssoClient.DeleteAccountAssignment p.instanceARN (some arn)
      (user.UserId.map (fun ptr => ptr.val)) p.awsAccountID w.1).1 with
  | ok out => simp [Prog.pure_apply]
  | error err => cases err <;> simp [Prog.pure_apply]

/-- What one attempt of the deletion status poll returns. -/
theorem EcsShellSso.deletionStatusAttempt_apply {σ : Type} (p : Provider σ)
    (deleteRes : AccountAssignmentOperationStatus) (w : σ × List Call) :
    deletionStatusAttempt p deleteRes w
      = (Result.ok
          (match (p.ssoClient.DescribeAccountAssignmentDeletionStatus deletionStatusInstanceArn
                    deleteRes.RequestId w.1).1 with
           | .error err => RetryOutcome.retryable err
           | .ok status =>
             if status.Status = goStr "IN_PROGRESS" then
               RetryOutcome.retryable (GoError.message (goStr "still in progress"))
             else RetryOutcome.done status),
         ((p.ssoClient.DescribeAccountAssignmentDeletionStatus deletionStatusInstanceArn
              deleteRes.RequestId w.1).2,
          w.2 ++ [Call.DescribeAccountAssignmentDeletionStatus deletionStatusInstanceArn
              deleteRes.RequestId])) := by
  unfold deletionStatusAttempt
  simp only [Prog.bind_apply, invoke_apply]
  cases h : (p.ssoClient.DescribeAccountAssignmentDeletionStatus deletionStatusInstanceArn
      deleteRes.RequestId w.1).1 with
  | error err => simp [Prog.pure_apply]
  | ok status =>
    by_cases hs : status.Status = goStr "IN_PROGRESS" <;> simp [hs, Prog.pure_apply]

theorem EcsShellSso.deleteAssignmentAttempt_adds {σ : Type} (P : Call → Prop)
    (p : Provider σ) (user : User) (arn : GoString)
    (h : ∀ a i, P (Call.DeleteAccountAssignment p.instanceARN a i p.awsAccountID)) :
    Prog.Adds P (deleteAssignmentAttempt p user arn) := by
  unfold deleteAssignmentAttempt
  refine Prog.Adds.bind P _ _ (Prog.Adds.invoke P _ _ (h _ _)) ?_
  intro r
  cases r with
  | ok out => exact Prog.Adds.pure P _
  | error err => cases err <;> exact Prog.Adds.pure P _

theorem EcsShellSso.deletionStatusAttempt_adds {σ : Type} (P : Call → Prop)
    (p : Provider σ) (deleteRes : AccountAssignmentOperationStatus)
    (h : ∀ a i, P (Call.DescribeAccountAssignmentDeletionStatus a i)) :
    Prog.Adds P (deletionStatusAttempt p deleteRes) := by
  unfold deletionStatusAttempt
  refine Prog.Adds.bind P _ _ (Prog.Adds.invoke P _ _ (h _ _)) ?_
  intro r
  cases r with
  | error err => exact Prog.Adds.pure P _
  | ok status =>
    dsimp only
    split <;> exact Prog.Adds.pure P _

/-- A poll that is answered IN_PROGRESS at every attempt ends, once the
backoff stops, with the error "still in progress". -/
theorem EcsShellSso.retryDo_deletionStatus_in_progress {σ : Type} (p : Provider σ)
    (deleteRes : AccountAssignmentOperationStatus)
    (hbusy : ∀ s, ∃ st, (p.ssoClient.DescribeAccountAssignmentDeletionStatus
        deletionStatusInstanceArn deleteRes.RequestId s).1 = .ok st
        ∧ st.Status = goStr "IN_PROGRESS")
    (retries : Nat) (w : σ × List Call) :
    (retryDo retries (deletionStatusAttempt p deleteRes) w).1
      = Result.ok (.error (GoError.message (goStr "still in progress"))) := by
  have hatt : ∀ w : σ × List Call, deletionStatusAttempt p deleteRes w
      = (Result.ok (RetryOutcome.retryable (GoError.message (goStr "still in progress"))),
         ((p.ssoClient.DescribeAccountAssignmentDeletionStatus deletionStatusInstanceArn
              deleteRes.RequestId w.1).2,
          w.2 ++ [Call.DescribeAccountAssignmentDeletionStatus deletionStatusInstanceArn
              deleteRes.RequestId])) := by
    intro w
    obtain ⟨st, hst, hs⟩ := hbusy w.1
    rw [deletionStatusAttempt_apply, hst]
    simp [hs]
  induction retries generalizing w with
  | zero => rw [retryDo_retryable_zero _ w _ _ (hatt w)]
  | succ n ih =>
    rw [retryDo_retryable_succ _ n w _ _ (hatt w)]
    exact ih _

/-- The lookup part of `Revoke`: when the arguments decode, the account
exists, the user and the permission set are found, `Revoke` continues with
`revokeFromLookup`, and only lookup calls have been made. -/
theorem EcsShellSso.Revoke_of_lookup {σ : Type} (p : Provider σ) (b : Bounds)
    (subject args grantID : GoString) (w w1 w2 : σ × List Call) (a : Args) (s1 : σ)
    (user : User) (arn : GoString)
    (hargs : p.unmarshalArgs args = .ok a)
    (hacct : p.ensureAccountExists p.awsAccountID w.1 = (none, s1))
    (huser : getUser p subject (s1, w.2 ++ [Call.ensureAccountExists p.awsAccountID])
      = (Result.ok user, w1))
    (harn : GetPermissionSetARN p b (permissionSetNameFromGrantID grantID) w1
      = (Result.ok arn, w2)) :
    Revoke p b subject args grantID w = revokeFromLookup p b user arn w2
      ∧ ∃ t, w2.2 = w.2 ++ t
          ∧ ∀ c ∈ t, c.isDeletionStatus = false ∧ c.isDeletePermissionSet = false := by
  refine ⟨?_, ?_⟩
  · rw [Revoke_eq, hargs]
    simp only [Prog.bind_apply, invoke_apply, hacct, huser, harn]
  · have h1 := getUser_adds
      (fun c => c.isDeletionStatus = false ∧ c.isDeletePermissionSet = false) p subject
      ⟨rfl, rfl⟩ (s1, w.2 ++ [Call.ensureAccountExists p.awsAccountID])
    have h2 := GetPermissionSetARN_adds
      (fun c => c.isDeletionStatus = false ∧ c.isDeletePermissionSet = false) p b
      (permissionSetNameFromGrantID grantID) (fun _ => ⟨rfl, rfl⟩) (fun _ => ⟨rfl, rfl⟩) w1
    rw [huser] at h1
    rw [harn] at h2
    obtain ⟨t1, ht1, hP1⟩ := h1
    obtain ⟨t2, ht2, hP2⟩ := h2
    refine ⟨Call.ensureAccountExists p.awsAccountID :: (t1 ++ t2), ?_, ?_⟩
    · rw [show w2.2 = w1.2 ++ t2 from ht2,
        show w1.2 = (w.2 ++ [Call.ensureAccountExists p.awsAccountID]) ++ t1 from ht1]
      simp
    · intro c hc
      rcases List.mem_cons.mp hc with rfl | hc
      · exact ⟨rfl, rfl⟩
      · rcases List.mem_append.mp hc with hc | hc
        · exact hP1 c hc
        · exact hP2 c hc

/-- A status returned by the deletion status poll is final: it is not
IN_PROGRESS. -/
theorem EcsShellSso.retryDo_deletionStatus_final {σ : Type} (p : Provider σ)
    (deleteRes : AccountAssignmentOperationStatus) (retries : Nat) (w w1 : σ × List Call)
    (status : AccountAssignmentOperationStatus)
    (h : retryDo retries (deletionStatusAttempt p deleteRes) w = (Result.ok (.ok status), w1)) :
    status.Status ≠ goStr "IN_PROGRESS" := by
  induction retries generalizing w with
  | zero =>
    unfold retryDo at h
    rw [Prog.bind_apply, deletionStatusAttempt_apply] at h
    cases hr : (p.ssoClient.DescribeAccountAssignmentDeletionStatus deletionStatusInstanceArn
        deleteRes.RequestId w.1).1 with
    | error err => simp [hr, Prog.pure_apply] at h
    | ok st =>
      by_cases hs : st.Status = goStr "IN_PROGRESS"
      · simp [hr, hs, Prog.pure_apply] at h
      · simp only [hr, hs, if_false, Prog.pure_apply, Prod.mk.injEq, Result.ok.injEq,
          Except.ok.injEq] at h
        rw [← h.1]
        exact hs
  | succ n ih =>
    unfold retryDo at h
    rw [Prog.bind_apply, deletionStatusAttempt_apply] at h
    cases hr : (p.ssoClient.DescribeAccountAssignmentDeletionStatus deletionStatusInstanceArn
        deleteRes.RequestId w.1).1 with
    | error err =>
      simp only [hr] at h
      exact ih _ h
    | ok st =>
      by_cases hs : st.Status = goStr "IN_PROGRESS"
      · simp only [hr, hs, if_true] at h
        exact ih _ h
      · simp only [hr, hs, if_false, Prog.pure_apply, Prod.mk.injEq, Result.ok.injEq,
          Except.ok.injEq] at h
        rw [← h.1]
        exact hs

end RetryLemmas

section EcsClaims

open EcsShellSso

/-- C17: `getUser(email)` returns a user exactly when the lookup filtered on
`UserName = email` answers with exactly one user, and returns that user; no
user gives `UserNotFoundError` carrying the email, more than one user gives
the error "expected 1 user but found n", and an error of the lookup is
returned as it is.  One `ListUsers` call is made. -/
theorem EcsShellSso.getUser_spec {σ : Type} (p : Provider σ) (email : GoString)
    (w : σ × List Call) :
    (getUser p email w).1
        = (match (p.idStoreClient.ListUsers p.identityStoreID email w.1).1 with
           | .error err => Result.error err
           | .ok [] => Result.error (GoError.UserNotFoundError email)
           | .ok [u] => Result.ok u
           | .ok users => Result.error (GoError.message
               (goStr "expected 1 user but found " ++ goStr (toString users.length))))
      ∧ (getUser p email w).2.2 = w.2 ++ [Call.ListUsers p.identityStoreID email]
      ∧ ∀ u, ((getUser p email w).1 = Result.ok u
          ↔ (p.idStoreClient.ListUsers p.identityStoreID email w.1).1 = .ok [u]) := by
  rw [getUser_apply]
  refine ⟨rfl, rfl, ?_⟩
  intro u
  cases h : (p.idStoreClient.ListUsers p.identityStoreID email w.1).1 with
  | error err => simp
  | ok users =>
    match users with
    | [] => simp
    | [v] => simp
    | v :: v2 :: rest => simp

/-- C15: in `Grant` the account check precedes every creating call.  When
the arguments do not decode, `Grant` returns that error without any call;
when `ensureAccountExists` fails, `Grant` returns that error after that one
call; and in every run the first call made, if any, is
`ensureAccountExists`. -/
theorem EcsShellSso.Grant_account_check_first {σ : Type} (p : Provider σ) (b : Bounds)
    (subject args grantID : GoString) (w : σ × List Call) :
    (match p.unmarshalArgs args with
      | .error err => Grant p b subject args grantID w = (Result.error err, w)
      | .ok _ =>
        match (p.ensureAccountExists p.awsAccountID w.1).1 with
        | some err =>
          Grant p b subject args grantID w
            = (Result.error err,
               ((p.ensureAccountExists p.awsAccountID w.1).2,
                w.2 ++ [Call.ensureAccountExists p.awsAccountID]))
        | none => True)
      ∧ ∃ t, (Grant p b subject args grantID w).2.2 = w.2 ++ t
          ∧ (t = [] ∨ t.head? = some (Call.ensureAccountExists p.awsAccountID)) := by
  rw [Grant_eq]
  cases hargs : p.unmarshalArgs args with
  | error err =>
    refine ⟨rfl, [], ?_, Or.inl rfl⟩
    simp [Prog.fail_apply]
  | ok a =>
    simp only [Prog.bind_apply, invoke_apply]
    cases hacct : (p.ensureAccountExists p.awsAccountID w.1).1 with
    | some err =>
      refine ⟨rfl, [Call.ensureAccountExists p.awsAccountID], ?_, Or.inr rfl⟩
      simp [Prog.fail_apply]
    | none =>
      refine ⟨trivial, ?_⟩
      have hadds : Prog.Adds (fun _ => True)
          (createPermissionSetAndAssignment p subject (permissionSetNameFromGrantID grantID)
            a.TaskDefinitionFamily >>= fun res => grantFromAssignment p b res) := by
        refine Prog.Adds.bind _ _ _
          (createPermissionSetAndAssignment_adds _ p _ _ _ trivial trivial
            (fun _ _ => trivial) (fun _ _ => trivial)) ?_
        intro res
        unfold grantFromAssignment
        refine Prog.Adds.bind _ _ _
          (Prog.Adds.retryDo _ _ ?_ _) ?_
        · unfold creationStatusAttempt
          refine Prog.Adds.bind _ _ _ (Prog.Adds.invoke _ _ _ trivial) ?_
          intro st
          cases st with
          | error err => exact Prog.Adds.pure _ _
          | ok st =>
            dsimp only
            split <;> exact Prog.Adds.pure _ _
        · intro polled
          cases polled with
          | error err => exact Prog.Adds.fail _ _
          | ok st =>
            dsimp only
            split
            · split
              · exact Prog.Adds.panic _
              · exact Prog.Adds.fail _ _
            · exact Prog.Adds.pure _ _
      obtain ⟨t, ht, -⟩ := hadds ((p.ensureAccountExists p.awsAccountID w.1).2,
        w.2 ++ [Call.ensureAccountExists p.awsAccountID])
      refine ⟨Call.ensureAccountExists p.awsAccountID :: t, ?_, Or.inr rfl⟩
      rw [ht]
      simp only [List.append_assoc, List.singleton_append]

end EcsClaims

section EcsClaims2

open EcsShellSso

theorem EcsShellSso.Prog.Adds.run {σ α : Type} (P : Call → Prop) (m : Prog σ α)
    (hm : Prog.Adds P m) (w w1 : σ × List Call) (r : Result α) (h : m w = (r, w1)) :
    ∃ t, w1.2 = w.2 ++ t ∧ ∀ c ∈ t, P c := by
  obtain ⟨t, ht, hP⟩ := hm w
  rw [h] at ht
  exact ⟨t, ht, hP⟩

/-- C11 (what the code does): when `Grant` has created the assignment and
the creation status poll ends in a final state that carries a failure
reason, `Grant` does not return an error: line 71 dereferences the failure
reason of the response of `CreateAccountAssignment`, which is nil there, and
the call panics. -/
theorem EcsShellSso.Grant_failure_reason_panics {σ : Type} (p : Provider σ) (b : Bounds)
    (subject args grantID : GoString) (w w2 w3 : σ × List Call) (a : Args) (s1 : σ)
    (res statusRes : AccountAssignmentOperationStatus) (reason : GoString)
    (hargs : p.unmarshalArgs args = .ok a)
    (hacct : p.ensureAccountExists p.awsAccountID w.1 = (none, s1))
    (hcreate : createPermissionSetAndAssignment p subject (permissionSetNameFromGrantID grantID)
        a.TaskDefinitionFamily (s1, w.2 ++ [Call.ensureAccountExists p.awsAccountID])
      = (Result.ok res, w2))
    (hpoll : retryDo b.twoMinutes (creationStatusAttempt p res) w2
      = (Result.ok (.ok statusRes), w3))
    (hreason : statusRes.FailureReason = some reason) :
    Grant p b subject args grantID w = (Result.panic, w3) := by
  have hnil := createPermissionSetAndAssignment_ok p _ _ _ _ _ _ hcreate
  rw [Grant_eq, hargs]
  simp only [Prog.bind_apply, invoke_apply, hacct, hcreate]
  unfold grantFromAssignment
  simp only [Prog.bind_apply, hpoll, hreason, hnil, Option.isSome_some, if_true,
    Prog.panic_apply]

/-- Witness for C11: on the reference backend, with a creation status that
ends FAILED with the reason "account is suspended", `Grant` panics. -/
theorem EcsShellSso.Grant_failure_reason_panics_witness :
    (Grant failedCreationProvider sampleBounds scenarioSubject scenarioArgs scenarioGrantID
        (initialBackend, [])).1 = Result.panic :=
  congrArg Prod.fst
    (EcsShellSso.Grant_failure_reason_panics failedCreationProvider sampleBounds
      scenarioSubject scenarioArgs scenarioGrantID (initialBackend, [])
      (createPermissionSetAndAssignment failedCreationProvider scenarioSubject
        (permissionSetNameFromGrantID scenarioGrantID) (goStr "svc")
        (initialBackend, [Call.ensureAccountExists failedCreationProvider.awsAccountID])).2
      (retryDo sampleBounds.twoMinutes
        (creationStatusAttempt failedCreationProvider (operationStatus "IN_PROGRESS"))
        (createPermissionSetAndAssignment failedCreationProvider scenarioSubject
          (permissionSetNameFromGrantID scenarioGrantID) (goStr "svc")
          (initialBackend, [Call.ensureAccountExists failedCreationProvider.awsAccountID])).2).2
      { TaskDefinitionFamily := goStr "svc" } initialBackend (operationStatus "IN_PROGRESS")
      { RequestId := some (goStr "request-1"), Status := goStr "FAILED",
        FailureReason := some (goStr "account is suspended") }
      (goStr "account is suspended") rfl (by decide) (by decide) (by rfl) rfl)

/-- C12 (evaluation at the failing input): on the reference backend after the
`Grant` of the scenario, the one page of assignments of the permission set
holds an assignment of principal type USER whose principal ID is, as a
string, the ID of the user resolved from the subject; `IsActive` returns
false all the same, because line 314 compares the two pointers. -/
theorem EcsShellSso.IsActive_pointer_evaluation :
    (match getUser sampleProvider scenarioSubject (afterGrant, []) with
      | (Result.ok user, (s, _)) =>
        match (Backend.ssoClient.ListAccountAssignments sampleProvider.awsAccountID
                sampleProvider.instanceARN
                (some (goStr "arn:aws:sso:::permissionSet/"
                  ++ permissionSetNameFromGrantID scenarioGrantID)) none s).1 with
        | .ok out => assignedByValue user out
        | .error _ => false
      | _ => false) = true
    ∧ (IsActive sampleProvider sampleBounds scenarioSubject scenarioArgs scenarioGrantID
        (afterGrant, [])).1 = Result.ok false := by
  decide

/-- C14: in `Revoke`, one attempt of the `DeleteAccountAssignment` step is
retryable exactly for a `ConflictException`, ends the loop with success for a
nil error and is fatal for every other error; a fatal error ends the loop at
once whatever the remaining budget; and whenever the loop ends with an error,
`Revoke` returns that error without any `DescribeAccountAssignmentDeletionStatus`
or `DeletePermissionSet` call. -/
theorem EcsShellSso.Revoke_delete_classification {σ : Type} (p : Provider σ) (b : Bounds)
    (subject args grantID : GoString) (w w1 w2 : σ × List Call) (a : Args) (s1 : σ)
    (user : User) (arn : GoString)
    (hargs : p.unmarshalArgs args = .ok a)
    (hacct : p.ensureAccountExists p.awsAccountID w.1 = (none, s1))
    (huser : getUser p subject (s1, w.2 ++ [Call.ensureAccountExists p.awsAccountID])
      = (Result.ok user, w1))
    (harn : GetPermissionSetARN p b (permissionSetNameFromGrantID grantID) w1
      = (Result.ok arn, w2)) :
    (∀ w3, (deleteAssignmentAttempt p user arn w3).1
        = Result.ok
            (match (p.ssoClient.DeleteAccountAssignment p.instanceARN (some arn)
                      (user.UserId.map (fun ptr => ptr.val)) p.awsAccountID w3.1).1 with
             | .ok out => RetryOutcome.done out
             | .error (GoError.ConflictException msg) =>
               RetryOutcome.retryable (GoError.ConflictException msg)
             | .error err => RetryOutcome.fatal err))
      ∧ (∀ retries w3 w4 out,
          deleteAssignmentAttempt p user arn w3 = (Result.ok (RetryOutcome.done out), w4)
          → retryDo retries (deleteAssignmentAttempt p user arn) w3 = (Result.ok (.ok out), w4))
      ∧ (∀ retries w3 w4 err,
          deleteAssignmentAttempt p user arn w3 = (Result.ok (RetryOutcome.fatal err), w4)
          → retryDo retries (deleteAssignmentAttempt p user arn) w3
              = (Result.ok (.error err), w4))
      ∧ (∀ err w3,
          retryDo b.oneMinute (deleteAssignmentAttempt p user arn) w2
            = (Result.ok (.error err), w3)
          → Revoke p b subject args grantID w = (Result.error err, w3)
            ∧ ∃ t, w3.2 = w.2 ++ t
                ∧ ∀ c ∈ t, c.isDeletionStatus = false ∧ c.isDeletePermissionSet = false) := by
  obtain ⟨hrev, t0, ht0, hP0⟩ :=
    Revoke_of_lookup p b subject args grantID w w1 w2 a s1 user arn hargs hacct huser harn
  refine ⟨?_, ?_, ?_, ?_⟩
  · intro w3
    rw [deleteAssignmentAttempt_apply]
  · intro retries w3 w4 out h
    exact retryDo_done _ retries w3 w4 out h
  · intro retries w3 w4 err h
    exact retryDo_fatal _ retries w3 w4 err h
  · intro err w3 h
    refine ⟨?_, ?_⟩
    · rw [hrev]
      unfold revokeFromLookup
      simp only [Prog.bind_apply, h, Prog.fail_apply]
    · obtain ⟨t1, ht1, hP1⟩ := Prog.Adds.run _ _
        (Prog.Adds.retryDo
          (fun c => c.isDeletionStatus = false ∧ c.isDeletePermissionSet = false) _
          (deleteAssignmentAttempt_adds _ p user arn (fun _ _ => ⟨rfl, rfl⟩)) b.oneMinute)
        w2 w3 _ h
      refine ⟨t0 ++ t1, ?_, ?_⟩
      · rw [ht1, ht0, List.append_assoc]
      · intro c hc
        rcases List.mem_append.mp hc with hc | hc
        · exact hP0 c hc
        · exact hP1 c hc

end EcsClaims2

section EcsClaims3

open EcsShellSso

/-- Witness for C14: on the reference backend after the `Grant` of the
scenario, a `DeleteAccountAssignment` refused with "AccessDeniedException"
makes `Revoke` return that error. -/
theorem EcsShellSso.Revoke_delete_classification_witness :
    (Revoke deniedDeletionProvider sampleBounds scenarioSubject scenarioArgs scenarioGrantID
        (afterGrant, [])).1 = Result.error (GoError.message (goStr "AccessDeniedException")) :=
  congrArg Prod.fst
    ((EcsShellSso.Revoke_delete_classification deniedDeletionProvider sampleBounds
        scenarioSubject scenarioArgs scenarioGrantID (afterGrant, [])
        (afterUserLookup deniedDeletionProvider) (afterLookup deniedDeletionProvider)
        { TaskDefinitionFamily := goStr "svc" } afterGrant scenarioUser
        scenarioPermissionSetARN rfl (by decide) (by decide) (by decide)).2.2.2
      (GoError.message (goStr "AccessDeniedException"))
      (afterDeletion deniedDeletionProvider) (by rfl)).1

/-- C16: in `Revoke`, once the assignment deletion has been started, if the
deletion status poll ends with an error (an error at the last attempt, or
"still in progress" when the budget is used up) `Revoke` returns that error,
and if it ends with a failure reason `Revoke` returns "failed deleting
account assignment: " followed by the reason; in both cases no
`DeletePermissionSet` call is made.  A `DeletePermissionSet` call is made
only when the poll has ended in a final state without failure reason. -/
theorem EcsShellSso.Revoke_deletes_after_confirmation {σ : Type} (p : Provider σ)
    (b : Bounds) (subject args grantID : GoString) (w w1 w2 w3 : σ × List Call) (a : Args)
    (s1 : σ) (user : User) (arn : GoString) (deleteRes : AccountAssignmentOperationStatus)
    (hargs : p.unmarshalArgs args = .ok a)
    (hacct : p.ensureAccountExists p.awsAccountID w.1 = (none, s1))
    (huser : getUser p subject (s1, w.2 ++ [Call.ensureAccountExists p.awsAccountID])
      = (Result.ok user, w1))
    (harn : GetPermissionSetARN p b (permissionSetNameFromGrantID grantID) w1
      = (Result.ok arn, w2))
    (hdel : retryDo b.oneMinute (deleteAssignmentAttempt p user arn) w2
      = (Result.ok (.ok deleteRes), w3)) :
    (∀ err w4,
        retryDo b.twoMinutes (deletionStatusAttempt p deleteRes) w3
          = (Result.ok (.error err), w4)
        → Revoke p b subject args grantID w = (Result.error err, w4)
          ∧ ∃ t, w4.2 = w.2 ++ t ∧ ∀ c ∈ t, c.isDeletePermissionSet = false)
      ∧ (∀ status reason w4,
          retryDo b.twoMinutes (deletionStatusAttempt p deleteRes) w3
            = (Result.ok (.ok status), w4)
          → status.FailureReason = some reason
          → Revoke p b subject args grantID w
              = (Result.error (GoError.message
                  (goStr "failed deleting account assignment: " ++ reason)), w4)
            ∧ ∃ t, w4.2 = w.2 ++ t ∧ ∀ c ∈ t, c.isDeletePermissionSet = false)
      ∧ ((∀ s, ∃ st, (p.ssoClient.DescribeAccountAssignmentDeletionStatus
              deletionStatusInstanceArn deleteRes.RequestId s).1 = .ok st
              ∧ st.Status = goStr "IN_PROGRESS")
          → (retryDo b.twoMinutes (deletionStatusAttempt p deleteRes) w3).1
              = Result.ok (.error (GoError.message (goStr "still in progress"))))
      ∧ (∀ t, (Revoke p b subject args grantID w).2.2 = w.2 ++ t
          → (∃ c ∈ t, c.isDeletePermissionSet = true)
          → ∃ status w4,
              retryDo b.twoMinutes (deletionStatusAttempt p deleteRes) w3
                = (Result.ok (.ok status), w4)
              ∧ status.Status ≠ goStr "IN_PROGRESS" ∧ status.FailureReason = none) := by
  obtain ⟨hrev, t0, ht0, hP0⟩ :=
    Revoke_of_lookup p b subject args grantID w w1 w2 a s1 user arn hargs hacct huser harn
  obtain ⟨t1, ht1, hP1⟩ := Prog.Adds.run _ _
    (Prog.Adds.retryDo (fun c => c.isDeletePermissionSet = false) _
      (deleteAssignmentAttempt_adds _ p user arn (fun _ _ => rfl)) b.oneMinute)
    w2 w3 _ hdel
  have hpollAdds := Prog.Adds.retryDo (fun c => c.isDeletePermissionSet = false) _
      (deletionStatusAttempt_adds _ p deleteRes (fun _ _ => rfl)) b.twoMinutes
  have htrace : ∀ (r : Result (Except GoError AccountAssignmentOperationStatus))
      (w4 : σ × List Call),
      retryDo b.twoMinutes (deletionStatusAttempt p deleteRes) w3 = (r, w4)
      → ∃ t, w4.2 = w.2 ++ t ∧ ∀ c ∈ t, c.isDeletePermissionSet = false := by
    intro r w4 h
    obtain ⟨t2, ht2, hP2⟩ := Prog.Adds.run _ _ hpollAdds w3 w4 r h
    refine ⟨t0 ++ (t1 ++ t2), ?_, ?_⟩
    · rw [ht2, ht1, ht0]
      simp only [List.append_assoc]
    · intro c hc
      rcases List.mem_append.mp hc with hc | hc
      · exact (hP0 c hc).2
      · rcases List.mem_append.mp hc with hc | hc
        · exact hP1 c hc
        · exact hP2 c hc
  have hstep : Revoke p b subject args grantID w = revokeFromDeletion p b arn deleteRes w3 := by
    rw [hrev]
    unfold revokeFromLookup
    simp only [Prog.bind_apply, hdel]
  refine ⟨?_, ?_, ?_, ?_⟩
  · intro err w4 h
    refine ⟨?_, htrace _ _ h⟩
    rw [hstep]
    unfold revokeFromDeletion
    simp only [Prog.bind_apply, h, Prog.fail_apply]
  · intro status reason w4 h hreason
    refine ⟨?_, htrace _ _ h⟩
    rw [hstep]
    unfold revokeFromDeletion
    simp only [Prog.bind_apply, h, hreason, Prog.fail_apply]
  · intro hbusy
    exact retryDo_deletionStatus_in_progress p deleteRes hbusy _ _
  · intro t ht ⟨c, hc, hdps⟩
    rcases hpoll : retryDo b.twoMinutes (deletionStatusAttempt p deleteRes) w3 with ⟨r, w4⟩
    obtain ⟨t4, ht4, hP4⟩ := htrace r w4 hpoll
    have hcontra : (Revoke p b subject args grantID w).2.2 = w4.2 → False := by
      intro heq
      rw [ht, ht4] at heq
      have := List.append_cancel_left heq
      subst this
      have := hP4 c hc
      rw [this] at hdps
      exact Bool.noConfusion hdps
    rw [hstep] at hcontra
    unfold revokeFromDeletion at hcontra
    simp only [Prog.bind_apply, hpoll] at hcontra
    cases r with
    | error err => exact (hcontra rfl).elim
    | panic => exact (hcontra rfl).elim
    | exhausted => exact (hcontra rfl).elim
    | ok polled =>
      cases polled with
      | error err => exact (hcontra rfl).elim
      | ok status =>
        cases hreason : status.FailureReason with
        | some reason =>
          simp only [hreason, Prog.fail_apply] at hcontra
          exact (hcontra trivial).elim
        | none =>
          refine ⟨status, w4, rfl, ?_, hreason⟩
          exact retryDo_deletionStatus_final p deleteRes _ _ _ _ hpoll

end EcsClaims3

section EcsClaims4

open EcsShellSso

/-- Witness for C16: on the reference backend after the `Grant` of the
scenario, a deletion status that ends FAILED with the reason "internal
failure" makes `Revoke` return "failed deleting account assignment: internal
failure". -/
theorem EcsShellSso.Revoke_deletes_after_confirmation_witness :
    (Revoke failedDeletionProvider sampleBounds scenarioSubject scenarioArgs scenarioGrantID
        (afterGrant, [])).1
      = Result.error (GoError.message
          (goStr "failed deleting account assignment: " ++ goStr "internal failure")) :=
  congrArg Prod.fst
    ((EcsShellSso.Revoke_deletes_after_confirmation failedDeletionProvider sampleBounds
        scenarioSubject scenarioArgs scenarioGrantID (afterGrant, [])
        (afterUserLookup failedDeletionProvider) (afterLookup failedDeletionProvider)
        (afterDeletion failedDeletionProvider)
        { TaskDefinitionFamily := goStr "svc" } afterGrant scenarioUser
        scenarioPermissionSetARN (operationStatus "IN_PROGRESS")
        rfl (by decide) (by decide) (by decide) (by rfl)).2.1
      { RequestId := some (goStr "request-1"), Status := goStr "FAILED",
        FailureReason := some (goStr "internal failure") }
      (goStr "internal failure") (afterDeletionPoll failedDeletionProvider) (by rfl) rfl).1

theorem EcsShellSso.noRunningTaskText_ne_nil (family : GoString) :
    noRunningTaskText family ≠ [] := by
  have h : goStr "We couldn\x27t find a running task for the task family " ≠ [] := by decide
  simp [noRunningTaskText, h]

theorem EcsShellSso.execDisabledText_ne_nil (id : GoString) : execDisabledText id ≠ [] := by
  have h : goStr "The specified task: " ≠ [] := by decide
  simp [execDisabledText, h]

/-- What `EcsExecEnabled` returns, for each answer of `DescribeTasks`. -/
theorem EcsShellSso.EcsExecEnabled_apply {σ : Type} (p : Provider σ) (taskId : GoString)
    (w : σ × List Call) :
    EcsExecEnabled p taskId w
      = ((match (p.ecsClient.DescribeTasks p.ecsClusterARN [taskId] w.1).1 with
          | .error err => Result.error err
          | .ok [] => Result.error (GoError.message (goStr "no task found"))
          | .ok (task :: _) => Result.ok task.EnableExecuteCommand),
         ((p.ecsClient.DescribeTasks p.ecsClusterARN [taskId] w.1).2,
          w.2 ++ [Call.DescribeTasks p.ecsClusterARN [taskId]])) := by
  unfold EcsExecEnabled
  simp only [Prog.bind_apply, invoke_apply]
  cases h : (p.ecsClient.DescribeTasks p.ecsClusterARN [taskId] w.1).1 with
  | error err => simp [Prog.fail_apply]
  | ok tasks =>
    cases tasks with
    | nil => simp [Prog.fail_apply]
    | cons t rest => simp [Prog.pure_apply]

/-- C13 (as stated, refuted): the task is listed and described as running,
and is gone when its exec flag is looked up (no call fails); `Instructions`
returns the error "no task found", not a text. -/
theorem EcsShellSso.Instructions_task_gone_counterexample :
    (Instructions (taskProvider vanishingTask) sampleBounds scenarioSubject scenarioArgs
        scenarioGrantID (initialBackend, [])).1
      = Result.error (GoError.message (goStr "no task found")) := by
  decide

/-- C13 (amended): in `Instructions`, with arguments that decode, the
absence of a running task for the family (`errTaskNotFound`) yields the text
of lines 345-348 with a nil error, and a task whose execute command is
disabled yields the text of lines 365-367 with a nil error; both texts are
not empty.  When the task is absent at the lookup of its exec flag,
`Instructions` returns the error "no task found". -/
theorem EcsShellSso.Instructions_guidance {σ : Type} (p : Provider σ) (b : Bounds)
    (subject args grantId : GoString) (w : σ × List Call) (a : Args)
    (hargs : p.unmarshalArgs args = .ok a) :
    ((getTaskARNFromTaskDefinition p b a.TaskDefinitionFamily w).1
          = Result.error GoError.errTaskNotFound
        → Instructions p b subject args grantId w
            = (Result.ok (noRunningTaskText a.TaskDefinitionFamily),
               (getTaskARNFromTaskDefinition p b a.TaskDefinitionFamily w).2))
      ∧ (∀ taskARN id,
          (getTaskARNFromTaskDefinition p b a.TaskDefinitionFamily w).1 = Result.ok taskARN
          → (Strings.Split taskARN slash).getLast? = some id
          → (Instructions p b subject args grantId w).1
              = (match (p.ecsClient.DescribeTasks p.ecsClusterARN [id]
                    (getTaskARNFromTaskDefinition p b a.TaskDefinitionFamily w).2.1).1 with
                 | .error err => Result.error err
                 | .ok [] => Result.error (GoError.message (goStr "no task found"))
                 | .ok (task :: _) =>
                   if task.EnableExecuteCommand then
                     Result.ok (accessText
                       (goStr "https://" ++ p.identityStoreID ++ goStr ".awsapps.com/start")
                       p.ecsRegion p.awsAccountID p.ecsClusterARN id grantId)
                   else Result.ok (execDisabledText id)))
      ∧ (∀ family, noRunningTaskText family ≠ [])
      ∧ (∀ id, execDisabledText id ≠ []) := by
  refine ⟨?_, ?_, noRunningTaskText_ne_nil, execDisabledText_ne_nil⟩
  · intro hfound
    unfold Instructions
    simp only [hargs, Prog.bind_apply]
    unfold Prog.attempt
    rcases hrun : getTaskARNFromTaskDefinition p b a.TaskDefinitionFamily w with ⟨r, w1⟩
    rw [hrun] at hfound
    simp only at hfound
    subst hfound
    simp [Prog.pure_apply]
  · intro taskARN id hfound hid
    unfold Instructions
    simp only [hargs, Prog.bind_apply]
    unfold Prog.attempt
    rcases hrun : getTaskARNFromTaskDefinition p b a.TaskDefinitionFamily w with ⟨r, w1⟩
    rw [hrun] at hfound
    simp only at hfound
    subst hfound
    simp only [hid, Prog.bind_apply, EcsExecEnabled_apply]
    cases hd : (p.ecsClient.DescribeTasks p.ecsClusterARN [id] w1.1).1 with
    | error err => simp
    | ok tasks =>
      cases tasks with
      | nil => simp
      | cons t rest => cases ht : t.EnableExecuteCommand <;> simp [ht, Prog.pure_apply]

/-- Witness for C13 (amended): a running task with execute command disabled
yields the explanatory text. -/
theorem EcsShellSso.Instructions_guidance_witness :
    (Instructions (taskProvider (fun _ => [sampleTask false])) sampleBounds scenarioSubject
        scenarioArgs scenarioGrantID (initialBackend, [])).1
      = Result.ok (execDisabledText (goStr "0123abcd")) :=
  ((EcsShellSso.Instructions_guidance (taskProvider (fun _ => [sampleTask false]))
      sampleBounds scenarioSubject scenarioArgs scenarioGrantID (initialBackend, [])
      { TaskDefinitionFamily := goStr "svc" } rfl).2.1
    sampleTaskARN (goStr "0123abcd") (by decide) (by decide))

end EcsClaims4

/-! ### Options of eks-roles-sso -/

section EksClaims

open EksRolesSso

theorem EksRolesSso.Listing_none_ne_nil {σ : Type} (p : Provider σ) (s s1 : σ)
    (token : GoString) (pages : List RoleList)
    (h : Listing p s token pages none s1) : pages ≠ [] := by
  cases h <;> simp

theorem EksRolesSso.tokensOf_cons {σ : Type} (p : Provider σ) (s1 s2 : σ) (token : GoString)
    (page : RoleList) (rest : List RoleList) (outcome : Option GoError)
    (hrest : Listing p s1 page.Continue rest outcome s2) :
    tokensOf token (page :: rest) outcome = token :: tokensOf page.Continue rest outcome := by
  cases outcome with
  | some err => simp [tokensOf]
  | none =>
    have hne := Listing_none_ne_nil p s1 s2 _ rest hrest
    cases rest with
    | nil => exact absurd rfl hne
    | cons r rs => simp [tokensOf, List.dropLast]

theorem EksRolesSso.optionsOf_cons (page : RoleList) (rest : List RoleList) :
    optionsOf (page :: rest)
      = page.Items.map (fun r => ({ Label := r.Name, Value := r.Name } : ArgOption))
          ++ optionsOf rest := by
  simp [optionsOf]

/-- The loop of `Options` follows a finite listing to its end. -/
theorem EksRolesSso.optionsLoop_of_listing {σ : Type} (p : Provider σ) (s s1 : σ)
    (token : GoString) (pages : List RoleList) (outcome : Option GoError)
    (hl : Listing p s token pages outcome s1) :
    ∀ (fuel : Nat) (opts : List ArgOption) (sent : List GoString),
      (tokensOf token pages outcome).length ≤ fuel →
      optionsLoop p fuel token opts s sent
        = ((match outcome with
            | none => Result.ok { Options := opts ++ optionsOf pages }
            | some err => Result.error err),
           s1, sent ++ tokensOf token pages outcome) := by
  induction hl with
  | last s s1 token page h hc =>
    intro fuel opts sent hfuel
    cases fuel with
    | zero => simp [tokensOf] at hfuel
    | succ n =>
      unfold optionsLoop
      rw [h]
      simp [hc, tokensOf, optionsOf]
  | failed s s1 token err h =>
    intro fuel opts sent hfuel
    cases fuel with
    | zero => simp [tokensOf] at hfuel
    | succ n =>
      unfold optionsLoop
      rw [h]
      simp [tokensOf]
  | more s s1 s2 token page rest outcome h hc hrest ih =>
    intro fuel opts sent hfuel
    rw [tokensOf_cons p s1 s2 token page rest outcome hrest] at hfuel ⊢
    cases fuel with
    | zero => simp at hfuel
    | succ n =>
      unfold optionsLoop
      rw [h]
      simp only [hc, if_false]
      rw [ih n _ _ (by simpa using hfuel)]
      rw [optionsOf_cons]
      cases outcome <;> simp [List.append_assoc]

/-- C20: when the role listing is a finite sequence of pages that ends with
the first page whose continuation token is empty, `Options`, given room for
that many pages, returns exactly one option per listed role, in page order
then item order, each with label and value the role name; the requests carry
the empty token and then the token of each page before the last; and when a
request of the listing fails, `Options` returns that error and no options. -/
theorem EksRolesSso.Options_spec {σ : Type} (p : Provider σ) (s s1 : σ)
    (pages : List RoleList) (outcome : Option GoError) (fuel : Nat) (arg : GoString)
    (hl : Listing p s [] pages outcome s1)
    (hfuel : (tokensOf [] pages outcome).length ≤ fuel) :
    Options p fuel arg s
      = ((match outcome with
          | none => Result.ok { Options := optionsOf pages }
          | some err => Result.error err),
         s1, tokensOf [] pages outcome) := by
  unfold Options
  rw [optionsLoop_of_listing p s s1 [] pages outcome hl fuel [] [] hfuel]
  cases outcome <;> simp

/-- Witness for C20: two pages, `admin`, `dev` and then `viewer`. -/
theorem EksRolesSso.Options_spec_witness :
    Options twoPages 2 (goStr "role") ()
      = (Result.ok { Options := [{ Label := goStr "admin", Value := goStr "admin" },
                                 { Label := goStr "dev", Value := goStr "dev" },
                                 { Label := goStr "viewer", Value := goStr "viewer" }] },
         (), [[], goStr "t1"]) :=
  EksRolesSso.Options_spec twoPages () ()
    [{ Items := [{ Name := goStr "admin" }, { Name := goStr "dev" }], Continue := goStr "t1" },
     { Items := [{ Name := goStr "viewer" }], Continue := [] }]
    none 2 (goStr "role")
    (Listing.more () () () [] _ _ none (by rfl) (by decide)
      (Listing.last () () (goStr "t1") _ (by rfl) rfl))
    (by decide)

end EksClaims

/-! ### Request handlers -/

section ApiClaims

open Api

/-- C18: cancelling a request answers 401 with "user is not authorized to
perform this action" when the caller is not the requester, 400 with "only
pending requests can be cancelled" when the requester cancels a request that
is not PENDING, 404 when the request does not exist, and 500 with the fixed
body "Internal Server Error", whatever the text of the error, for every
other error. -/
theorem Api.UserCancelRequest_responses (lookup : Except ServiceError Request)
    (user : GoString) :
    (∀ request, lookup = .ok request → request.RequestedBy ≠ user
        → UserCancelRequest (CancelRequest lookup user)
            = (401, errorBody "user is not authorized to perform this action"))
      ∧ (∀ request, lookup = .ok request → request.RequestedBy = user
          → request.Status ≠ RequestStatus.PENDING
          → UserCancelRequest (CancelRequest lookup user)
              = (400, errorBody "only pending requests can be cancelled"))
      ∧ (∀ request, lookup = .ok request → request.RequestedBy = user
          → request.Status = RequestStatus.PENDING
          → UserCancelRequest (CancelRequest lookup user) = (200, goStr "\x7b\x7d"))
      ∧ (lookup = .error ServiceError.ErrNoItems
          → UserCancelRequest (CancelRequest lookup user)
              = (404, errorBody "item query returned no items"))
      ∧ (∀ text, lookup = .error (ServiceError.other text)
          → UserCancelRequest (CancelRequest lookup user)
              = (500, errorBody "Internal Server Error")) := by
  refine ⟨?_, ?_, ?_, ?_, ?_⟩
  · intro request h hne
    subst h
    simp [CancelRequest, UserCancelRequest, hne]
  · intro request h heq hst
    subst h
    simp [CancelRequest, UserCancelRequest, heq, hst]
  · intro request h heq hst
    subst h
    simp [CancelRequest, UserCancelRequest, heq, hst]
  · intro h
    subst h
    simp [CancelRequest, UserCancelRequest]
  · intro text h
    subst h
    simp [CancelRequest, UserCancelRequest]

/-- C19: a user may view a request exactly when they are its requester, a
Reviewer record exists for them, or they are an administrator; otherwise the
request is answered as not found (404).  `canReview` is true only on the
reviewer/administrator branch, and is false when the user sees the request
solely as its requester. -/
theorem Api.viewRequest_spec (user : GoString) (isAdmin : Bool) (request : Request)
    (reviewerExists : Bool) :
    ((viewRequest user isAdmin request reviewerExists).isSome = true
        ↔ (request.RequestedBy = user ∨ reviewerExists = true ∨ isAdmin = true))
      ∧ (viewRequest user isAdmin request reviewerExists = some true
          → (reviewerExists = true ∨ isAdmin = true) ∧ request.RequestedBy ≠ user)
      ∧ (request.RequestedBy = user → reviewerExists = false → isAdmin = false
          → viewRequest user isAdmin request reviewerExists = some false)
      ∧ ((UserGetRequest user isAdmin request reviewerExists).1 = 404
          ↔ ¬ (request.RequestedBy = user ∨ reviewerExists = true ∨ isAdmin = true))
      ∧ ((UserGetRequest user isAdmin request reviewerExists).1 = 200
          ↔ (request.RequestedBy = user ∨ reviewerExists = true ∨ isAdmin = true)) := by
  unfold UserGetRequest viewRequest
  by_cases hreq : request.RequestedBy = user
  · simp [hreq]
  · cases reviewerExists <;> cases isAdmin <;> simp [hreq]

end ApiClaims

/-! ### Escaping of testvault -/

section TestvaultClaims

open Testvault

theorem Strings.Replace_nil (old : UInt8) (new : GoString) : Strings.Replace [] old new = [] :=
  rfl

theorem Strings.Replace_cons (c : UInt8) (s : GoString) (old : UInt8) (new : GoString) :
    Strings.Replace (c :: s) old new
      = (if c = old then new else [c]) ++ Strings.Replace s old new := by
  simp [Strings.Replace]

theorem Strings.Replace_append (s t : GoString) (old : UInt8) (new : GoString) :
    Strings.Replace (s ++ t) old new = Strings.Replace s old new ++ Strings.Replace t old new := by
  simp [Strings.Replace]

theorem Strings.Replace_of_not_mem (s : GoString) (old : UInt8) (new : GoString)
    (h : old ∉ s) : Strings.Replace s old new = s := by
  induction s with
  | nil => rfl
  | cons c s ih =>
    have hc : c ≠ old := fun e => h (by simp [e])
    have hs : old ∉ s := fun e => h (by simp [e])
    rw [Strings.Replace_cons, if_neg hc, ih hs]
    rfl

/-- The five replacements of one byte, made one after the other, are the
escape of that byte. -/
theorem Testvault.EscapeEmailForURL_singleton (c : UInt8) :
    EscapeEmailForURL [c] = escapeByte c := by
  unfold EscapeEmailForURL escapeByte
  by_cases h1 : c = 43
  · subst h1; decide
  · by_cases h2 : c = 64
    · subst h2; decide
    · by_cases h3 : c = 46
      · subst h3; decide
      · by_cases h4 : c = 45
        · subst h4; decide
        · by_cases h5 : c = 95
          · subst h5; decide
          · simp [Strings.Replace, h1, h2, h3, h4, h5]

theorem Testvault.EscapeEmailForURL_append (s t : GoString) :
    EscapeEmailForURL (s ++ t) = EscapeEmailForURL s ++ EscapeEmailForURL t := by
  simp [EscapeEmailForURL, Strings.Replace_append]

theorem Testvault.EscapeEmailForURL_eq_flatMap (email : GoString) :
    EscapeEmailForURL email = email.flatMap escapeByte := by
  induction email with
  | nil => rfl
  | cons c s ih =>
    have : c :: s = [c] ++ s := rfl
    rw [this, EscapeEmailForURL_append, EscapeEmailForURL_singleton, ih]
    simp

theorem Testvault.escapeByte_free (c x : UInt8)
    (hx : x = 43 ∨ x = 64 ∨ x = 46 ∨ x = 45 ∨ x = 95) : x ∉ escapeByte c := by
  unfold escapeByte
  split
  · rcases hx with rfl | rfl | rfl | rfl | rfl <;> decide
  · split
    · rcases hx with rfl | rfl | rfl | rfl | rfl <;> decide
    · split
      · rcases hx with rfl | rfl | rfl | rfl | rfl <;> decide
      · split
        · rcases hx with rfl | rfl | rfl | rfl | rfl <;> decide
        · split
          · rcases hx with rfl | rfl | rfl | rfl | rfl <;> decide
          · rename_i h1 h2 h3 h4 h5
            simp only [List.mem_singleton]
            rcases hx with rfl | rfl | rfl | rfl | rfl
            · exact fun e => h1 e.symm
            · exact fun e => h2 e.symm
            · exact fun e => h3 e.symm
            · exact fun e => h4 e.symm
            · exact fun e => h5 e.symm

theorem Testvault.EscapeEmailForURL_free (email : GoString) (x : UInt8)
    (hx : x = 43 ∨ x = 64 ∨ x = 46 ∨ x = 45 ∨ x = 95) : x ∉ EscapeEmailForURL email := by
  rw [EscapeEmailForURL_eq_flatMap]
  intro hmem
  rw [List.mem_flatMap] at hmem
  obtain ⟨c, -, hc⟩ := hmem
  exact escapeByte_free c x hx hc

/-- C21: `EscapeEmailForURL(email)` is `email` with each `+` replaced by
`%2B`, each `@` by `%40`, each `.` by `%2E`, each `-` by `%2D` and each `_`
by `%5F`, every other byte kept, in order; the result contains none of the
bytes `+ @ . - _`, and escaping it again changes nothing. -/
theorem Testvault.EscapeEmailForURL_spec (email : GoString) :
    EscapeEmailForURL email = email.flatMap escapeByte
      ∧ (∀ x ∈ [(43 : UInt8), 64, 46, 45, 95], x ∉ EscapeEmailForURL email)
      ∧ EscapeEmailForURL (EscapeEmailForURL email) = EscapeEmailForURL email := by
  refine ⟨EscapeEmailForURL_eq_flatMap email, ?_, ?_⟩
  · intro x hx
    apply EscapeEmailForURL_free
    simpa using hx
  · have hfree := EscapeEmailForURL_free email
    generalize EscapeEmailForURL email = e at hfree
    unfold EscapeEmailForURL
    simp only
    rw [Strings.Replace_of_not_mem e 43 _ (hfree 43 (by simp)),
      Strings.Replace_of_not_mem e 64 _ (hfree 64 (by simp)),
      Strings.Replace_of_not_mem e 46 _ (hfree 46 (by simp)),
      Strings.Replace_of_not_mem e 45 _ (hfree 45 (by simp)),
      Strings.Replace_of_not_mem e 95 _ (hfree 95 (by simp))]

/-- C30 (evaluation at the failing input): the subjects `a+b@x.io` and
`a%2Bb@x.io` are different and have the same escaped form, since `%` is not
escaped: `EscapeEmailForURL` is not injective. -/
theorem Testvault.EscapeEmailForURL_collision :
    goStr "a+b@x.io" ≠ goStr "a%2Bb@x.io"
      ∧ EscapeEmailForURL (goStr "a+b@x.io") = goStr "a%2Bb%40x%2Eio"
      ∧ EscapeEmailForURL (goStr "a%2Bb@x.io") = goStr "a%2Bb%40x%2Eio" := by
  decide

end TestvaultClaims

/-! ### Further properties of names, identifiers and `RevokeGrant` -/

section LastClaims

open EcsShellSso Lambda

/-- C22: the truncation of grant IDs to permission set names is not free of
collisions: any two grant IDs longer than 32 that share their first 32 bytes
get the same name, and two distinct such IDs exist; on grant IDs of length at
most 32 the function is injective. -/
theorem EcsShellSso.permissionSetNameFromGrantID_collisions :
    (∀ a b : GoString, 32 < a.length → 32 < b.length → a.take 32 = b.take 32
        → permissionSetNameFromGrantID a = permissionSetNameFromGrantID b)
      ∧ (goStr "grant_123456789012345678901234567890XYZ"
            ≠ goStr "grant_123456789012345678901234567890ABC"
          ∧ permissionSetNameFromGrantID (goStr "grant_123456789012345678901234567890XYZ")
              = permissionSetNameFromGrantID (goStr "grant_123456789012345678901234567890ABC"))
      ∧ (∀ a b : GoString, a.length ≤ 32 → b.length ≤ 32
          → permissionSetNameFromGrantID a = permissionSetNameFromGrantID b → a = b) := by
  refine ⟨?_, by decide, ?_⟩
  · intro a b ha hb hab
    simp only [permissionSetNameFromGrantID, gt_iff_lt, ha, hb, if_true, hab]
  · intro a b ha hb hab
    have ha2 : ¬ 32 < a.length := by omega
    have hb2 : ¬ 32 < b.length := by omega
    simpa only [permissionSetNameFromGrantID, gt_iff_lt, ha2, hb2, if_false] using hab

/-- C23: for a state machine ARN with at least six colon-separated segments
`s0 .. sn` and a grant ID `g`, `BuildExecutionARN` returns the segments
`s0 .. s4`, `execution`, `s6 .. sn` and `g` joined by colons. -/
theorem Lambda.BuildExecutionARN_join (arn g : GoString)
    (h : 6 ≤ (Strings.Split arn colon).length) :
    BuildExecutionARN arn g
      = some (Strings.Join
          ((Strings.Split arn colon).take 5 ++ [goStr "execution"]
            ++ (Strings.Split arn colon).drop 6 ++ [g]) colon) := by
  have h5 : 5 < (Strings.Split arn colon).length := by omega
  simp only [BuildExecutionARN, h5, if_true]
  congr 2
  rw [List.set_eq_take_append_cons_drop]
  simp [h5]

/-- Witness for C23: the example of the claim. -/
theorem Lambda.BuildExecutionARN_join_witness :
    BuildExecutionARN (goStr "arn:aws:states:us-east-1:123456789012:stateMachine:Name")
        (goStr "g")
      = some (goStr "arn:aws:states:us-east-1:123456789012:execution:Name:g") :=
  (Lambda.BuildExecutionARN_join
      (goStr "arn:aws:states:us-east-1:123456789012:stateMachine:Name") (goStr "g")
      (by decide)).trans (by decide)

/-- C26 (as stated, refuted): on the empty history, with everything else in
order, `RevokeGrant` ends with neither a grant nor an error: reading
`Events[len(Events)-1]` panics; and a last event of type `WaitStateEntered`
without state-entered details panics at the dereference. -/
theorem Lambda.RevokeGrant_empty_history_counterexample :
    (RevokeGrant ⟨sampleStateMachineARN⟩ (sampleEnv [] none none)
        (goStr "gra_1") (goStr "admin")).1 = Result.panic
      ∧ (RevokeGrant ⟨sampleStateMachineARN⟩
          (sampleEnv [plainEvent "WaitStateEntered"] none none)
          (goStr "gra_1") (goStr "admin")).1 = Result.panic := by
  decide

/-- C26 (amended): once the execution is described, its input decoded, the
provider found and the history fetched, `RevokeGrant` ends with a grant or an
error for every history that is not empty and whose last event, when it is a
`WaitStateEntered` event, carries state-entered details with a name. -/
theorem Lambda.RevokeGrant_total (r : Runtime) (env : Env)
    (grantID revoker exeARN input args : GoString) (grant : Types.Grant)
    (prov : RegisteredProvider) (events : List HistoryEvent)
    (hcfg : env.LoadDefaultConfig = none)
    (harn : BuildExecutionARN r.GranterStateMachineARN grantID = some exeARN)
    (hdesc : env.DescribeExecution exeARN = .ok (some input))
    (hdec : env.UnmarshalWorkflowInput input = .ok grant)
    (hprov : env.Providers grant.Provider = some prov)
    (hargs : env.MarshalWith grant.With = .ok args)
    (hhist : env.GetExecutionHistory exeARN = .ok events)
    (hne : events ≠ [])
    (hsafe : ∀ lastState, events.getLast? = some lastState
      → lastState.EventType = goStr "WaitStateEntered"
      → (lastState.StateEnteredEventDetails.bind (fun d => d.Name)).isSome = true) :
    (∃ g, (RevokeGrant r env grantID revoker).1 = Result.ok g)
      ∨ ∃ err, (RevokeGrant r env grantID revoker).1 = Result.error err := by
  obtain ⟨lastState, hlast⟩ : ∃ lastState, events.getLast? = some lastState := by
    cases hl : events.getLast? with
    | none => exact absurd (List.getLast?_eq_none_iff.mp hl) hne
    | some e => exact ⟨e, rfl⟩
  have hact := Lambda.activeCondition_eq lastState (hsafe lastState hlast)
  rw [Lambda.RevokeGrant_reached r env grantID revoker exeARN input args grant prov events
    lastState _ hcfg harn hdesc hdec hprov hargs hhist hlast hact]
  cases enteredWaitForWindowEnd lastState
  · cases hs : env.StopExecution exeARN <;> simp [Lambda.stopAndMark_eq, hs]
  · cases hrev : prov.Revoke grant.Subject args grant.ID
    · cases hs : env.StopExecution exeARN <;> simp [Lambda.stopAndMark_eq, hs]
    · simp

/-- Witness for C26 (amended): an execution waiting for the end of the
window. -/
theorem Lambda.RevokeGrant_total_witness :
    (∃ g, (RevokeGrant ⟨sampleStateMachineARN⟩ (sampleEnv waitingHistory none none)
            (goStr "gra_1") (goStr "admin")).1 = Result.ok g)
      ∨ ∃ err, (RevokeGrant ⟨sampleStateMachineARN⟩ (sampleEnv waitingHistory none none)
            (goStr "gra_1") (goStr "admin")).1 = Result.error err :=
  Lambda.RevokeGrant_total ⟨sampleStateMachineARN⟩ (sampleEnv waitingHistory none none)
    (goStr "gra_1") (goStr "admin") sampleExecutionARN (goStr "input") (goStr "args")
    sampleGrant ⟨fun _ _ _ => none⟩ waitingHistory
    rfl (by decide) rfl rfl (Lambda.sampleEnv_Providers_ecs _ _ _) rfl rfl (by decide)
    (by decide)

/-- C29: in `RevokeGrant`, when the execution cannot be described, when its
input does not decode, or when the provider of the grant is not registered
(`ProviderNotFoundError` naming that provider), the error is returned, no
grant is, and neither `Provider.Revoke` nor `StopExecution` is called. -/
theorem Lambda.RevokeGrant_early_errors (r : Runtime) (env : Env)
    (grantID revoker exeARN : GoString)
    (hcfg : env.LoadDefaultConfig = none)
    (harn : BuildExecutionARN r.GranterStateMachineARN grantID = some exeARN) :
    (∀ err, env.DescribeExecution exeARN = .error err
        → RevokeGrant r env grantID revoker
            = (Result.error err, [Call.DescribeExecution exeARN]))
      ∧ (∀ input err, env.DescribeExecution exeARN = .ok (some input)
          → env.UnmarshalWorkflowInput input = .error err
          → RevokeGrant r env grantID revoker
              = (Result.error err, [Call.DescribeExecution exeARN]))
      ∧ (∀ input grant, env.DescribeExecution exeARN = .ok (some input)
          → env.UnmarshalWorkflowInput input = .ok grant
          → env.Providers grant.Provider = none
          → RevokeGrant r env grantID revoker
              = (Result.error (GoError.ProviderNotFoundError grant.Provider),
                 [Call.DescribeExecution exeARN]))
      ∧ (Call.DescribeExecution exeARN).isMutating = false := by
  refine ⟨?_, ?_, ?_, rfl⟩
  · intro err hdesc
    simp [RevokeGrant, hcfg, harn, hdesc]
  · intro input err hdesc hdec
    simp [RevokeGrant, hcfg, harn, hdesc, hdec]
  · intro input grant hdesc hdec hprov
    simp [RevokeGrant, hcfg, harn, hdesc, hdec, hprov]

/-- Witness for C29: the grant names a provider that is not registered. -/
theorem Lambda.RevokeGrant_early_errors_witness :
    RevokeGrant ⟨sampleStateMachineARN⟩
        { sampleEnv waitingHistory none none with Providers := fun _ => none }
        (goStr "gra_1") (goStr "admin")
      = (Result.error (GoError.ProviderNotFoundError (goStr "ecs")),
         [Call.DescribeExecution sampleExecutionARN]) :=
  (Lambda.RevokeGrant_early_errors ⟨sampleStateMachineARN⟩
      { sampleEnv waitingHistory none none with Providers := fun _ => none }
      (goStr "gra_1") (goStr "admin") sampleExecutionARN rfl (by decide)).2.2.1
    (goStr "input") sampleGrant rfl rfl rfl

end LastClaims

section EvaluatedClaims

open EcsShellSso Identitysync

set_option maxRecDepth 100000 in
/-- C25 (evaluation at the failing input): for the user record documented
above `idpUserFromAzureUser`, whose `mail` is JSON null, and the email
attribute `mail`, no "could not find email" error is returned: `safeMapGet`
prints the nil value with `%s`, and the user gets the email `%!s(<nil>)`.
With the attribute absent from the record the error is returned. -/
theorem Identitysync.idpUserFromAzureUser_null_mail (userGroups : List GoString) :
    idpUserFromAzureUser { emailIdentifier := goStr "mail" } documentedUser userGroups
        = .ok { ID := goStr "4562bcc8\x2dc436\x2d4f95\x2db7c0\x2d4f8ce89dca5e",
                FirstName := goStr "MOD", LastName := goStr "Administrator",
                Email := goStr "%!s(<nil>)", Groups := userGroups }
      ∧ idpUserFromAzureUser { emailIdentifier := goStr "otherMails" } documentedUser userGroups
        = .error (GoError.message
            (goStr ("could not find email for user 4562bcc8\x2dc436\x2d4f95\x2db7c0\x2d"
              ++ "4f8ce89dca5e (using attribute otherMails)"))) := by
  constructor
  · rfl
  · rfl

set_option maxRecDepth 100000 in
/-- C27 (evaluation at the failing input): for the grant ID of the scenario,
39 bytes long, `Instructions` prints the whole grant ID after `--role-name`,
while `Grant` names the permission set by its first 32 bytes; the two differ
for every grant ID longer than 32. -/
theorem EcsShellSso.Instructions_role_name_evaluation :
    (Instructions (taskProvider (fun _ => [sampleTask true])) sampleBounds scenarioSubject
        scenarioArgs scenarioGrantID (initialBackend, [])).1
        = Result.ok (accessText (goStr "https://d\x2d1234567890.awsapps.com/start")
            (goStr "us\x2deast\x2d1") (goStr "123456789012")
            (goStr "arn:aws:ecs:us\x2deast\x2d1:123456789012:cluster/main")
            (goStr "0123abcd") scenarioGrantID)
      ∧ assumeLine (goStr "URL") (goStr "REGION") (goStr "ACCOUNT") scenarioGrantID
        = goStr ("assume \x2d\x2dsso \x2d\x2dsso\x2dstart\x2durl URL \x2d\x2dsso\x2dregion "
            ++ "REGION \x2d\x2daccount\x2did ACCOUNT \x2d\x2drole\x2dname "
            ++ "grant_123456789012345678901234567890XYZ\n")
      ∧ afterGrant.permissionSets.map Prod.snd = [goStr "grant_12345678901234567890123456"]
      ∧ permissionSetNameFromGrantID scenarioGrantID ≠ scenarioGrantID
      ∧ ∀ grantID : GoString, 32 < grantID.length
          → permissionSetNameFromGrantID grantID ≠ grantID := by
  refine ⟨by decide, by decide, by decide, by decide, ?_⟩
  intro grantID h heq
  have hlen := congrArg List.length heq
  simp only [permissionSetNameFromGrantID, gt_iff_lt, h, if_true, List.length_take] at hlen
  omega

set_option maxRecDepth 100000 in
/-- C28 (evaluation at the failing input): a provider configured for another
instance than the one written out at access.go:146, on a backend serving that
instance.  `Grant` succeeds; `Revoke` deletes the assignment and then polls
the deletion status at the written-out instance ARN, not at `p.instanceARN`;
the backend refuses every poll, `Revoke` fails and the permission set is
left behind. -/
theorem EcsShellSso.Revoke_instance_evaluation :
    (Grant otherInstanceProvider sampleBounds scenarioSubject scenarioArgs scenarioGrantID
        (otherInstanceBackend, [])).1 = Result.ok ()
      ∧ otherInstanceProvider.instanceARN ≠ deletionStatusInstanceArn
      ∧ Call.DescribeAccountAssignmentDeletionStatus deletionStatusInstanceArn
            (some (goStr "request\x2d1"))
          ∈ (Revoke otherInstanceProvider sampleBounds scenarioSubject scenarioArgs
              scenarioGrantID (otherInstanceAfterGrant, [])).2.2
      ∧ (Revoke otherInstanceProvider sampleBounds scenarioSubject scenarioArgs
            scenarioGrantID (otherInstanceAfterGrant, [])).2.2.all
          (Call.addressedTo otherInstanceProvider.instanceARN) = false
      ∧ (Revoke otherInstanceProvider sampleBounds scenarioSubject scenarioArgs
            scenarioGrantID (otherInstanceAfterGrant, [])).1
          = Result.error (GoError.message (goStr "ResourceNotFoundException: unknown instance"))
      ∧ (Revoke otherInstanceProvider sampleBounds scenarioSubject scenarioArgs
            scenarioGrantID (otherInstanceAfterGrant, [])).2.1.permissionSets.map Prod.snd
          = [goStr "grant_12345678901234567890123456"]
      ∧ (Revoke otherInstanceProvider sampleBounds scenarioSubject scenarioArgs
            scenarioGrantID (otherInstanceAfterGrant, [])).2.1.assignments = [] := by
  decide

end EvaluatedClaims

/-! ### The task lookup of ecs-shell-sso -/

section TaskLookup

open EcsShellSso

theorem EcsShellSso.selectLatest_cons_of_not_running (t : Task) (rest : List Task)
    (acc : Int × GoString) (hs : t.LastStatus.isSome = true) (hr : t.isRunning = false) :
    selectLatest (t :: rest) acc = selectLatest rest acc := by
  obtain ⟨L, A⟩ := acc
  cases hst : t.LastStatus with
  | none => simp [hst] at hs
  | some st =>
    have hne : st ≠ goStr "RUNNING" := by
      intro e
      simp [Task.isRunning, hst, e] at hr
    simp [selectLatest, hst, hne]

theorem EcsShellSso.selectLatest_cons_of_running (t : Task) (rest : List Task)
    (L : Int) (A : GoString) (r : Int) (arn : GoString)
    (hr : t.isRunning = true) (hrev : t.revision = some r) (harn : t.TaskArn = some arn) :
    selectLatest (t :: rest) (L, A)
      = if r > L then selectLatest rest (r, arn) else selectLatest rest (L, A) := by
  have hst : t.LastStatus = some (goStr "RUNNING") := by
    simpa [Task.isRunning] using hr
  unfold Task.revision at hrev
  cases hd : t.TaskDefinitionArn with
  | none => simp [hd] at hrev
  | some darn =>
    simp only [hd] at hrev
    cases hf : (Strings.Split darn colon)[6]? with
    | none => simp [hf] at hrev
    | some field =>
      simp only [hf] at hrev
      cases ha : Strconv.Atoi field with
      | error err => simp [ha] at hrev
      | ok v =>
        simp only [ha, Option.some.injEq] at hrev
        subst hrev
        by_cases hgt : v > L
        · simp [selectLatest, hst, hd, hf, ha, hgt, harn]
        · simp [selectLatest, hst, hd, hf, ha, hgt]

/-- On well-formed tasks the inner loop ends normally, and it either keeps
the revision and ARN it started from, no running task having a larger
revision, or ends with the revision and ARN of the first running task of
largest revision. -/
theorem EcsShellSso.selectLatest_spec (tasks : List Task)
    (hwf : ∀ t ∈ tasks, t.WellFormed) :
    ∀ (L : Int) (A : GoString),
      (selectLatest tasks (L, A) = Result.ok (L, A)
          ∧ ∀ t ∈ tasks, t.isRunning = true → ∀ r, t.revision = some r → r ≤ L)
        ∨ ∃ pre t post r arn, tasks = pre ++ t :: post ∧ t.isRunning = true
            ∧ t.revision = some r ∧ t.TaskArn = some arn
            ∧ selectLatest tasks (L, A) = Result.ok (r, arn) ∧ L < r
            ∧ (∀ u ∈ pre, u.isRunning = true → ∀ q, u.revision = some q → q < r)
            ∧ (∀ u ∈ tasks, u.isRunning = true → ∀ q, u.revision = some q → q ≤ r) := by
  induction tasks with
  | nil =>
    intro L A
    left
    exact ⟨rfl, by simp⟩
  | cons t rest ih =>
    intro L A
    have hwft := hwf t (by simp)
    have ih := ih (fun u hu => hwf u (by simp [hu]))
    cases hrun : t.isRunning with
    | false =>
      rw [selectLatest_cons_of_not_running t rest (L, A) hwft.1 hrun]
      rcases ih L A with ⟨hres, hle⟩ | ⟨pre, u, post, r, arn, hsplit, hu, hrev, harn, hres, hlt,
          hpre, hall⟩
      · left
        refine ⟨hres, ?_⟩
        intro v hv hvr q hq
        rcases List.mem_cons.mp hv with rfl | hv
        · rw [hrun] at hvr
          exact absurd hvr (by simp)
        · exact hle v hv hvr q hq
      · right
        refine ⟨t :: pre, u, post, r, arn, by simp [hsplit], hu, hrev, harn, hres, hlt, ?_, ?_⟩
        · intro v hv hvr q hq
          rcases List.mem_cons.mp hv with rfl | hv
          · rw [hrun] at hvr
            exact absurd hvr (by simp)
          · exact hpre v hv hvr q hq
        · intro v hv hvr q hq
          rcases List.mem_cons.mp hv with rfl | hv
          · rw [hrun] at hvr
            exact absurd hvr (by simp)
          · exact hall v hv hvr q hq
    | true =>
      obtain ⟨r0, arn0, hrev0, -, harn0, -⟩ := hwft.2 hrun
      rw [selectLatest_cons_of_running t rest L A r0 arn0 hrun hrev0 harn0]
      by_cases hgt : r0 > L
      · rw [if_pos hgt]
        rcases ih r0 arn0 with ⟨hres, hle⟩ | ⟨pre, u, post, r, arn, hsplit, hu, hrev, harn,
            hres, hlt, hpre, hall⟩
        · right
          refine ⟨[], t, rest, r0, arn0, rfl, hrun, hrev0, harn0, hres, hgt, by simp, ?_⟩
          intro v hv hvr q hq
          rcases List.mem_cons.mp hv with rfl | hv
          · rw [hrev0] at hq
            cases hq
            exact le_refl _
          · exact hle v hv hvr q hq
        · right
          refine ⟨t :: pre, u, post, r, arn, by simp [hsplit], hu, hrev, harn, hres,
            lt_trans hgt hlt, ?_, ?_⟩
          · intro v hv hvr q hq
            rcases List.mem_cons.mp hv with rfl | hv
            · rw [hrev0] at hq
              cases hq
              exact hlt
            · exact hpre v hv hvr q hq
          · intro v hv hvr q hq
            rcases List.mem_cons.mp hv with rfl | hv
            · rw [hrev0] at hq
              cases hq
              exact le_of_lt hlt
            · exact hall v hv hvr q hq
      · rw [if_neg hgt]
        have hle0 : r0 ≤ L := not_lt.mp hgt
        rcases ih L A with ⟨hres, hle⟩ | ⟨pre, u, post, r, arn, hsplit, hu, hrev, harn,
            hres, hlt, hpre, hall⟩
        · left
          refine ⟨hres, ?_⟩
          intro v hv hvr q hq
          rcases List.mem_cons.mp hv with rfl | hv
          · rw [hrev0] at hq
            cases hq
            exact hle0
          · exact hle v hv hvr q hq
        · right
          refine ⟨t :: pre, u, post, r, arn, by simp [hsplit], hu, hrev, harn, hres, hlt,
            ?_, ?_⟩
          · intro v hv hvr q hq
            rcases List.mem_cons.mp hv with rfl | hv
            · rw [hrev0] at hq
              cases hq
              exact lt_of_le_of_lt hle0 hlt
            · exact hpre v hv hvr q hq
          · intro v hv hvr q hq
            rcases List.mem_cons.mp hv with rfl | hv
            · rw [hrev0] at hq
              cases hq
              exact le_of_lt (lt_of_le_of_lt hle0 hlt)
            · exact hall v hv hvr q hq

/-- The inner loop over two pages in a row is the inner loop over their
concatenation. -/
theorem EcsShellSso.selectLatest_append (a b : List Task) (hwf : ∀ t ∈ a, t.WellFormed)
    (acc : Int × GoString) :
    ∃ mid, selectLatest a acc = Result.ok mid
      ∧ selectLatest (a ++ b) acc = selectLatest b mid := by
  induction a generalizing acc with
  | nil => exact ⟨acc, rfl, rfl⟩
  | cons t rest ih =>
    obtain ⟨L, A⟩ := acc
    have hwft := hwf t (by simp)
    have ih := ih (fun u hu => hwf u (by simp [hu]))
    cases hrun : t.isRunning with
    | false =>
      rw [List.cons_append, selectLatest_cons_of_not_running t rest (L, A) hwft.1 hrun,
        selectLatest_cons_of_not_running t (rest ++ b) (L, A) hwft.1 hrun]
      exact ih (L, A)
    | true =>
      obtain ⟨r0, arn0, hrev0, -, harn0, -⟩ := hwft.2 hrun
      rw [List.cons_append, selectLatest_cons_of_running t rest L A r0 arn0 hrun hrev0 harn0,
        selectLatest_cons_of_running t (rest ++ b) L A r0 arn0 hrun hrev0 harn0]
      by_cases hgt : r0 > L
      · rw [if_pos hgt, if_pos hgt]
        exact ih (r0, arn0)
      · rw [if_neg hgt, if_neg hgt]
        exact ih (L, A)

/-- Over a finite sequence of pages of well-formed tasks, the loop of
`getTaskARNFromTaskDefinition` ends with what the inner loop computes on all
tasks in a row. -/
theorem EcsShellSso.listTasksLoop_of_pages {σ : Type} (p : Provider σ) (family : GoString)
    (s s1 : σ) (token : Option GoString) (pages : List (List Task))
    (hpages : TaskPages p family s token pages s1) :
    ∀ (fuel : Nat) (acc : Int × GoString) (trace : List Call),
      pages.length ≤ fuel → (∀ t ∈ pages.flatten, t.WellFormed) →
      ∃ trace1, listTasksLoop p family fuel token acc (s, trace)
        = (selectLatest pages.flatten acc, (s1, trace1)) := by
  induction hpages with
  | last s s1 s2 token out tasks hl hd hn =>
    intro fuel acc trace hfuel hwf
    cases fuel with
    | zero => simp at hfuel
    | succ n =>
      obtain ⟨mid, hmid, -⟩ := selectLatest_append tasks [] (by simpa using hwf) acc
      refine ⟨(trace ++ [Call.ListTasks p.ecsClusterARN family token])
        ++ [Call.DescribeTasks p.ecsClusterARN out.TaskArns], ?_⟩
      unfold listTasksLoop
      simp only [Prog.bind_apply, invoke_apply, hl, hd, Prog.lift_apply, hmid, hn,
        Option.isSome_none, Bool.false_eq_true, if_false, Prog.pure_apply, List.flatten_cons,
        List.flatten_nil, List.append_nil]
  | more s s1 s2 s3 token out tasks next rest hl hd hn hrest ih =>
    intro fuel acc trace hfuel hwf
    cases fuel with
    | zero => simp at hfuel
    | succ n =>
      have hwf1 : ∀ t ∈ tasks, t.WellFormed := fun t ht => hwf t (by simp [ht])
      have hwf2 : ∀ t ∈ rest.flatten, t.WellFormed := fun t ht =>
        hwf t (by
          rw [List.flatten_cons]
          exact List.mem_append_right _ ht)
      obtain ⟨mid, hmid, happ⟩ := selectLatest_append tasks rest.flatten hwf1 acc
      obtain ⟨trace1, hloop⟩ := ih n mid
        ((trace ++ [Call.ListTasks p.ecsClusterARN family token])
          ++ [Call.DescribeTasks p.ecsClusterARN out.TaskArns])
        (by simpa using hfuel) hwf2
      refine ⟨trace1, ?_⟩
      unfold listTasksLoop
      simp only [Prog.bind_apply, invoke_apply, hl, hd, Prog.lift_apply, hmid, hn,
        Option.isSome_some, if_true, List.flatten_cons, happ]
      exact hloop

end TaskLookup

section TaskLookupClaim

open EcsShellSso

set_option maxRecDepth 100000 in
/-- C24 (as stated, refuted): the one listed task is RUNNING and its task
definition has revision 0; `getTaskARNFromTaskDefinition` returns
`errTaskNotFound`, because the revision is compared with `>` to a latest
revision that starts at 0. -/
theorem EcsShellSso.getTaskARNFromTaskDefinition_revision_zero_counterexample :
    revisionZeroTask.isRunning = true
      ∧ (getTaskARNFromTaskDefinition (taskProvider (fun _ => [revisionZeroTask])) sampleBounds
          (goStr "svc") (initialBackend, [])).1 = Result.error GoError.errTaskNotFound := by
  decide

/-- C24 (amended): over a finite sequence of task pages in which every task
has a status and every RUNNING task has a task definition ARN with a decimal
revision of at least 1 in its 7th field and a task ARN that is not empty,
`getTaskARNFromTaskDefinition` returns `errTaskNotFound` if and only if no
listed task is RUNNING; otherwise it returns the ARN of a RUNNING task whose
revision is the largest among all RUNNING tasks of all pages, the first such
task in listing order. -/
theorem EcsShellSso.getTaskARNFromTaskDefinition_latest {σ : Type} (p : Provider σ)
    (b : Bounds) (family : GoString) (s s1 : σ) (trace : List Call)
    (pages : List (List Task))
    (hpages : TaskPages p family s none pages s1)
    (hfuel : pages.length ≤ b.pages)
    (hwf : ∀ t ∈ pages.flatten, t.WellFormed) :
    ((getTaskARNFromTaskDefinition p b family (s, trace)).1
          = Result.error GoError.errTaskNotFound
        ↔ ∀ t ∈ pages.flatten, t.isRunning = false)
      ∧ ((∃ t ∈ pages.flatten, t.isRunning = true)
          → ∃ pre t post r arn, pages.flatten = pre ++ t :: post ∧ t.isRunning = true
              ∧ t.revision = some r ∧ t.TaskArn = some arn
              ∧ (getTaskARNFromTaskDefinition p b family (s, trace)).1 = Result.ok arn
              ∧ (∀ u ∈ pages.flatten, u.isRunning = true → ∀ q, u.revision = some q → q ≤ r)
              ∧ (∀ u ∈ pre, u.isRunning = true → ∀ q, u.revision = some q → q < r)) := by
  obtain ⟨trace1, hloop⟩ :=
    listTasksLoop_of_pages p family s s1 none pages hpages b.pages (0, []) trace hfuel hwf
  have hrun : getTaskARNFromTaskDefinition p b family (s, trace)
      = (match selectLatest pages.flatten (0, []) with
         | Result.ok found =>
           if found.2 = [] then Result.error GoError.errTaskNotFound else Result.ok found.2
         | Result.error err => Result.error err
         | Result.panic => Result.panic
         | Result.exhausted => Result.exhausted, (s1, trace1)) := by
    unfold getTaskARNFromTaskDefinition
    rw [Prog.bind_apply, hloop]
    cases selectLatest pages.flatten (0, []) with
    | ok found =>
      by_cases hf : found.2 = [] <;> simp [hf, Prog.fail_apply, Prog.pure_apply]
    | error err => rfl
    | panic => rfl
    | exhausted => rfl
  rw [hrun]
  rcases selectLatest_spec pages.flatten hwf 0 [] with ⟨hres, hle⟩ | ⟨pre, t, post, r, arn,
      hsplit, ht, hrev, harn, hres, hlt, hpre, hall⟩
  · have hnone : ∀ t ∈ pages.flatten, t.isRunning = false := by
      intro t ht
      cases hr : t.isRunning with
      | false => rfl
      | true =>
        obtain ⟨r, arn, hrev, hpos, -, -⟩ := (hwf t ht).2 hr
        have := hle t ht hr r hrev
        omega
    refine ⟨?_, ?_⟩
    · rw [hres]
      simp only [if_true]
      exact ⟨fun _ => hnone, fun _ => trivial⟩
    · rintro ⟨t, ht, hr⟩
      rw [hnone t ht] at hr
      exact absurd hr (by simp)
  · have htmem : t ∈ pages.flatten := by
      rw [hsplit]
      simp
    obtain ⟨r2, arn2, hrev2, -, harn2, hne⟩ := (hwf t htmem).2 ht
    rw [harn] at harn2
    cases harn2
    refine ⟨?_, ?_⟩
    · rw [hres]
      simp only [hne, if_false]
      constructor
      · intro h
        cases h
      · intro hnone
        rw [hnone t htmem] at ht
        exact absurd ht (by simp)
    · intro _
      refine ⟨pre, t, post, r, arn, hsplit, ht, hrev, harn, ?_, hall, hpre⟩
      rw [hres]
      simp only [hne, if_false]

/-- Witness for C24 (amended): one page with one running task of
revision 3. -/
theorem EcsShellSso.getTaskARNFromTaskDefinition_latest_witness :
    (getTaskARNFromTaskDefinition (taskProvider (fun _ => [sampleTask true])) sampleBounds
          (goStr "svc") (initialBackend, [])).1 = Result.error GoError.errTaskNotFound
      ↔ ∀ t ∈ [[sampleTask true]].flatten, t.isRunning = false :=
  (EcsShellSso.getTaskARNFromTaskDefinition_latest
    (taskProvider (fun _ => [sampleTask true])) sampleBounds (goStr "svc")
    initialBackend initialBackend [] [[sampleTask true]]
    (TaskPages.last initialBackend initialBackend initialBackend none
      { TaskArns := [sampleTaskARN], NextToken := none } [sampleTask true] rfl rfl rfl)
    (by decide)
    (by
      intro t ht
      simp only [List.flatten_cons, List.flatten_nil, List.append_nil,
        List.mem_singleton] at ht
      subst ht
      exact ⟨by decide, fun _ => ⟨3, sampleTaskARN, by decide, by decide, rfl, by decide⟩⟩)).1

end TaskLookupClaim
